import Mathlib

/-!
# Governance superblocks (governance-classes.cpp)

A shallow embedding of the superblock code of `src/governance-classes.cpp`:
the trigger registry, the selection of the best superblock for a height and
the validation of a candidate transaction against a superblock.

Conventions of the embedding.

* `CAmount` (`int64_t`) and `int` values are integers.  The `CAmount`
  additions of `CSuperblock::GetPaymentsTotalAmount` and of
  `CSuperblock::IsValidSuperblock` and the product of
  `CSuperblock::GetPaymentsLimit` are reduced with `wrap64` (two's-complement
  wrap-around, what the compiled code computes; the C++ standard leaves signed
  overflow undefined).  Container sizes are taken to fit in `int`.
* The passage of the payments limit through `double` (line 685) rounds to 53
  significant binary digits, ties to even, and the conversion back truncates
  toward zero.
* The `int` addition of `CGovernanceTriggerManager::CleanAndRemove` is reduced
  with `wrap32` in the same way.
* `uint256` hashes are natural numbers, scripts are byte lists, a
  `std::string` is a list of characters, one for each byte.
* An exception is a value: a function that can throw returns the exception or
  its result, and a member function that throws after writing to a member
  returns the exception together with the member.
* Functions and constants of files that are not under src/ are arguments
  (`ChainContext`, `ParseContext`, the expiration blocks) or are modelled from
  the spec, as their comments say.
* `LogPrint`, `LogPrintf` and `DBG` statements are not part of the verdicts
  and are left out.  One of them, at lines 826-830 of
  `CSuperblock::IsValidSuperblock`, evaluates
  `GetGovernanceObject()->GetDataAsHex()` at a regular superblock height
  without a null check; the verdict function does not model that dereference,
  `CSuperblock.IsValidSuperblockRun` does.
* Globals (`governance`, `triggerman`, `Params()`, `fProd`,
  `pindexBestHeader`) are explicit arguments.
-/

namespace Biblepay

/-! ## Machine integers -/

/-- Two's-complement reduction of an integer to the range of `int64_t`. -/
def wrap64 (x : Int) : Int := (x + 2 ^ 63) % 2 ^ 64 - 2 ^ 63

/-- The value is representable as an `int64_t`. -/
def IsInt64 (x : Int) : Prop := -(2 ^ 63) ≤ x ∧ x < 2 ^ 63

/-- Two's-complement reduction of an integer to the range of `int`. -/
def wrap32 (x : Int) : Int := (x + 2 ^ 31) % 2 ^ 32 - 2 ^ 31

/-- The value is representable as an `int`. -/
def IsInt32 (x : Int) : Prop := -(2 ^ 31) ≤ x ∧ x < 2 ^ 31

/-- The number of base units in one coin (`COIN` of amount.h, which is not
under src/; the amounts are fixed point with 8 fractional digits). -/
def COIN : Int := 100000000

/-! ## Data model -/

/-- A script (`CScript`), a byte vector compared bytewise. -/
abbrev CScript := List Nat

/-- One scheduled payment (`CGovernancePayment`). -/
structure CGovernancePayment where
  script : CScript
  nAmount : Int
  deriving DecidableEq

/-- One transaction output (`CTxOut`). -/
structure CTxOut where
  nValue : Int
  scriptPubKey : CScript
  sTxOutMessage : String := ""
  deriving DecidableEq

/-- A transaction (`CTransaction`), reduced to its outputs. -/
structure CTransaction where
  vout : List CTxOut
  deriving DecidableEq

/-- Modelled from the spec: `CTransaction::GetValueOut` (primitives/transaction.cpp
is not under src/) is the total value paid out by the transaction. -/
def CTransaction.GetValueOut (tx : CTransaction) : Int :=
  (tx.vout.map (fun o => o.nValue)).sum

/-- Status values of a seen governance object, as declared in
governance-object.h (not under src/). -/
def SEEN_OBJECT_IS_VALID : Int := 0

/-- Status of an object found invalid. -/
def SEEN_OBJECT_ERROR_INVALID : Int := 1

/-- Status of an executed trigger. -/
def SEEN_OBJECT_EXECUTED : Int := 3

/-- Status of an object not yet judged, the default. -/
def SEEN_OBJECT_UNKNOWN : Int := 4

/-- The declared type of a trigger object, as declared in governance-object.h
(not under src/). -/
def GOVERNANCE_OBJECT_TRIGGER : Int := 2

/-- A superblock (`CSuperblock`). -/
structure CSuperblock where
  nGovObjHash : Nat
  nEpochStart : Int
  nStatus : Int
  vecPayments : List CGovernancePayment
  deriving DecidableEq

/-- Modelled from the spec: a value of the structured payload of a vote object
(`UniValue`, whose code is not under src/): null, a string, an integer number,
or any other value (a number that is not an integer, a boolean, an array, an
object). -/
inductive UniValue where
  | VNULL
  | VSTR (s : List Char)
  | VNUM (n : Int)
  | VOTHER
  deriving DecidableEq

/-- A governance object (`CGovernanceObject`), reduced to what the superblock
code reads and writes: its declared type, the result of
`GetAbsoluteYesCount(VOTE_SIGNAL_FUNDING)`, the key/value document returned by
`GetJSONObject`, and the fields `fExpired`, `nDeletionTime` and
`fCachedFunding`. -/
structure CGovernanceObject where
  nObjectType : Int
  nAbsoluteYesCountFunding : Int
  jsonObject : List (String × UniValue) := []
  fExpired : Bool := false
  nDeletionTime : Int := 0
  fCachedFunding : Bool := false
  deriving DecidableEq

/-- The governance object store (`governance.mapObjects`), an association list
from object hash to object. -/
structure CGovernanceManager where
  mapObjects : List (Nat × CGovernanceObject)
  deriving DecidableEq

/-- The trigger registry (`CGovernanceTriggerManager::mapTrigger`), listed in
the iteration order of the map; a value is a shared pointer and may be null. -/
structure CGovernanceTriggerManager where
  mapTrigger : List (Nat × Option CSuperblock)
  deriving DecidableEq

/-- Consensus parameters read by the superblock code (`Consensus::Params`). -/
structure ConsensusParams where
  nSuperblockStartBlock : Int
  nSuperblockCycle : Int
  nDCCSuperblockStartBlock : Int
  nDCCSuperblockCycle : Int

/-- The chain context read by the height rules and the payments limit: the
consensus parameters, the network flag, and the constants and functions that
are declared outside src/. -/
structure ChainContext where
  consensus : ConsensusParams
  fProd : Bool
  PODCEnabled : Int → Bool
  F13000_CUTOVER_HEIGHT_PROD : Int
  F13000_CUTOVER_HEIGHT_TESTNET : Int
  FPOG_CUTOVER_HEIGHT_PROD : Int
  LAST_POG_BLOCK_PROD : Int
  FPOG_CUTOVER_HEIGHT_TESTNET : Int
  LAST_POG_BLOCK_TESTNET : Int
  pindexBestHeaderPrev : Nat
  GetBlockSubsidy : Nat → Int → Int → Int

/-! ## Height rules and payments limit -/

/-- `CSuperblock::IsValidBlockHeight` (lines 629-634). -/
def CSuperblock.IsValidBlockHeight (ctx : ChainContext) (nBlockHeight : Int) : Bool :=
  decide (nBlockHeight ≥ ctx.consensus.nSuperblockStartBlock) &&
    decide (Int.tmod nBlockHeight ctx.consensus.nSuperblockCycle = 0)

/-- `CSuperblock::IsPOGSuperblock` (lines 636-647). -/
def CSuperblock.IsPOGSuperblock (ctx : ChainContext) (nHeight : Int) : Bool :=
  if (decide (nHeight > ctx.FPOG_CUTOVER_HEIGHT_PROD) && decide (nHeight < ctx.LAST_POG_BLOCK_PROD)
        && ctx.fProd)
      || (decide (nHeight > ctx.FPOG_CUTOVER_HEIGHT_TESTNET)
        && decide (nHeight < ctx.LAST_POG_BLOCK_TESTNET) && !ctx.fProd) then
    decide (nHeight ≥ ctx.consensus.nDCCSuperblockStartBlock) &&
      decide (Int.tmod nHeight ctx.consensus.nDCCSuperblockCycle = 20)
  else
    false

/-- `CSuperblock::IsDCCSuperblock` (lines 649-662). -/
def CSuperblock.IsDCCSuperblock (ctx : ChainContext) (nHeight : Int) : Bool :=
  if !ctx.PODCEnabled nHeight then false
  else if (decide (nHeight > ctx.F13000_CUTOVER_HEIGHT_PROD) && ctx.fProd)
      || (decide (nHeight > ctx.F13000_CUTOVER_HEIGHT_TESTNET) && !ctx.fProd) then
    decide (nHeight ≥ ctx.consensus.nDCCSuperblockStartBlock) &&
      decide (Int.tmod nHeight ctx.consensus.nDCCSuperblockCycle = 10)
  else
    decide (nHeight ≥ ctx.consensus.nDCCSuperblockStartBlock) &&
      decide (Int.tmod nHeight ctx.consensus.nDCCSuperblockCycle = 0)

/-- The number of binary digits that a natural number has beyond 53, found by
halving at most `fuel` times. -/
def excessBits : Nat → Nat → Nat
  | 0, _ => 0
  | fuel + 1, n => if n < 2 ^ 53 then 0 else excessBits fuel (n / 2) + 1

/-- The nearest natural number with at most 53 significant binary digits, a tie
going to the even significand: the rounding of IEEE 754 binary64.  The 64
halvings suffice below `2 ^ 117`; the arguments here are below `2 ^ 66`. -/
def roundNat53 (n : Nat) : Nat :=
  let s := excessBits 64 n
  let q := n / 2 ^ s
  let r := n % 2 ^ s
  if 2 * r < 2 ^ s then q * 2 ^ s
  else if 2 ^ s < 2 * r then (q + 1) * 2 ^ s
  else if q % 2 = 0 then q * 2 ^ s
  else (q + 1) * 2 ^ s

/-- The conversion of an integer to `double`, as an integer again: the value is
rounded to 53 significant binary digits.  The rounding acts on the significand
alone, so the `double` nearest to `x / 4` is `roundDouble x / 4`. -/
def roundDouble (x : Int) : Int :=
  if 0 ≤ x then (roundNat53 x.toNat : Int) else -(roundNat53 (-x).toNat : Int)

/-- The conversion of a `double` of integer value to `CAmount`.  A value outside
the range of `int64_t` is undefined in C++; it is given the result of the
conversion instruction of x86-64, the least `int64_t`. -/
def doubleToCAmount (v : Int) : Int :=
  if -(2 ^ 63) ≤ v ∧ v < 2 ^ 63 then v else -(2 ^ 63)

/-- The product `amount * nBudgetFactor` of line 685, converted back to
`CAmount`: the `int64_t` amount is converted to `double`, multiplied by the
factor 1 or 1.75 in `double`, and the product is converted to `CAmount`, which
truncates toward zero.  The product by 1.75 of the double `d` is the double
nearest to `7 * d / 4`. -/
def mulBudgetFactor (x : Int) (fSpecialWindow : Bool) : Int :=
  if fSpecialWindow then doubleToCAmount (Int.tdiv (roundDouble (roundDouble x * 7)) 4)
  else doubleToCAmount (roundDouble x)

/-- `CSuperblock::GetPaymentsLimit` (lines 664-691). -/
def CSuperblock.GetPaymentsLimit (ctx : ChainContext) (nBlockHeight : Int) : Int :=
  if nBlockHeight < 10 then 0
  else if !CSuperblock.IsValidBlockHeight ctx nBlockHeight
      && !CSuperblock.IsDCCSuperblock ctx nBlockHeight then 0
  else
    let nBits : Int := 486585255
    let nSuperblockCycle : Int :=
      if CSuperblock.IsValidBlockHeight ctx nBlockHeight then ctx.consensus.nSuperblockCycle
      else ctx.consensus.nDCCSuperblockCycle
    let nSuperblockPartOfSubsidy : Int :=
      ctx.GetBlockSubsidy ctx.pindexBestHeaderPrev nBits nBlockHeight
    let fSpecialWindow : Bool :=
      decide (nBlockHeight > 106150) && decide (nBlockHeight < 107001)
        && CSuperblock.IsDCCSuperblock ctx nBlockHeight
    let nPaymentsLimit : Int :=
      mulBudgetFactor (wrap64 (nSuperblockPartOfSubsidy * nSuperblockCycle)) fSpecialWindow
    if decide (nBlockHeight > 107000) && decide (nPaymentsLimit > 13500000 * COIN) then
      13500000 * COIN
    else nPaymentsLimit

/-! ## Superblock accessors -/

/-- `CSuperblock::CountPayments`. -/
def CSuperblock.CountPayments (sb : CSuperblock) : Int := sb.vecPayments.length

/-- `CSuperblock::GetBlockStart`. -/
def CSuperblock.GetBlockStart (sb : CSuperblock) : Int := sb.nEpochStart

/-- `CSuperblock::GetPayment` (lines 764-772): `none` stands for the return
value false. -/
def CSuperblock.GetPayment (sb : CSuperblock) (nPaymentIndex : Int) : Option CGovernancePayment :=
  if nPaymentIndex < 0 ∨ nPaymentIndex ≥ (sb.vecPayments.length : Int) then none
  else sb.vecPayments[nPaymentIndex.toNat]?

/-- The accumulation loop of `CSuperblock::GetPaymentsTotalAmount` started from
a running total: `nPaymentsTotalAmount += vecPayments[i].nAmount` on
`int64_t`. -/
def sumAmounts64 : Int → List CGovernancePayment → Int
  | acc, [] => acc
  | acc, p :: ps => sumAmounts64 (wrap64 (acc + p.nAmount)) ps

/-- `CSuperblock::GetPaymentsTotalAmount` (lines 774-784). -/
def CSuperblock.GetPaymentsTotalAmount (sb : CSuperblock) : Int :=
  sumAmounts64 0 sb.vecPayments

/-- `CGovernanceManager::FindGovernanceObject`: the lookup of a hash in the
object store, `none` for a null pointer. -/
def CGovernanceManager.FindGovernanceObject (gov : CGovernanceManager) (nHash : Nat) :
    Option CGovernanceObject :=
  gov.mapObjects.lookup nHash

/-- `CSuperblock::GetGovernanceObject` (declared in governance-classes.h, not
under src/): the backing object of a superblock,
`governance.FindGovernanceObject(nGovObjHash)`, `none` for a null pointer. -/
def CSuperblock.GetGovernanceObject (gov : CGovernanceManager) (sb : CSuperblock) :
    Option CGovernanceObject :=
  gov.FindGovernanceObject sb.nGovObjHash

/-! ## Validation of a candidate transaction -/

/-- The comparison of lines 880-881: script and amount both equal. -/
def paymentMatches (payment : CGovernancePayment) (txout : CTxOut) : Bool :=
  decide (payment.script = txout.scriptPubKey) && decide (payment.nAmount = txout.nValue)

/-- The inner loop of lines 878-887 over the outputs from position `j` on
(`rest` is the output list from `j`): the first matching position, or `none`
when the loop ends with `fPaymentMatch` false. -/
def scanOutputs (payment : CGovernancePayment) : List CTxOut → Nat → Option Nat
  | [], _ => none
  | txout :: rest, j =>
    if paymentMatches payment txout then some j else scanOutputs payment rest (j + 1)

/-- The outer loop of lines 867-899: `n` iterations remain, `i` is the payment
index and `nVoutIndex` the cursor into the outputs. -/
def paymentLoop (sb : CSuperblock) (vout : List CTxOut) : Nat → Nat → Nat → Bool
  | 0, _, _ => true
  | n + 1, i, nVoutIndex =>
    match sb.GetPayment (i : Int) with
    | none => paymentLoop sb vout n (i + 1) nVoutIndex
    | some payment =>
      match scanOutputs payment (vout.drop nVoutIndex) nVoutIndex with
      | none => false
      | some j => paymentLoop sb vout n (i + 1) j

/-- `CSuperblock::IsValidSuperblock` (lines 805-903). -/
def CSuperblock.IsValidSuperblock (ctx : ChainContext) (sb : CSuperblock) (txNew : CTransaction)
    (nBlockHeight : Int) (blockReward : Int) (_nBlockTime : Int) : Bool :=
  if !CSuperblock.IsValidBlockHeight ctx nBlockHeight
      && !CSuperblock.IsDCCSuperblock ctx nBlockHeight then false
  else
    let nOutputs : Int := txNew.vout.length
    let nPayments : Int := sb.CountPayments
    let nMinerPayments : Int := nOutputs - nPayments
    if nMinerPayments < 0 then false
    else
      let nPaymentsTotalAmount : Int := sb.GetPaymentsTotalAmount
      let nPaymentsLimit : Int := CSuperblock.GetPaymentsLimit ctx nBlockHeight
      if nPaymentsTotalAmount > nPaymentsLimit then false
      else
        let nBlockValue : Int := txNew.GetValueOut
        if CSuperblock.IsValidBlockHeight ctx nBlockHeight
            && decide (nBlockValue > wrap64 (blockReward + nPaymentsTotalAmount)) then false
        else paymentLoop sb txNew.vout nPayments.toNat 0 0

/-! ## Trigger registry queries and selection of the best superblock -/

/-- `CGovernanceTriggerManager::GetActiveTriggers` (lines 261-284): the
registered pointers whose key resolves in the object store, in iteration
order. -/
def CGovernanceTriggerManager.GetActiveTriggers (gov : CGovernanceManager)
    (triggerman : CGovernanceTriggerManager) : List (Option CSuperblock) :=
  (triggerman.mapTrigger.filter (fun e => (gov.FindGovernanceObject e.1).isSome)).map
    (fun e => e.2)

/-- One iteration of the loop of `CSuperblockManager::GetBestSuperblock`
(lines 415-442) on the state `(nYesCount, pSuperblockRet)`. -/
def bestSuperblockStep (gov : CGovernanceManager) (nBlockHeight : Int)
    (acc : Int × Option CSuperblock) (pSuperblock : Option CSuperblock) :
    Int × Option CSuperblock :=
  match pSuperblock with
  | none => acc
  | some sb =>
    match sb.GetGovernanceObject gov with
    | none => acc
    | some pObj =>
      if nBlockHeight ≠ sb.GetBlockStart then acc
      else
        let nTempYesCount : Int := pObj.nAbsoluteYesCountFunding
        if nTempYesCount > acc.1 then (nTempYesCount, some sb) else acc

/-- `CSuperblockManager::GetBestSuperblock` (lines 404-445): the returned
boolean together with the final value of the reference argument
`pSuperblockRet`; the argument `pSuperblockRet` is its value on entry. -/
def CSuperblockManager.GetBestSuperblock (ctx : ChainContext) (gov : CGovernanceManager)
    (triggerman : CGovernanceTriggerManager) (pSuperblockRet : Option CSuperblock)
    (nBlockHeight : Int) : Bool × Option CSuperblock :=
  if !CSuperblock.IsValidBlockHeight ctx nBlockHeight
      && !CSuperblock.IsDCCSuperblock ctx nBlockHeight then (false, pSuperblockRet)
  else
    let vecTriggers := triggerman.GetActiveTriggers gov
    let r := vecTriggers.foldl (bestSuperblockStep gov nBlockHeight) (0, pSuperblockRet)
    (decide (r.1 > 0), r.2)

/-- `CSuperblockManager::IsValidSuperblock` (lines 547-571).  The pointer is
null on entry of `GetBestSuperblock`; the branch of a true result with a null
pointer is the dereference of a null pointer in the source and is shown
unreachable below. -/
def CSuperblockManager.IsValidSuperblock (ctx : ChainContext) (gov : CGovernanceManager)
    (triggerman : CGovernanceTriggerManager) (txNew : CTransaction) (nBlockHeight : Int)
    (blockReward : Int) (nBlockTime : Int) : Bool :=
  match CSuperblockManager.GetBestSuperblock ctx gov triggerman none nBlockHeight with
  | (true, some pSuperblock) =>
    pSuperblock.IsValidSuperblock ctx txNew nBlockHeight blockReward nBlockTime
  | (true, none) => false
  | (false, _) => false

/-! ## Payment schedule parser -/

/-- The failures of the construction of a superblock, one for each `throw` of
`ParsePaymentAmount`, `CSuperblock::ParsePaymentSchedule` and the constructor
of `CSuperblock`, and one for the exceptions of the payload accessors. -/
inductive SuperblockError where
  | amountEmpty
  | amountTooLong
  | amountInvalidCharacter
  | amountLeadingPoint
  | amountTooManyPoints
  | amountParseFixedPoint
  | amountOutOfRange
  | mismatchedPayments
  | noPayments
  | invalidAddress
  | invalidPayment
  | objectNotFound
  | notATrigger
  | jsonValue
  deriving DecidableEq

/-- The functions and the constant of other files of the repository that the
parser calls: `CBitcoinAddress::IsValid`, the script that the constructor of
`CGovernancePayment` builds for an address (`none` when it leaves the payment
invalid), `ParseFixedPoint` (`none` for the return value false) and
`MAX_MONEY`. -/
structure ParseContext where
  IsValidAddress : List Char → Bool
  paymentScript : List Char → Option CScript
  ParseFixedPoint : List Char → Nat → Option Int
  MAX_MONEY : Int

/-- `boost::split` with `boost::is_any_of(delims)` and without token
compression: the pieces between delimiter characters, empty pieces included;
the empty string has one empty piece. -/
def boostSplit (delims : List Char) : List Char → List (List Char)
  | [] => [[]]
  | c :: cs =>
    if c ∈ delims then [] :: boostSplit delims cs
    else
      match boostSplit delims cs with
      | [] => [[c]]
      | piece :: pieces => (c :: piece) :: pieces

/-- The string starts with the given string. -/
def startsWith : List Char → List Char → Bool
  | _, [] => true
  | [], _ :: _ => false
  | c :: cs, d :: ds => decide (c = d) && startsWith cs ds

/-- The test `haystack.find(needle) != std::string::npos`. -/
def containsString : List Char → List Char → Bool
  | [], needle => startsWith [] needle
  | c :: cs, needle => startsWith (c :: cs) needle || containsString cs needle

/-- The loop of lines 37-42 of `SplitBy`: every part found in the delimiter
string is erased. -/
def eraseDelimiterParts (strDelimit : List Char) : List (List Char) → List (List Char)
  | [] => []
  | part :: rest =>
    if containsString strDelimit part then eraseDelimiterParts strDelimit rest
    else part :: eraseDelimiterParts strDelimit rest

/-- `SplitBy` (lines 32-45). -/
def SplitBy (strCommand strDelimit : List Char) : List (List Char) :=
  eraseDelimiterParts strDelimit (boostSplit strDelimit strCommand)

/-- `MoneyRange` (amount.h, not under src/): between 0 and `MAX_MONEY`. -/
def MoneyRange (pc : ParseContext) (nValue : Int) : Bool :=
  decide (0 ≤ nValue) && decide (nValue ≤ pc.MAX_MONEY)

/-- The position of the first `.` at or after a position, as `std::string::find`
returns it; `none` stands for `npos`.  The first argument is the string from
the position on. -/
def findPoint : List Char → Nat → Option Nat
  | [], _ => none
  | c :: cs, pos => if c = '.' then some pos else findPoint cs (pos + 1)

/-- `ParsePaymentAmount` (lines 47-107). -/
def ParsePaymentAmount (pc : ParseContext) (strAmount : List Char) : Except SuperblockError Int :=
  if strAmount.isEmpty then .error .amountEmpty
  else if strAmount.length > 20 then .error .amountTooLong
  else if strAmount.any (fun c => !("0123456789.".toList.contains c)) then
    .error .amountInvalidCharacter
  else
    match findPoint strAmount 0 with
    | some 0 => .error .amountLeadingPoint
    | some (pos + 1) =>
      if (findPoint (strAmount.drop (pos + 2)) (pos + 2)).isSome then .error .amountTooManyPoints
      else
        match pc.ParseFixedPoint strAmount 8 with
        | none => .error .amountParseFixedPoint
        | some nAmount =>
          if !MoneyRange pc nAmount then .error .amountOutOfRange else .ok nAmount
    | none =>
      match pc.ParseFixedPoint strAmount 8 with
      | none => .error .amountParseFixedPoint
      | some nAmount =>
        if !MoneyRange pc nAmount then .error .amountOutOfRange else .ok nAmount

/-- The loop of lines 729-761 of `CSuperblock::ParsePaymentSchedule` over the
address and amount tokens still to be read, on the member `vecPayments`: the
exception thrown, if any, and `vecPayments` when the loop is left. -/
def parsePaymentLoop (pc : ParseContext) :
    List (List Char) → List (List Char) → List CGovernancePayment →
    Option SuperblockError × List CGovernancePayment
  | strAddress :: restAddresses, strAmount :: restAmounts, vecPayments =>
    if !pc.IsValidAddress strAddress then (some .invalidAddress, vecPayments)
    else
      match ParsePaymentAmount pc strAmount with
      | .error e => (some e, vecPayments)
      | .ok nAmount =>
        match pc.paymentScript strAddress with
        | some script =>
          parsePaymentLoop pc restAddresses restAmounts
            (vecPayments ++ [{ script := script, nAmount := nAmount }])
        | none => (some .invalidPayment, [])
  | _, _, vecPayments => (none, vecPayments)

/-- `CSuperblock::ParsePaymentSchedule` (lines 693-762) on the member
`vecPayments`: the exception thrown, if any, and `vecPayments` on exit. -/
def CSuperblock.ParsePaymentSchedule (pc : ParseContext)
    (strPaymentAddresses strPaymentAmounts : List Char) (vecPayments : List CGovernancePayment) :
    Option SuperblockError × List CGovernancePayment :=
  let vecParsed1 := SplitBy strPaymentAddresses "|".toList
  let vecParsed2 := SplitBy strPaymentAmounts "|".toList
  if vecParsed1.length ≠ vecParsed2.length then (some .mismatchedPayments, vecPayments)
  else if vecParsed1.length = 0 then (some .noPayments, vecPayments)
  else parsePaymentLoop pc vecParsed1 vecParsed2 vecPayments

/-! ## Construction of a superblock and the trigger registry -/

/-- Modelled from the spec: `UniValue::get_int` (not under src/), which throws
unless the value is an integer number in the range of `int`. -/
def UniValue.get_int : UniValue → Except SuperblockError Int
  | .VNUM n => if -(2 ^ 31) ≤ n ∧ n < 2 ^ 31 then .ok n else .error .jsonValue
  | _ => .error .jsonValue

/-- Modelled from the spec: `UniValue::get_str` (not under src/), which throws
unless the value is a string. -/
def UniValue.get_str : UniValue → Except SuperblockError (List Char)
  | .VSTR s => .ok s
  | _ => .error .jsonValue

/-- Modelled from the spec: the lookup `obj[key]` in the payload document (not
under src/), null when the key is missing. -/
def jsonField (obj : List (String × UniValue)) (key : String) : UniValue :=
  match obj.lookup key with
  | some v => v
  | none => .VNULL

/-- The constructor `CSuperblock::CSuperblock(uint256& nHash)` (lines 581-621):
the superblock built, or the exception thrown. -/
def CSuperblock.construct (pc : ParseContext) (gov : CGovernanceManager) (nHash : Nat) :
    Except SuperblockError CSuperblock :=
  match gov.FindGovernanceObject nHash with
  | none => .error .objectNotFound
  | some pGovObj =>
    if pGovObj.nObjectType ≠ GOVERNANCE_OBJECT_TRIGGER then .error .notATrigger
    else
      let obj := pGovObj.jsonObject
      match (jsonField obj "event_block_height").get_int with
      | .error e => .error e
      | .ok nEpochStart =>
        match (jsonField obj "payment_addresses").get_str with
        | .error e => .error e
        | .ok strAddresses =>
          match (jsonField obj "payment_amounts").get_str with
          | .error e => .error e
          | .ok strAmounts =>
            match CSuperblock.ParsePaymentSchedule pc strAddresses strAmounts [] with
            | (some e, _) => .error e
            | (none, vecPayments) =>
              .ok { nGovObjHash := nHash, nEpochStart := nEpochStart,
                    nStatus := SEEN_OBJECT_UNKNOWN, vecPayments := vecPayments }

/-- `mapTrigger.count(nHash)`: the number of entries under the key. -/
def mapCount (m : List (Nat × Option CSuperblock)) (nHash : Nat) : Nat :=
  (m.filter (fun e => e.1 == nHash)).length

/-- `mapTrigger.insert(std::make_pair(nHash, pSuperblock))`: the pair is placed
at its position in key order; an entry already under the key is kept.  The
order of the keys stands for the order of `uint256`. -/
def mapInsert : List (Nat × Option CSuperblock) → Nat → Option CSuperblock →
    List (Nat × Option CSuperblock)
  | [], nHash, p => [(nHash, p)]
  | e :: rest, nHash, p =>
    if nHash < e.1 then (nHash, p) :: e :: rest
    else if nHash = e.1 then e :: rest
    else e :: mapInsert rest nHash p

/-- `CGovernanceTriggerManager::AddNewTrigger` (lines 113-157): the returned
boolean and the registry on exit. -/
def CGovernanceTriggerManager.AddNewTrigger (pc : ParseContext) (gov : CGovernanceManager)
    (triggerman : CGovernanceTriggerManager) (nHash : Nat) :
    Bool × CGovernanceTriggerManager :=
  if mapCount triggerman.mapTrigger nHash ≠ 0 then (false, triggerman)
  else
    match CSuperblock.construct pc gov nHash with
    | .error _ => (false, triggerman)
    | .ok pSuperblockTmp =>
      let pSuperblock : CSuperblock := { pSuperblockTmp with nStatus := SEEN_OBJECT_IS_VALID }
      (true, { mapTrigger := mapInsert triggerman.mapTrigger nHash (some pSuperblock) })

/-- One iteration of the first loop of `CleanAndRemove` (lines 172-186): the
superblock of an entry whose object resolves to another type than trigger is
marked invalid. -/
def markEntry (gov : CGovernanceManager) (e : Nat × Option CSuperblock) :
    Nat × Option CSuperblock :=
  match gov.FindGovernanceObject e.1 with
  | none => e
  | some pObj =>
    match e.2 with
    | none => e
    | some pSuperblock =>
      if pObj.nObjectType ≠ GOVERNANCE_OBJECT_TRIGGER then
        (e.1, some { pSuperblock with nStatus := SEEN_OBJECT_ERROR_INVALID })
      else e

/-- The assignments of lines 221-222 to the object under a hash, when it
resolves: `fExpired = true` and `nDeletionTime = GetAdjustedTime()`. -/
def expireObject (nAdjustedTime : Int) (nHash : Nat) :
    List (Nat × CGovernanceObject) → List (Nat × CGovernanceObject)
  | [] => []
  | e :: rest =>
    if e.1 == nHash then
      (e.1, { e.2 with fExpired := true, nDeletionTime := nAdjustedTime }) :: rest
    else e :: expireObject nAdjustedTime nHash rest

/-- The body of the second loop of `CleanAndRemove` up to the test of `remove`
(lines 193-230): the value of `remove` and the object store; `nExpirationBlock`
is an `int`. -/
def removeStep (nExpirationBlocks nCachedBlockHeight nAdjustedTime : Int)
    (p : Option CSuperblock) (gov : CGovernanceManager) : Bool × CGovernanceManager :=
  match p with
  | none => (true, gov)
  | some pSuperblock =>
    if pSuperblock.nStatus = SEEN_OBJECT_ERROR_INVALID
        ∨ pSuperblock.nStatus = SEEN_OBJECT_UNKNOWN then (true, gov)
    else if pSuperblock.nStatus = SEEN_OBJECT_IS_VALID
        ∨ pSuperblock.nStatus = SEEN_OBJECT_EXECUTED then
      let nTriggerBlock : Int := pSuperblock.GetBlockStart
      let nExpirationBlock : Int := wrap32 (nTriggerBlock + nExpirationBlocks)
      if nCachedBlockHeight > nExpirationBlock then
        (true, { mapObjects := expireObject nAdjustedTime pSuperblock.nGovObjHash gov.mapObjects })
      else (false, gov)
    else (false, gov)

/-- The second loop of `CleanAndRemove` (lines 191-249) over the entries from
the iterator on: the entries kept and the object store on exit. -/
def removeLoop (nExpirationBlocks nCachedBlockHeight nAdjustedTime : Int) :
    List (Nat × Option CSuperblock) → CGovernanceManager →
    List (Nat × Option CSuperblock) × CGovernanceManager
  | [], gov => ([], gov)
  | e :: rest, gov =>
    let d := removeStep nExpirationBlocks nCachedBlockHeight nAdjustedTime e.2 gov
    let r := removeLoop nExpirationBlocks nCachedBlockHeight nAdjustedTime rest d.2
    (if d.1 then r.1 else e :: r.1, r.2)

/-- `CGovernanceTriggerManager::CleanAndRemove` (lines 165-252): the registry
and the object store on exit.  The arguments are the constant
`GOVERNANCE_TRIGGER_EXPIRATION_BLOCKS` (governance-classes.h, not under src/),
`governance.GetCachedBlockHeight()` and `GetAdjustedTime()`. -/
def CGovernanceTriggerManager.CleanAndRemove (nExpirationBlocks : Int) (gov : CGovernanceManager)
    (triggerman : CGovernanceTriggerManager) (nCachedBlockHeight nAdjustedTime : Int) :
    CGovernanceTriggerManager × CGovernanceManager :=
  let marked := triggerman.mapTrigger.map (markEntry gov)
  let r := removeLoop nExpirationBlocks nCachedBlockHeight nAdjustedTime marked gov
  ({ mapTrigger := r.1 }, r.2)

/-- The loop of lines 269-279 of `GetActiveTriggers` over the entries from the
iterator on, with the vector `vecResults` built so far. -/
def activeTriggersLoop (gov : CGovernanceManager) :
    List (Nat × Option CSuperblock) → List (Option CSuperblock) → List (Option CSuperblock)
  | [], vecResults => vecResults
  | e :: rest, vecResults =>
    match gov.FindGovernanceObject e.1 with
    | some _ => activeTriggersLoop gov rest (vecResults ++ [e.2])
    | none => activeTriggersLoop gov rest vecResults

/-- `CGovernanceTriggerManager::GetActiveTriggers` (lines 261-284) as the source
runs it: the returned vector and the registry on exit. -/
def CGovernanceTriggerManager.GetActiveTriggersRun (gov : CGovernanceManager)
    (triggerman : CGovernanceTriggerManager) :
    List (Option CSuperblock) × CGovernanceTriggerManager :=
  (activeTriggersLoop gov triggerman.mapTrigger [], triggerman)

/-! ## Triggering of a superblock -/

/-- The functions of other files of the repository that the triggering code
calls: `GetDistributedComputingGovObjByHeight` (its results are the pending
votes, the object hash, the payment addresses and the payment amounts),
`GetRequiredQuorumLevel` and `CGovernanceObject::UpdateSentinelVariables`. -/
structure QuorumContext where
  GetDistributedComputingGovObjByHeight : Int → Int × Nat × List Char × List Char
  GetRequiredQuorumLevel : Int → Int
  UpdateSentinelVariables : CGovernanceObject → CGovernanceObject

/-- `CSuperblockManager::IsDistributedComputingSuperblockTriggered`
(lines 286-319). -/
def CSuperblockManager.IsDistributedComputingSuperblockTriggered (ctx : ChainContext)
    (qc : QuorumContext) (nBlockHeight : Int) : Bool :=
  if !ctx.PODCEnabled nBlockHeight then false
  else if !CSuperblock.IsDCCSuperblock ctx nBlockHeight then false
  else
    let r := qc.GetDistributedComputingGovObjByHeight nBlockHeight
    let iPendingVotes : Int := r.1
    let sAddresses : List Char := r.2.2.1
    let sAmounts : List Char := r.2.2.2
    let bPending : Bool := decide (iPendingVotes ≥ qc.GetRequiredQuorumLevel nBlockHeight)
    if !bPending then false
    else if sAddresses.isEmpty || sAmounts.isEmpty then false
    else true

/-- The call of a member function that writes to the object under a hash, when
it resolves: the object is replaced by the result of the function. -/
def updateObject (f : CGovernanceObject → CGovernanceObject) (nHash : Nat) :
    List (Nat × CGovernanceObject) → List (Nat × CGovernanceObject)
  | [] => []
  | e :: rest =>
    if e.1 == nHash then (e.1, f e.2) :: rest else e :: updateObject f nHash rest

/-- The loop of lines 350-398 of `IsSuperblockTriggered` over the triggers still
to be scanned: the returned boolean and the object store, in which
`UpdateSentinelVariables` has written to the objects of the scanned triggers
of the height. -/
def triggeredLoop (qc : QuorumContext) (nBlockHeight : Int) :
    List (Option CSuperblock) → CGovernanceManager → Bool × CGovernanceManager
  | [], gov => (false, gov)
  | none :: rest, gov => triggeredLoop qc nBlockHeight rest gov
  | some pSuperblock :: rest, gov =>
    match pSuperblock.GetGovernanceObject gov with
    | none => triggeredLoop qc nBlockHeight rest gov
    | some pObj =>
      if nBlockHeight ≠ pSuperblock.GetBlockStart then triggeredLoop qc nBlockHeight rest gov
      else
        let gov₁ : CGovernanceManager :=
          { mapObjects :=
              updateObject qc.UpdateSentinelVariables pSuperblock.nGovObjHash gov.mapObjects }
        if (qc.UpdateSentinelVariables pObj).fCachedFunding then (true, gov₁)
        else triggeredLoop qc nBlockHeight rest gov₁

/-- `CSuperblockManager::IsSuperblockTriggered` (lines 327-401): the returned
boolean and the object store on exit. -/
def CSuperblockManager.IsSuperblockTriggered (ctx : ChainContext) (qc : QuorumContext)
    (gov : CGovernanceManager) (triggerman : CGovernanceTriggerManager) (nBlockHeight : Int) :
    Bool × CGovernanceManager :=
  if CSuperblock.IsDCCSuperblock ctx nBlockHeight && ctx.PODCEnabled nBlockHeight then
    (CSuperblockManager.IsDistributedComputingSuperblockTriggered ctx qc nBlockHeight, gov)
  else if !CSuperblock.IsValidBlockHeight ctx nBlockHeight then (false, gov)
  else triggeredLoop qc nBlockHeight (triggerman.GetActiveTriggers gov) gov

/-! ## Creation of the superblock payments -/

/-- Modelled from the spec: `UniValue::getValStr` (not under src/), the text of
a string or of a number and the empty text otherwise. -/
def UniValue.getValStr : UniValue → List Char
  | .VSTR s => s
  | .VNUM n => (toString n).toList
  | _ => []

/-- `GetQTPhaseXML` (lines 448-464). -/
def GetQTPhaseXML (gov : CGovernanceManager) (pSuperblock : CSuperblock) : String :=
  match pSuperblock.GetGovernanceObject gov with
  | some pObj =>
    let obj := pObj.jsonObject
    if obj.length > 0 then
      let sPrice := (jsonField obj "price").getValStr
      let sQTPhase := (jsonField obj "qtphase").getValStr
      let sDarkSig := (jsonField obj "sig").getValStr
      String.mk ("<price>".toList ++ sPrice ++ "</price><qtphase>".toList ++ sQTPhase
        ++ "</qtphase>".toList ++ sDarkSig)
    else "<price>-0.00</price><qtphase>-0.00</qtphase>"
  | none => "<price>-0.00</price><qtphase>-0.00</qtphase>"

/-- The loop of lines 509-542 of `CreateSuperblock`: `n` iterations remain, `i`
is the payment index; the state is `bQTPhaseEmitted`, the outputs of
`txNewRet` and `voutSuperblockRet`. -/
def createLoop (gov : CGovernanceManager) (pSuperblock : CSuperblock) :
    Nat → Nat → Bool → List CTxOut → List CTxOut → List CTxOut × List CTxOut
  | 0, _, _, vout, voutSuperblockRet => (vout, voutSuperblockRet)
  | n + 1, i, bQTPhaseEmitted, vout, voutSuperblockRet =>
    match pSuperblock.GetPayment (i : Int) with
    | some payment =>
      let txout : CTxOut :=
        if !bQTPhaseEmitted then
          { nValue := payment.nAmount, scriptPubKey := payment.script,
            sTxOutMessage := GetQTPhaseXML gov pSuperblock }
        else { nValue := payment.nAmount, scriptPubKey := payment.script }
      createLoop gov pSuperblock n (i + 1) true (vout ++ [txout]) (voutSuperblockRet ++ [txout])
    | none => createLoop gov pSuperblock n (i + 1) bQTPhaseEmitted vout voutSuperblockRet

/-- `CSuperblockManager::CreateSuperblock` (lines 472-545): the transaction
`txNewRet` and the vector `voutSuperblockRet` on exit.  The branch of a true
result of `GetBestSuperblock` with a null pointer is not reachable. -/
def CSuperblockManager.CreateSuperblock (ctx : ChainContext) (gov : CGovernanceManager)
    (triggerman : CGovernanceTriggerManager) (txNewRet : CTransaction) (nBlockHeight : Int)
    (voutSuperblockRet : List CTxOut) : CTransaction × List CTxOut :=
  match CSuperblockManager.GetBestSuperblock ctx gov triggerman none nBlockHeight with
  | (false, _) => (txNewRet, voutSuperblockRet)
  | (true, none) => (txNewRet, [])
  | (true, some pSuperblock) =>
    let r := createLoop gov pSuperblock pSuperblock.CountPayments.toNat 0 false txNewRet.vout []
    ({ vout := r.1 }, r.2)

/-! ## The validation with its pointer dereferences and element accesses

In the functions of this section `none` stands for a fault: the dereference of
a null pointer or an element access out of range.  A result `some b` is the
return value `b`. -/

/-- `CSuperblock::GetPayment` (lines 764-772) with the element access
`vecPayments[nPaymentIndex]`: `some none` stands for the return value false. -/
def CSuperblock.GetPaymentRun (sb : CSuperblock) (nPaymentIndex : Int) :
    Option (Option CGovernancePayment) :=
  if nPaymentIndex < 0 ∨ nPaymentIndex ≥ (sb.vecPayments.length : Int) then some none
  else
    match sb.vecPayments[nPaymentIndex.toNat]? with
    | none => none
    | some payment => some (some payment)

/-- The inner loop of lines 878-887 with the element access `txNew.vout[j]`:
`n` iterations remain, which is `nOutputs - j`; `some none` stands for the end
of the loop with `fPaymentMatch` false. -/
def scanOutputsRun (payment : CGovernancePayment) (vout : List CTxOut) :
    Nat → Nat → Option (Option Nat)
  | 0, _ => some none
  | n + 1, j =>
    match vout[j]? with
    | none => none
    | some txout =>
      if paymentMatches payment txout then some (some j)
      else scanOutputsRun payment vout n (j + 1)

/-- The outer loop of lines 867-899 with the accesses of its body: `n`
iterations remain, `i` is the payment index and `nVoutIndex` the cursor. -/
def paymentLoopRun (sb : CSuperblock) (vout : List CTxOut) (nOutputs : Nat) :
    Nat → Nat → Nat → Option Bool
  | 0, _, _ => some true
  | n + 1, i, nVoutIndex =>
    match sb.GetPaymentRun (i : Int) with
    | none => none
    | some none => paymentLoopRun sb vout nOutputs n (i + 1) nVoutIndex
    | some (some payment) =>
      match scanOutputsRun payment vout (nOutputs - nVoutIndex) nVoutIndex with
      | none => none
      | some none => some false
      | some (some j) => paymentLoopRun sb vout nOutputs n (i + 1) j

/-- `CSuperblock::IsValidSuperblock` (lines 805-903) with its dereferences and
accesses.  The statement of lines 826-830 evaluates, at a regular superblock
height, `GetGovernanceObject()->GetDataAsHex()` as an argument of `LogPrint`
(declared outside src/; its arguments are evaluated at the call, as those of a
function are). -/
def CSuperblock.IsValidSuperblockRun (ctx : ChainContext) (gov : CGovernanceManager)
    (sb : CSuperblock) (txNew : CTransaction) (nBlockHeight : Int) (blockReward : Int)
    (_nBlockTime : Int) : Option Bool :=
  if !CSuperblock.IsValidBlockHeight ctx nBlockHeight
      && !CSuperblock.IsDCCSuperblock ctx nBlockHeight then some false
  else
    let nOutputs : Int := txNew.vout.length
    let nPayments : Int := sb.CountPayments
    let nMinerPayments : Int := nOutputs - nPayments
    if CSuperblock.IsValidBlockHeight ctx nBlockHeight
        && (sb.GetGovernanceObject gov).isNone then none
    else if nMinerPayments < 0 then some false
    else
      let nPaymentsTotalAmount : Int := sb.GetPaymentsTotalAmount
      let nPaymentsLimit : Int := CSuperblock.GetPaymentsLimit ctx nBlockHeight
      if nPaymentsTotalAmount > nPaymentsLimit then some false
      else
        let nBlockValue : Int := txNew.GetValueOut
        if CSuperblock.IsValidBlockHeight ctx nBlockHeight
            && decide (nBlockValue > wrap64 (blockReward + nPaymentsTotalAmount)) then some false
        else paymentLoopRun sb txNew.vout nOutputs.toNat nPayments.toNat 0 0

/-- `CSuperblockManager::IsValidSuperblock` (lines 547-571) with its pointer
dereferences: `pSuperblock->IsValidSuperblock(...)` after a true result of
`GetBestSuperblock`, and the faults of the callee. -/
def CSuperblockManager.IsValidSuperblockRun (ctx : ChainContext) (gov : CGovernanceManager)
    (triggerman : CGovernanceTriggerManager) (txNew : CTransaction) (nBlockHeight : Int)
    (blockReward : Int) (nBlockTime : Int) : Option Bool :=
  match CSuperblockManager.GetBestSuperblock ctx gov triggerman none nBlockHeight with
  | (true, some pSuperblock) =>
    pSuperblock.IsValidSuperblockRun ctx gov txNew nBlockHeight blockReward nBlockTime
  | (true, none) => none
  | (false, _) => some false

/-- The loop of lines 350-398 of `IsSuperblockTriggered` with its pointer
dereferences: `pSuperblock->GetGovernanceObject()` after the test of
`pSuperblock`, and `pObj->GetDataAsString()`, `pObj->UpdateSentinelVariables()`
and `pObj->IsSetCachedFunding()` after the test of `pObj`. -/
def triggeredLoopRun (qc : QuorumContext) (nBlockHeight : Int) :
    List (Option CSuperblock) → CGovernanceManager → Option (Bool × CGovernanceManager)
  | [], gov => some (false, gov)
  | pSuperblock :: rest, gov =>
    if pSuperblock.isNone then triggeredLoopRun qc nBlockHeight rest gov
    else
      match pSuperblock with
      | none => none
      | some sb =>
        let pObj := sb.GetGovernanceObject gov
        if pObj.isNone then triggeredLoopRun qc nBlockHeight rest gov
        else
          match pObj with
          | none => none
          | some obj =>
            if nBlockHeight ≠ sb.GetBlockStart then triggeredLoopRun qc nBlockHeight rest gov
            else
              let gov₁ : CGovernanceManager :=
                { mapObjects :=
                    updateObject qc.UpdateSentinelVariables sb.nGovObjHash gov.mapObjects }
              if (qc.UpdateSentinelVariables obj).fCachedFunding then some (true, gov₁)
              else triggeredLoopRun qc nBlockHeight rest gov₁

/-- `CSuperblockManager::IsSuperblockTriggered` (lines 327-401) with its
pointer dereferences. -/
def CSuperblockManager.IsSuperblockTriggeredRun (ctx : ChainContext) (qc : QuorumContext)
    (gov : CGovernanceManager) (triggerman : CGovernanceTriggerManager) (nBlockHeight : Int) :
    Option (Bool × CGovernanceManager) :=
  if CSuperblock.IsDCCSuperblock ctx nBlockHeight && ctx.PODCEnabled nBlockHeight then
    some (CSuperblockManager.IsDistributedComputingSuperblockTriggered ctx qc nBlockHeight, gov)
  else if !CSuperblock.IsValidBlockHeight ctx nBlockHeight then some (false, gov)
  else triggeredLoopRun qc nBlockHeight (triggerman.GetActiveTriggers gov) gov

/-! ## Concrete data used in the examples -/

/-- A chain context for the examples: regular superblocks every 10 blocks from
height 0, DC superblocks every 7 blocks from height 0 (feature enabled at every
height here), 100 base units of subsidy per block. -/
def exampleCtx : ChainContext where
  consensus :=
    { nSuperblockStartBlock := 0, nSuperblockCycle := 10,
      nDCCSuperblockStartBlock := 0, nDCCSuperblockCycle := 7 }
  fProd := true
  PODCEnabled := fun _ => true
  F13000_CUTOVER_HEIGHT_PROD := 1000000
  F13000_CUTOVER_HEIGHT_TESTNET := 1000000
  FPOG_CUTOVER_HEIGHT_PROD := 1000000
  LAST_POG_BLOCK_PROD := 2000000
  FPOG_CUTOVER_HEIGHT_TESTNET := 1000000
  LAST_POG_BLOCK_TESTNET := 2000000
  pindexBestHeaderPrev := 0
  GetBlockSubsidy := fun _ _ _ => 100

/-- Destination script A of the examples. -/
def scriptA : CScript := [0xA]

/-- Destination script B of the examples. -/
def scriptB : CScript := [0xB]

/-- A miner script of the examples. -/
def scriptMiner : CScript := [0xFF]

/-- The schedule `[(A,100),(B,50)]` of the examples, for height 20. -/
def exampleSuperblock : CSuperblock :=
  { nGovObjHash := 1, nEpochStart := 20, nStatus := SEEN_OBJECT_IS_VALID,
    vecPayments := [{ script := scriptA, nAmount := 100 }, { script := scriptB, nAmount := 50 }] }

/-- The output that pays a scheduled payment (`CTxOut(payment.nAmount,
payment.script)`, line 517). -/
def paymentOutput (payment : CGovernancePayment) : CTxOut :=
  { nValue := payment.nAmount, scriptPubKey := payment.script }

/-- The list with the entries at positions `a` and `b` exchanged. -/
def exchangeAt (l : List CGovernancePayment) (a b : Nat) : List CGovernancePayment :=
  match l[a]?, l[b]? with
  | some x, some y => (l.set a y).set b x
  | _, _ => l

/-! ## Vocabulary of the statements -/

/-- What the comparison of lines 880-881 reads of a scheduled payment. -/
def paymentKey (payment : CGovernancePayment) : CScript × Int :=
  (payment.script, payment.nAmount)

/-- What the comparison of lines 880-881 reads of an output. -/
def outputKey (txout : CTxOut) : CScript × Int :=
  (txout.scriptPubKey, txout.nValue)

/-- The exact, unbounded sum of the scheduled amounts. -/
def CSuperblock.scheduledTotal (sb : CSuperblock) : Int :=
  (sb.vecPayments.map (fun p => p.nAmount)).sum

/-- The outer loop in list form: the payments still to be matched and the
cursor. -/
def matchSchedule (vout : List CTxOut) : List CGovernancePayment → Nat → Bool
  | [], _ => true
  | payment :: rest, nVoutIndex =>
    match scanOutputs payment (vout.drop nVoutIndex) nVoutIndex with
    | none => false
    | some j => matchSchedule vout rest j

/-- The funding yes-count with which a scanned pointer competes in
`GetBestSuperblock` at a height: defined when the pointer is not null, its
backing object resolves and its block start is the height. -/
def candidateYesCount (gov : CGovernanceManager) (nBlockHeight : Int) :
    Option CSuperblock → Option Int
  | none => none
  | some sb =>
    match sb.GetGovernanceObject gov with
    | none => none
    | some pObj =>
      if nBlockHeight ≠ sb.GetBlockStart then none else some pObj.nAbsoluteYesCountFunding

/-! ## More concrete data -/

/-- The candidate `[(miner,850),(A,100),(B,50)]`. -/
def orderedCandidate : CTransaction :=
  { vout := [{ nValue := 850, scriptPubKey := scriptMiner },
      { nValue := 100, scriptPubKey := scriptA }, { nValue := 50, scriptPubKey := scriptB }] }

/-- The candidate `[(miner,1000),(A,100),(B,50)]`, which pays out 1150. -/
def overpaidCandidate : CTransaction :=
  { vout := [{ nValue := 1000, scriptPubKey := scriptMiner },
      { nValue := 100, scriptPubKey := scriptA }, { nValue := 50, scriptPubKey := scriptB }] }

/-- The candidate `[(A,100)]`. -/
def shortCandidate : CTransaction :=
  { vout := [{ nValue := 100, scriptPubKey := scriptA }] }

/-- The candidate `[(B,50),(A,100)]`. -/
def swappedCandidate : CTransaction :=
  { vout := [{ nValue := 50, scriptPubKey := scriptB }, { nValue := 100, scriptPubKey := scriptA }] }

/-- The schedule `[(A,100),(A,100)]` for height 20. -/
def twiceSuperblock : CSuperblock :=
  { nGovObjHash := 3, nEpochStart := 20, nStatus := SEEN_OBJECT_IS_VALID,
    vecPayments := [{ script := scriptA, nAmount := 100 }, { script := scriptA, nAmount := 100 }] }

/-- The candidate `[(A,100),(miner,50)]`, which pays A once. -/
def onceCandidate : CTransaction :=
  { vout := [{ nValue := 100, scriptPubKey := scriptA }, { nValue := 50, scriptPubKey := scriptMiner }] }

/-- The schedule `[(A,100),(A,100),(B,50)]` for height 20. -/
def repeatSuperblock : CSuperblock :=
  { nGovObjHash := 4, nEpochStart := 20, nStatus := SEEN_OBJECT_IS_VALID,
    vecPayments := [{ script := scriptA, nAmount := 100 }, { script := scriptA, nAmount := 100 },
      { script := scriptB, nAmount := 50 }] }

/-- The outputs paying the schedule of `repeatSuperblock` with the payments at
positions 1 and 2 exchanged: `[(A,100),(B,50),(A,100)]`. -/
def exchangedCandidate : CTransaction :=
  { vout := (exchangeAt repeatSuperblock.vecPayments 1 2).map paymentOutput }

/-- The schedule of thirty-two payments of `2 ^ 58` base units to A
(2882303761.51711744 coins each, an amount string of 19 characters), for the
DC superblock height 14. -/
def overflowSuperblock : CSuperblock :=
  { nGovObjHash := 2, nEpochStart := 14, nStatus := SEEN_OBJECT_IS_VALID,
    vecPayments := List.replicate 32 { script := scriptA, nAmount := 2 ^ 58 } }

/-- A candidate with one output of `2 ^ 58` to A followed by thirty-one miner
outputs of value 0. -/
def overflowCandidate : CTransaction :=
  { vout := { nValue := 2 ^ 58, scriptPubKey := scriptA }
      :: List.replicate 31 { nValue := 0, scriptPubKey := scriptMiner } }

/-- An object store for the examples: triggers 1 to 4 resolve, with funding
yes-counts 5, 7, 7 and 9. -/
def exampleGov : CGovernanceManager :=
  { mapObjects := [(1, { nObjectType := 2, nAbsoluteYesCountFunding := 5 }),
      (2, { nObjectType := 2, nAbsoluteYesCountFunding := 7 }),
      (3, { nObjectType := 2, nAbsoluteYesCountFunding := 7 }),
      (4, { nObjectType := 2, nAbsoluteYesCountFunding := 9 })] }

/-- The superblock registered under hash 1: the schedule `[(A,7)]` for
height 20. -/
def firstSuperblock : CSuperblock :=
  { nGovObjHash := 1, nEpochStart := 20, nStatus := SEEN_OBJECT_IS_VALID,
    vecPayments := [{ script := scriptA, nAmount := 7 }] }

/-- The superblock registered under hash 2: the schedule `[(A,100),(B,50)]`
for height 20. -/
def secondSuperblock : CSuperblock :=
  { nGovObjHash := 2, nEpochStart := 20, nStatus := SEEN_OBJECT_IS_VALID,
    vecPayments := [{ script := scriptA, nAmount := 100 }, { script := scriptB, nAmount := 50 }] }

/-- The superblock registered under hash 3: the schedule `[(B,50)]` for
height 20. -/
def thirdSuperblock : CSuperblock :=
  { nGovObjHash := 3, nEpochStart := 20, nStatus := SEEN_OBJECT_IS_VALID,
    vecPayments := [{ script := scriptB, nAmount := 50 }] }

/-- The superblock registered under hash 4: the schedule `[(A,1)]` for
height 30. -/
def laterSuperblock : CSuperblock :=
  { nGovObjHash := 4, nEpochStart := 30, nStatus := SEEN_OBJECT_IS_VALID,
    vecPayments := [{ script := scriptA, nAmount := 1 }] }

/-- The superblock registered under hash 5, whose object is not in the store. -/
def orphanSuperblock : CSuperblock :=
  { nGovObjHash := 5, nEpochStart := 20, nStatus := SEEN_OBJECT_IS_VALID,
    vecPayments := [{ script := scriptA, nAmount := 2 }] }

/-- A registry for the examples, in key order. -/
def exampleTriggerman : CGovernanceTriggerManager :=
  { mapTrigger := [(1, some firstSuperblock), (2, some secondSuperblock),
      (3, some thirdSuperblock), (4, some laterSuperblock), (5, some orphanSuperblock)] }

/-! ## Vocabulary and concrete data for the registry and the parser -/

/-- The value of `remove` that the second loop of `CleanAndRemove` computes
for an entry, with the expiration height computed in `int`. -/
def shouldRemove (nExpirationBlocks nCachedBlockHeight : Int) (p : Option CSuperblock) : Bool :=
  match p with
  | none => true
  | some pSuperblock =>
    if pSuperblock.nStatus = SEEN_OBJECT_ERROR_INVALID
        ∨ pSuperblock.nStatus = SEEN_OBJECT_UNKNOWN then true
    else if pSuperblock.nStatus = SEEN_OBJECT_IS_VALID
        ∨ pSuperblock.nStatus = SEEN_OBJECT_EXECUTED then
      decide (nCachedBlockHeight > wrap32 (pSuperblock.GetBlockStart + nExpirationBlocks))
    else false

/-- The value of a decimal digit. -/
def digitValue (c : Char) : Option Nat :=
  if '0' ≤ c ∧ c ≤ '9' then some (c.toNat - '0'.toNat) else none

/-- The number written by a string of decimal digits, after the digits already
read. -/
def parseDigits : List Char → Nat → Option Nat
  | [], acc => some acc
  | c :: cs, acc =>
    match digitValue c with
    | some d => parseDigits cs (acc * 10 + d)
    | none => none

/-- Modelled from the spec: `ParseFixedPoint` (utilstrencodings.cpp is not
under src/) on a string of digits with at most one point, fixed point with
`decimals` fractional digits.  The integer part is `0` or starts with a
non-zero digit, a point is followed by at least one digit, the value times
`10 ^ decimals` is an integer, and the result is below `10 ^ 18`. -/
def ParseFixedPoint (val : List Char) (decimals : Nat) : Option Int :=
  let intPart := val.takeWhile (fun c => c ≠ '.')
  let rest := val.dropWhile (fun c => c ≠ '.')
  if intPart.isEmpty then none
  else if intPart.head? = some '0' ∧ 1 < intPart.length then none
  else
    match parseDigits intPart 0 with
    | none => none
    | some n =>
      match rest with
      | [] => if n * 10 ^ decimals < 10 ^ 18 then some (n * 10 ^ decimals : Nat) else none
      | _ :: frac =>
        if frac.isEmpty then none
        else
          match parseDigits frac 0 with
          | none => none
          | some f =>
            let scaled : Nat := (n * 10 ^ frac.length + f) * 10 ^ decimals
            if scaled % 10 ^ frac.length ≠ 0 then none
            else if scaled / 10 ^ frac.length < 10 ^ 18 then
              some (scaled / 10 ^ frac.length : Nat)
            else none

/-- The scripts of the addresses of the examples: `A`, `B` and `M`. -/
def exampleScript (strAddress : List Char) : Option CScript :=
  if strAddress = "A".toList then some scriptA
  else if strAddress = "B".toList then some scriptB
  else if strAddress = "M".toList then some scriptMiner
  else none

/-- The parser context of the examples: the addresses `A`, `B` and `M` are
valid, and the money range ends at 5.2 billion coins. -/
def exampleParseContext : ParseContext where
  IsValidAddress := fun a => (exampleScript a).isSome
  paymentScript := exampleScript
  ParseFixedPoint := ParseFixedPoint
  MAX_MONEY := 5200000000 * COIN

/-- A trigger object whose payload schedules `1` coin to A and `0.5` coin to B
at height 30. -/
def exampleTriggerObject : CGovernanceObject :=
  { nObjectType := GOVERNANCE_OBJECT_TRIGGER, nAbsoluteYesCountFunding := 3,
    jsonObject := [("event_block_height", .VNUM 30),
      ("payment_addresses", .VSTR "A|B".toList), ("payment_amounts", .VSTR "1|0.5".toList)] }

/-- An object store with the trigger object under hash 6, an object of
another type under hash 7 and the objects of `exampleGov`. -/
def parseGov : CGovernanceManager :=
  { mapObjects := (6, exampleTriggerObject)
      :: (7, { nObjectType := 1, nAbsoluteYesCountFunding := 0 }) :: exampleGov.mapObjects }

/-- The superblock that the constructor builds from `exampleTriggerObject`,
with the status set by `AddNewTrigger`. -/
def addedSuperblock : CSuperblock :=
  { nGovObjHash := 6, nEpochStart := 30, nStatus := SEEN_OBJECT_IS_VALID,
    vecPayments := [{ script := scriptA, nAmount := 100000000 },
      { script := scriptB, nAmount := 50000000 }] }

/-- Eighteen address tokens `A`. -/
def manyAddresses : List Char :=
  "A|A|A|A|A|A|A|A|A|A|A|A|A|A|A|A|A|A".toList

/-- Eighteen amount tokens of 5.2 billion coins, the end of the money range. -/
def manyAmounts : List Char :=
  ("5200000000|5200000000|5200000000|5200000000|5200000000|5200000000|"
    ++ "5200000000|5200000000|5200000000|5200000000|5200000000|5200000000|"
    ++ "5200000000|5200000000|5200000000|5200000000|5200000000|5200000000").toList

/-- The superblock whose payments are the schedule parsed from `manyAddresses`
and `manyAmounts`. -/
def manySuperblock : CSuperblock :=
  { nGovObjHash := 9, nEpochStart := 14, nStatus := SEEN_OBJECT_IS_VALID,
    vecPayments := List.replicate 18 { script := scriptA, nAmount := 5200000000 * COIN } }

/-! ## Vocabulary and concrete data for amounts, heights and triggering -/

/-- The number written by a string of decimal digits. -/
def digitsValue (ds : List Char) : Nat :=
  ds.foldl (fun acc c => acc * 10 + (c.toNat - '0'.toNat)) 0

/-- The decimal value written in a string of digits with at most one point:
the number before the point plus the number after it divided by the power of
ten of its length. -/
def decimalValue (s : List Char) : ℚ :=
  let intPart := s.takeWhile (fun c => c ≠ '.')
  let frac := (s.dropWhile (fun c => c ≠ '.')).drop 1
  (digitsValue intPart : ℚ) + (digitsValue frac : ℚ) / 10 ^ frac.length

/-- The character is a decimal digit. -/
def IsDigit (c : Char) : Prop := c ∈ "0123456789".toList

/-- A network whose DC cycle 205 divides its regular superblock cycle 6150, with
the DC feature enabled above height 33440 and the cutover of the DC residue at
height 57700. -/
def dailyCtx : ChainContext where
  consensus :=
    { nSuperblockStartBlock := 21710, nSuperblockCycle := 6150,
      nDCCSuperblockStartBlock := 33451, nDCCSuperblockCycle := 205 }
  fProd := true
  PODCEnabled := fun h => decide (h > 33440)
  F13000_CUTOVER_HEIGHT_PROD := 57700
  F13000_CUTOVER_HEIGHT_TESTNET := 57700
  FPOG_CUTOVER_HEIGHT_PROD := 100000
  LAST_POG_BLOCK_PROD := 200000
  FPOG_CUTOVER_HEIGHT_TESTNET := 100000
  LAST_POG_BLOCK_TESTNET := 200000
  pindexBestHeaderPrev := 0
  GetBlockSubsidy := fun _ _ _ => 100

/-- A network whose DC cycle 20 does not divide its regular superblock cycle
10, past the cutover of the DC residue. -/
def skewCtx : ChainContext where
  consensus :=
    { nSuperblockStartBlock := 0, nSuperblockCycle := 10,
      nDCCSuperblockStartBlock := 0, nDCCSuperblockCycle := 20 }
  fProd := true
  PODCEnabled := fun _ => true
  F13000_CUTOVER_HEIGHT_PROD := 0
  F13000_CUTOVER_HEIGHT_TESTNET := 0
  FPOG_CUTOVER_HEIGHT_PROD := 100000
  LAST_POG_BLOCK_PROD := 200000
  FPOG_CUTOVER_HEIGHT_TESTNET := 100000
  LAST_POG_BLOCK_TESTNET := 200000
  pindexBestHeaderPrev := 0
  GetBlockSubsidy := fun _ _ _ => 100

/-- The example network with a subsidy part of `10 ^ 15` base units per
block. -/
def richCtx : ChainContext :=
  { exampleCtx with GetBlockSubsidy := fun _ _ _ => 10 ^ 15 }

/-- The superblocks of the scanned pointers have distinct source object
hashes, as the superblocks of a registry filled by `AddNewTrigger` have. -/
def DistinctHashes (l : List (Option CSuperblock)) : Prop :=
  ((l.filterMap id).map (fun sb => sb.nGovObjHash)).Nodup

/-- A quorum context for the examples: no pending vote for the DC contract
against a required quorum of 1, and a funding flag that is set from 6
yes-votes on. -/
def exampleQuorum : QuorumContext where
  GetDistributedComputingGovObjByHeight := fun _ => (0, 0, "A".toList, "1".toList)
  GetRequiredQuorumLevel := fun _ => 1
  UpdateSentinelVariables :=
    fun o => { o with fCachedFunding := decide (o.nAbsoluteYesCountFunding ≥ 6) }

/-- A superblock under hash 2 for height 70, which is both a regular and a DC
superblock height of the example network. -/
def seventySuperblock : CSuperblock :=
  { nGovObjHash := 2, nEpochStart := 70, nStatus := SEEN_OBJECT_IS_VALID,
    vecPayments := [{ script := scriptA, nAmount := 100 }] }

/-- A registry holding the superblock for height 70. -/
def seventyTriggerman : CGovernanceTriggerManager :=
  { mapTrigger := [(2, some seventySuperblock)] }

/-- An output that `voutSuperblockRet` holds on entry in the example of
`CreateSuperblock`. -/
def strayOutput : CTxOut := { nValue := 5, scriptPubKey := scriptMiner }

/-! ## Vocabulary and concrete data for the created outputs -/

/-- The outputs that the loop of `CreateSuperblock` emits for the payments
still to be read: one output for each payment, in order, the message on the
first output emitted while `bQTPhaseEmitted` is false. -/
def superblockOutputs (sMessage : String) : Bool → List CGovernancePayment → List CTxOut
  | _, [] => []
  | bQTPhaseEmitted, payment :: rest =>
    (if !bQTPhaseEmitted then
        { nValue := payment.nAmount, scriptPubKey := payment.script, sTxOutMessage := sMessage }
      else { nValue := payment.nAmount, scriptPubKey := payment.script })
      :: superblockOutputs sMessage true rest

/-- A transaction with one miner output of 850, before the superblock payments
are appended. -/
def minerTransaction : CTransaction :=
  { vout := [{ nValue := 850, scriptPubKey := scriptMiner }] }

/-- An object store in which the object of hash 2 carries a price, a phase and
a signature in its payload. -/
def pricedGov : CGovernanceManager :=
  { mapObjects := [(1, { nObjectType := 2, nAbsoluteYesCountFunding := 5 }),
      (2, { nObjectType := 2, nAbsoluteYesCountFunding := 7,
            jsonObject := [("price", .VSTR "0.01".toList), ("qtphase", .VNUM 3),
              ("sig", .VSTR "S".toList)] })] }

/-! ## Vocabulary for the effects of the clean-up on the object store -/

/-- The object after the assignments of lines 221-222. -/
def expiredObject (nAdjustedTime : Int) (pObj : CGovernanceObject) : CGovernanceObject :=
  { pObj with fExpired := true, nDeletionTime := nAdjustedTime }

/-- The entry is evicted because of expiry and its superblock has the source
object hash `k`: the status is valid or executed and the chain height is above
the `int` that line 213 computes from the block start and the expiration
blocks. -/
def expiresObject (nExpirationBlocks nCachedBlockHeight : Int) (k : Nat)
    (p : Option CSuperblock) : Bool :=
  match p with
  | none => false
  | some pSuperblock =>
    decide (pSuperblock.nGovObjHash = k) &&
      (decide (pSuperblock.nStatus = SEEN_OBJECT_IS_VALID)
        || decide (pSuperblock.nStatus = SEEN_OBJECT_EXECUTED)) &&
      decide (nCachedBlockHeight > wrap32 (pSuperblock.GetBlockStart + nExpirationBlocks))

/-! ## Vocabulary for the tokens of a schedule string -/

/-- The tokens of a string in the words of the spec: the string is split at
every `|`, and the empty pieces are discarded. -/
def pipeTokens (s : List Char) : List (List Char) :=
  (s.splitOn '|').filter (fun t => !t.isEmpty)

/-! ## Vocabulary for the reachable registries -/

/-- The registries reachable from the empty registry by calls of
`AddNewTrigger` and `CleanAndRemove`; the object store, the hash, the chain
height and the adjusted time of each call are arbitrary. -/
inductive Reachable (pc : ParseContext) (nExpirationBlocks : Int) :
    CGovernanceTriggerManager → Prop
  | empty : Reachable pc nExpirationBlocks { mapTrigger := [] }
  | addNewTrigger (triggerman : CGovernanceTriggerManager) (gov : CGovernanceManager)
      (nHash : Nat) :
      Reachable pc nExpirationBlocks triggerman →
      Reachable pc nExpirationBlocks (triggerman.AddNewTrigger pc gov nHash).2
  | cleanAndRemove (triggerman : CGovernanceTriggerManager) (gov : CGovernanceManager)
      (nCachedBlockHeight nAdjustedTime : Int) :
      Reachable pc nExpirationBlocks triggerman →
      Reachable pc nExpirationBlocks
        (triggerman.CleanAndRemove nExpirationBlocks gov nCachedBlockHeight nAdjustedTime).1

/-! ## Lemmas on machine arithmetic -/

theorem wrap64_of_IsInt64 (x : Int) (h : IsInt64 x) : wrap64 x = x := by
  unfold IsInt64 at h
  unfold wrap64
  omega

theorem wrap64_IsInt64 (x : Int) : IsInt64 (wrap64 x) := by
  unfold IsInt64 wrap64
  omega

theorem wrap64_le_self (x : Int) (h : -(2 ^ 63) ≤ x) : wrap64 x ≤ x := by
  unfold wrap64
  omega

theorem wrap64_wrap64_add (a b : Int) : wrap64 (wrap64 a + b) = wrap64 (a + b) := by
  unfold wrap64
  omega

theorem wrap64_add_wrap64 (a b : Int) : wrap64 (a + wrap64 b) = wrap64 (a + b) := by
  unfold wrap64
  omega

theorem sumAmounts64_eq (ps : List CGovernancePayment) (acc : Int) :
    wrap64 (sumAmounts64 acc ps) = wrap64 (acc + (ps.map (fun p => p.nAmount)).sum) := by
  induction ps generalizing acc with
  | nil => simp [sumAmounts64]
  | cons p ps ih =>
    simp only [sumAmounts64, List.map_cons, List.sum_cons]
    rw [ih, wrap64_wrap64_add, add_assoc]

theorem sumAmounts64_IsInt64 (ps : List CGovernancePayment) (acc : Int) (h : IsInt64 acc) :
    IsInt64 (sumAmounts64 acc ps) := by
  induction ps generalizing acc with
  | nil => simpa [sumAmounts64] using h
  | cons p ps ih =>
    simp only [sumAmounts64]
    exact ih _ (wrap64_IsInt64 _)

/-- The total computed by the code is the exact sum reduced to 64 bits. -/
theorem GetPaymentsTotalAmount_eq_wrap64 (sb : CSuperblock) :
    sb.GetPaymentsTotalAmount = wrap64 sb.scheduledTotal := by
  have h1 : IsInt64 (sumAmounts64 0 sb.vecPayments) :=
    sumAmounts64_IsInt64 _ _ (by unfold IsInt64; omega)
  have h2 := sumAmounts64_eq sb.vecPayments 0
  rw [wrap64_of_IsInt64 _ h1] at h2
  simpa [CSuperblock.GetPaymentsTotalAmount, CSuperblock.scheduledTotal] using h2

theorem scheduledTotal_nonneg (sb : CSuperblock) (h : ∀ p ∈ sb.vecPayments, 0 ≤ p.nAmount) :
    0 ≤ sb.scheduledTotal := by
  unfold CSuperblock.scheduledTotal
  apply List.sum_nonneg
  intro x hx
  obtain ⟨p, hp, rfl⟩ := List.mem_map.mp hx
  exact h p hp

/-! ## Lemmas on the matching loop -/

theorem paymentMatches_iff (payment : CGovernancePayment) (txout : CTxOut) :
    paymentMatches payment txout = true ↔ paymentKey payment = outputKey txout := by
  simp [paymentMatches, paymentKey, outputKey]

theorem GetPayment_of_lt (sb : CSuperblock) (i : Nat) (h : i < sb.vecPayments.length) :
    sb.GetPayment (i : Int) = some (sb.vecPayments.get ⟨i, h⟩) := by
  unfold CSuperblock.GetPayment
  have h1 : ¬ ((i : Int) < 0 ∨ (i : Int) ≥ (sb.vecPayments.length : Int)) := by omega
  rw [if_neg h1]
  simp [List.getElem?_eq_getElem h]

/-- The indexed loop of the source run over all payments from index `i` is
the list form of the loop run over the payments from `i` on. -/
theorem paymentLoop_eq_matchSchedule (sb : CSuperblock) (vout : List CTxOut) (n i idx : Nat)
    (h : i + n = sb.vecPayments.length) :
    paymentLoop sb vout n i idx = matchSchedule vout (sb.vecPayments.drop i) idx := by
  induction n generalizing i idx with
  | zero =>
    have h0 : sb.vecPayments.drop i = [] := List.drop_eq_nil_of_le (by omega)
    simp [paymentLoop, h0, matchSchedule]
  | succ n ih =>
    have hi : i < sb.vecPayments.length := by omega
    have hd : sb.vecPayments.drop i
        = sb.vecPayments.get ⟨i, hi⟩ :: sb.vecPayments.drop (i + 1) := by
      simp
    rw [hd]
    simp only [paymentLoop, GetPayment_of_lt sb i hi, matchSchedule]
    cases scanOutputs (sb.vecPayments.get ⟨i, hi⟩) (List.drop idx vout) idx with
    | none => rfl
    | some j => exact ih (i + 1) j (by omega)

/-- The validation loop of `IsValidSuperblock` in list form. -/
theorem paymentLoop_all (sb : CSuperblock) (vout : List CTxOut) :
    paymentLoop sb vout sb.CountPayments.toNat 0 0 = matchSchedule vout sb.vecPayments 0 := by
  have h := paymentLoop_eq_matchSchedule sb vout sb.vecPayments.length 0 0 (by omega)
  simpa [CSuperblock.CountPayments] using h

/-- A successful scan returns a position at or after the start, inside the
scanned list, whose output matches. -/
theorem scanOutputs_some (payment : CGovernancePayment) (rest : List CTxOut) (j k : Nat)
    (h : scanOutputs payment rest j = some k) :
    j ≤ k ∧ ∃ txout, rest[k - j]? = some txout ∧ paymentMatches payment txout = true := by
  induction rest generalizing j with
  | nil => simp [scanOutputs] at h
  | cons o rest ih =>
    simp only [scanOutputs] at h
    by_cases hm : paymentMatches payment o = true
    · rw [if_pos hm] at h
      cases h
      exact ⟨le_refl _, o, by simp, hm⟩
    · rw [if_neg hm] at h
      obtain ⟨h1, t, h2, h3⟩ := ih (j + 1) h
      refine ⟨by omega, t, ?_, h3⟩
      have e : k - j = (k - (j + 1)) + 1 := by omega
      rw [e]
      simpa using h2

/-- When the payment followed by `ks` is a subsequence of the scanned outputs,
the scan finds a position and `ks` is a subsequence of the outputs from that
position on. -/
theorem scanOutputs_of_sublist (payment : CGovernancePayment) (ks : List (CScript × Int))
    (rest : List CTxOut) (j : Nat)
    (h : (paymentKey payment :: ks).Sublist (rest.map outputKey)) :
    ∃ k, scanOutputs payment rest j = some k ∧ j ≤ k ∧
      ks.Sublist ((rest.drop (k - j)).map outputKey) := by
  induction rest generalizing j with
  | nil => simp at h
  | cons o rest ih =>
    simp only [scanOutputs]
    by_cases hm : paymentMatches payment o = true
    · rw [if_pos hm]
      refine ⟨j, rfl, le_refl _, ?_⟩
      have h1 : ks.Sublist (paymentKey payment :: ks) := List.sublist_cons_self _ _
      simpa using h1.trans h
    · rw [if_neg hm]
      have hne : paymentKey payment ≠ outputKey o := fun e => hm ((paymentMatches_iff _ _).2 e)
      have h1 : (paymentKey payment :: ks).Sublist (rest.map outputKey) := by
        rw [List.map_cons] at h
        rcases List.sublist_cons_iff.mp h with h2 | ⟨r, h2, _⟩
        · exact h2
        · exact absurd (List.cons.inj h2).1 hne
      obtain ⟨k, hk, hle, hs⟩ := ih (j + 1) h1
      refine ⟨k, hk, by omega, ?_⟩
      have e : k - j = (k - (j + 1)) + 1 := by omega
      rw [e]
      simpa using hs

/-- The loop accepts every schedule that is a subsequence of the outputs from
the cursor on. -/
theorem matchSchedule_of_sublist (vout : List CTxOut) (ps : List CGovernancePayment) (idx : Nat)
    (h : (ps.map paymentKey).Sublist ((vout.drop idx).map outputKey)) :
    matchSchedule vout ps idx = true := by
  induction ps generalizing idx with
  | nil => simp [matchSchedule]
  | cons p ps ih =>
    rw [List.map_cons] at h
    obtain ⟨k, hk, hle, hs⟩ := scanOutputs_of_sublist p (ps.map paymentKey) (vout.drop idx) idx h
    simp only [matchSchedule, hk]
    apply ih
    have e : idx + (k - idx) = k := by omega
    simpa [List.drop_drop, e] using hs

/-- Past the preliminary checks the verdict is the verdict of the matching
loop. -/
theorem IsValidSuperblock_of_checks (ctx : ChainContext) (sb : CSuperblock) (txNew : CTransaction)
    (nBlockHeight blockReward nBlockTime : Int)
    (hHeight : CSuperblock.IsValidBlockHeight ctx nBlockHeight = true
      ∨ CSuperblock.IsDCCSuperblock ctx nBlockHeight = true)
    (hCount : sb.vecPayments.length ≤ txNew.vout.length)
    (hLimit : sb.GetPaymentsTotalAmount ≤ CSuperblock.GetPaymentsLimit ctx nBlockHeight)
    (hValue : CSuperblock.IsValidBlockHeight ctx nBlockHeight = true →
      txNew.GetValueOut ≤ wrap64 (blockReward + sb.GetPaymentsTotalAmount)) :
    sb.IsValidSuperblock ctx txNew nBlockHeight blockReward nBlockTime
      = matchSchedule txNew.vout sb.vecPayments 0 := by
  unfold CSuperblock.IsValidSuperblock
  have h1 : (!CSuperblock.IsValidBlockHeight ctx nBlockHeight
      && !CSuperblock.IsDCCSuperblock ctx nBlockHeight) = false := by
    rcases hHeight with h | h <;> simp [h]
  have h2 : ¬ ((txNew.vout.length : Int) - sb.CountPayments < 0) := by
    unfold CSuperblock.CountPayments
    omega
  have h3 : ¬ (sb.GetPaymentsTotalAmount > CSuperblock.GetPaymentsLimit ctx nBlockHeight) :=
    not_lt.mpr hLimit
  have h4 : (CSuperblock.IsValidBlockHeight ctx nBlockHeight
      && decide (txNew.GetValueOut > wrap64 (blockReward + sb.GetPaymentsTotalAmount))) = false := by
    cases hv : CSuperblock.IsValidBlockHeight ctx nBlockHeight with
    | false => simp
    | true => simpa using hValue hv
  simp only [h1, h2, h3, h4, Bool.false_eq_true, if_false]
  exact paymentLoop_all sb txNew.vout

/-- The verdict is false whenever the matching loop fails. -/
theorem IsValidSuperblock_false_of_matchSchedule (ctx : ChainContext) (sb : CSuperblock)
    (txNew : CTransaction) (nBlockHeight blockReward nBlockTime : Int)
    (h : matchSchedule txNew.vout sb.vecPayments 0 = false) :
    sb.IsValidSuperblock ctx txNew nBlockHeight blockReward nBlockTime = false := by
  unfold CSuperblock.IsValidSuperblock
  simp only [paymentLoop_all, h]
  split_ifs <;> rfl

/-! ## Lemmas on the selection of the best superblock -/

theorem bestSuperblockStep_eq (gov : CGovernanceManager) (nBlockHeight : Int)
    (acc : Int × Option CSuperblock) (x : Option CSuperblock) :
    bestSuperblockStep gov nBlockHeight acc x =
      match candidateYesCount gov nBlockHeight x with
      | none => acc
      | some c => if c > acc.1 then (c, x) else acc := by
  cases x with
  | none => simp [bestSuperblockStep, candidateYesCount]
  | some sb =>
    simp only [bestSuperblockStep, candidateYesCount]
    cases sb.GetGovernanceObject gov with
    | none => rfl
    | some pObj =>
      by_cases hh : nBlockHeight ≠ sb.GetBlockStart
      · simp [hh]
      · simp [hh]

theorem candidateYesCount_some (gov : CGovernanceManager) (nBlockHeight : Int)
    (x : Option CSuperblock) (c : Int) (h : candidateYesCount gov nBlockHeight x = some c) :
    ∃ sb pObj, x = some sb ∧ sb.GetGovernanceObject gov = some pObj ∧
      sb.GetBlockStart = nBlockHeight ∧ pObj.nAbsoluteYesCountFunding = c := by
  cases x with
  | none => simp [candidateYesCount] at h
  | some sb =>
    simp only [candidateYesCount] at h
    cases hg : sb.GetGovernanceObject gov with
    | none => simp [hg] at h
    | some pObj =>
      rw [hg] at h
      by_cases hh : nBlockHeight ≠ sb.GetBlockStart
      · simp [hh] at h
      · simp only [hh, if_false, Option.some.injEq] at h
        exact ⟨sb, pObj, rfl, hg, (not_not.mp hh).symm, h⟩

theorem candidateYesCount_of (gov : CGovernanceManager) (sb : CSuperblock)
    (pObj : CGovernanceObject) (hg : sb.GetGovernanceObject gov = some pObj) :
    candidateYesCount gov sb.GetBlockStart (some sb) = some pObj.nAbsoluteYesCountFunding := by
  simp [candidateYesCount, hg]

/-- The scan either leaves its state unchanged, no candidate exceeding the
initial count, or ends on the first candidate of highest count. -/
theorem foldl_bestSuperblockStep (gov : CGovernanceManager) (nBlockHeight : Int)
    (l : List (Option CSuperblock)) (acc : Int × Option CSuperblock) :
    (l.foldl (bestSuperblockStep gov nBlockHeight) acc = acc ∧
      ∀ x ∈ l, ∀ c, candidateYesCount gov nBlockHeight x = some c → c ≤ acc.1) ∨
    (∃ pre w post c, l = pre ++ w :: post ∧ candidateYesCount gov nBlockHeight w = some c ∧
      l.foldl (bestSuperblockStep gov nBlockHeight) acc = (c, w) ∧ acc.1 < c ∧
      (∀ x ∈ pre, ∀ d, candidateYesCount gov nBlockHeight x = some d → d < c) ∧
      (∀ x ∈ post, ∀ d, candidateYesCount gov nBlockHeight x = some d → d ≤ c)) := by
  induction l generalizing acc with
  | nil => left; simp
  | cons x l ih =>
    rw [List.foldl_cons, bestSuperblockStep_eq]
    cases hx : candidateYesCount gov nBlockHeight x with
    | none =>
      simp only []
      rcases ih acc with ⟨h1, h2⟩ | ⟨pre, w, post, c, h1, h2, h3, h4, h5, h6⟩
      · left
        refine ⟨h1, ?_⟩
        intro y hy d hd
        rcases List.mem_cons.mp hy with rfl | hy
        · rw [hx] at hd; cases hd
        · exact h2 y hy d hd
      · right
        refine ⟨x :: pre, w, post, c, by simp [h1], h2, h3, h4, ?_, h6⟩
        intro y hy d hd
        rcases List.mem_cons.mp hy with rfl | hy
        · rw [hx] at hd; cases hd
        · exact h5 y hy d hd
    | some cx =>
      simp only []
      by_cases hgt : cx > acc.1
      · rw [if_pos hgt]
        rcases ih (cx, x) with ⟨h1, h2⟩ | ⟨pre, w, post, c, h1, h2, h3, h4, h5, h6⟩
        · right
          exact ⟨[], x, l, cx, rfl, hx, h1, hgt, by simp, h2⟩
        · right
          have h4 : cx < c := h4
          refine ⟨x :: pre, w, post, c, by simp [h1], h2, h3, by omega, ?_, h6⟩
          intro y hy d hd
          rcases List.mem_cons.mp hy with rfl | hy
          · rw [hx] at hd; cases hd; exact h4
          · exact h5 y hy d hd
      · rw [if_neg hgt]
        rcases ih acc with ⟨h1, h2⟩ | ⟨pre, w, post, c, h1, h2, h3, h4, h5, h6⟩
        · left
          refine ⟨h1, ?_⟩
          intro y hy d hd
          rcases List.mem_cons.mp hy with rfl | hy
          · rw [hx] at hd; cases hd; omega
          · exact h2 y hy d hd
        · right
          refine ⟨x :: pre, w, post, c, by simp [h1], h2, h3, h4, ?_, h6⟩
          intro y hy d hd
          rcases List.mem_cons.mp hy with rfl | hy
          · rw [hx] at hd; cases hd; omega
          · exact h5 y hy d hd

/-- A successful `GetBestSuperblock` returns the first scanned candidate of
highest count, and that count is positive. -/
theorem GetBestSuperblock_true (ctx : ChainContext) (gov : CGovernanceManager)
    (triggerman : CGovernanceTriggerManager) (p0 r : Option CSuperblock) (nBlockHeight : Int)
    (h : CSuperblockManager.GetBestSuperblock ctx gov triggerman p0 nBlockHeight = (true, r)) :
    ∃ pre post c, triggerman.GetActiveTriggers gov = pre ++ r :: post ∧
      candidateYesCount gov nBlockHeight r = some c ∧ 0 < c ∧
      (∀ x ∈ pre, ∀ d, candidateYesCount gov nBlockHeight x = some d → d < c) ∧
      (∀ x ∈ post, ∀ d, candidateYesCount gov nBlockHeight x = some d → d ≤ c) := by
  unfold CSuperblockManager.GetBestSuperblock at h
  split_ifs at h with hh
  · cases h
  · simp only [Prod.mk.injEq, decide_eq_true_eq] at h
    obtain ⟨hpos, hr⟩ := h
    rcases foldl_bestSuperblockStep gov nBlockHeight (triggerman.GetActiveTriggers gov) (0, p0)
      with ⟨h1, _⟩ | ⟨pre, w, post, c, h1, h2, h3, h4, h5, h6⟩
    · rw [h1] at hpos
      simp at hpos
    · rw [h3] at hr hpos
      subst hr
      exact ⟨pre, post, c, h1, h2, hpos, h5, h6⟩

/-- A scan over pointers none of which competes with a count above the
current one leaves the state unchanged. -/
theorem foldl_bestSuperblockStep_of_le (gov : CGovernanceManager) (nBlockHeight : Int)
    (l : List (Option CSuperblock)) (acc : Int × Option CSuperblock)
    (h : ∀ x ∈ l, ∀ d, candidateYesCount gov nBlockHeight x = some d → d ≤ acc.1) :
    l.foldl (bestSuperblockStep gov nBlockHeight) acc = acc := by
  induction l with
  | nil => rfl
  | cons x l ih =>
    have hx : bestSuperblockStep gov nBlockHeight acc x = acc := by
      rw [bestSuperblockStep_eq]
      cases hc : candidateYesCount gov nBlockHeight x with
      | none => rfl
      | some d =>
        have := h x (List.mem_cons_self _ _) d hc
        simp only []
        rw [if_neg (by omega)]
    rw [List.foldl_cons, hx]
    exact ih (fun y hy d hd => h y (List.mem_cons_of_mem _ hy) d hd)

/-- A scan over pointers all competing with counts below `c`, started below
`c`, ends below `c`. -/
theorem foldl_bestSuperblockStep_lt (gov : CGovernanceManager) (nBlockHeight : Int)
    (l : List (Option CSuperblock)) (acc : Int × Option CSuperblock) (c : Int)
    (hacc : acc.1 < c)
    (h : ∀ x ∈ l, ∀ d, candidateYesCount gov nBlockHeight x = some d → d < c) :
    (l.foldl (bestSuperblockStep gov nBlockHeight) acc).1 < c := by
  induction l generalizing acc with
  | nil => exact hacc
  | cons x l ih =>
    rw [List.foldl_cons]
    apply ih
    · rw [bestSuperblockStep_eq]
      cases hc : candidateYesCount gov nBlockHeight x with
      | none => exact hacc
      | some d =>
        have := h x (List.mem_cons_self _ _) d hc
        simp only []
        split_ifs
        · exact this
        · exact hacc
    · exact fun y hy d hd => h y (List.mem_cons_of_mem _ hy) d hd

/-- The scan ends on a candidate of positive count that is preceded by
smaller counts only and followed by no greater count. -/
theorem foldl_bestSuperblockStep_first (gov : CGovernanceManager) (nBlockHeight : Int)
    (pre post : List (Option CSuperblock)) (w p0 : Option CSuperblock) (c : Int)
    (hc : candidateYesCount gov nBlockHeight w = some c) (hpos : 0 < c)
    (hpre : ∀ x ∈ pre, ∀ d, candidateYesCount gov nBlockHeight x = some d → d < c)
    (hpost : ∀ x ∈ post, ∀ d, candidateYesCount gov nBlockHeight x = some d → d ≤ c) :
    (pre ++ w :: post).foldl (bestSuperblockStep gov nBlockHeight) (0, p0) = (c, w) := by
  rw [List.foldl_append, List.foldl_cons]
  have h1 := foldl_bestSuperblockStep_lt gov nBlockHeight pre (0, p0) c hpos hpre
  have h2 : bestSuperblockStep gov nBlockHeight
      (pre.foldl (bestSuperblockStep gov nBlockHeight) (0, p0)) w = (c, w) := by
    rw [bestSuperblockStep_eq, hc]
    simp only []
    rw [if_pos h1]
  rw [h2]
  exact foldl_bestSuperblockStep_of_le gov nBlockHeight post (c, w) hpost

/-! ## Validation of a candidate transaction: the statements -/

/-- C1: when the preliminary checks of `CSuperblock::IsValidSuperblock` pass
(superblock height, enough outputs, scheduled total within the payments limit,
and at a regular height the value paid out within block reward plus scheduled
total) and the scheduled payments, in scheduled order, form a subsequence of
the outputs of the candidate, the candidate is accepted. -/
theorem IsValidSuperblock_accepts_subsequence (ctx : ChainContext) (sb : CSuperblock)
    (txNew : CTransaction) (nBlockHeight blockReward nBlockTime : Int)
    (hHeight : CSuperblock.IsValidBlockHeight ctx nBlockHeight = true
      ∨ CSuperblock.IsDCCSuperblock ctx nBlockHeight = true)
    (hCount : sb.vecPayments.length ≤ txNew.vout.length)
    (hLimit : sb.GetPaymentsTotalAmount ≤ CSuperblock.GetPaymentsLimit ctx nBlockHeight)
    (hValue : CSuperblock.IsValidBlockHeight ctx nBlockHeight = true →
      txNew.GetValueOut ≤ wrap64 (blockReward + sb.GetPaymentsTotalAmount))
    (hSub : (sb.vecPayments.map paymentKey).Sublist (txNew.vout.map outputKey)) :
    sb.IsValidSuperblock ctx txNew nBlockHeight blockReward nBlockTime = true := by
  rw [IsValidSuperblock_of_checks ctx sb txNew nBlockHeight blockReward nBlockTime hHeight hCount
    hLimit hValue]
  exact matchSchedule_of_sublist txNew.vout sb.vecPayments 0 (by simpa using hSub)

/-- The example of C1: schedule `[(A,100),(B,50)]`, limit 1000, reward 1000 and
outputs `[(miner,850),(A,100),(B,50)]`. -/
theorem IsValidSuperblock_accepts_subsequence_witness :
    CSuperblock.GetPaymentsLimit exampleCtx 20 = 1000 ∧
    (exampleSuperblock.vecPayments.map paymentKey).Sublist (orderedCandidate.vout.map outputKey) ∧
    exampleSuperblock.IsValidSuperblock exampleCtx orderedCandidate 20 1000 0 = true :=
  ⟨by decide, by decide,
    IsValidSuperblock_accepts_subsequence exampleCtx exampleSuperblock orderedCandidate 20 1000 0
      (by decide) (by decide) (by decide) (by decide) (by decide)⟩

/-- C2 at the schedule `[(A,100),(A,100)]`: the candidate `[(A,100),(miner,50)]`
is accepted although no two distinct outputs pay the two scheduled payments;
the single output to A is matched by both. -/
theorem IsValidSuperblock_accepts_payment_matched_twice :
    twiceSuperblock.IsValidSuperblock exampleCtx onceCandidate 20 1000 0 = true ∧
    ¬ ∃ j₁ j₂ : Nat, j₁ < j₂ ∧
      (onceCandidate.vout[j₁]?).map outputKey = some (scriptA, 100) ∧
      (onceCandidate.vout[j₂]?).map outputKey = some (scriptA, 100) := by
  refine ⟨by decide, ?_⟩
  rintro ⟨j₁, j₂, hlt, _, h2⟩
  match j₂, hlt, h2 with
  | 0, hlt, _ => omega
  | 1, _, h2 => exact absurd h2 (by decide)
  | n + 2, _, h2 => simp [onceCandidate] at h2

set_option maxRecDepth 100000 in
/-- C3 at a schedule of thirty-two payments of `2 ^ 58` base units: the exact
sum of the scheduled amounts is `2 ^ 63`, far above the payments limit 700 of
the height, the 64-bit total computed by the code is `-2 ^ 63`, and the
candidate is accepted. -/
theorem IsValidSuperblock_accepts_total_above_limit :
    (∀ p ∈ overflowSuperblock.vecPayments, 0 ≤ p.nAmount ∧ p.nAmount ≤ 5200000000 * COIN) ∧
    overflowSuperblock.scheduledTotal = 2 ^ 63 ∧
    CSuperblock.GetPaymentsLimit exampleCtx 14 = 700 ∧
    overflowSuperblock.GetPaymentsTotalAmount = -(2 ^ 63) ∧
    overflowSuperblock.IsValidSuperblock exampleCtx overflowCandidate 14 1000 0 = true := by
  refine ⟨?_, by decide, by decide, by decide, by decide⟩
  intro p hp
  have hp2 : p = { script := scriptA, nAmount := 2 ^ 58 } := by
    simpa [overflowSuperblock] using hp
  subst hp2
  decide

/-- C4: at a regular superblock height a candidate that pays out more than the
block reward plus the exact sum of the scheduled amounts is rejected, whatever
its outputs are; the scheduled amounts are non-negative, as parsed amounts
are, and the block reward is a 64-bit value. -/
theorem IsValidSuperblock_rejects_overpayment (ctx : ChainContext) (sb : CSuperblock)
    (txNew : CTransaction) (nBlockHeight blockReward nBlockTime : Int)
    (hRegular : CSuperblock.IsValidBlockHeight ctx nBlockHeight = true)
    (hAmounts : ∀ p ∈ sb.vecPayments, 0 ≤ p.nAmount)
    (hReward : IsInt64 blockReward)
    (hOver : txNew.GetValueOut > blockReward + sb.scheduledTotal) :
    sb.IsValidSuperblock ctx txNew nBlockHeight blockReward nBlockTime = false := by
  have h0 := scheduledTotal_nonneg sb hAmounts
  have h1 : wrap64 (blockReward + sb.GetPaymentsTotalAmount)
      ≤ blockReward + sb.scheduledTotal := by
    rw [GetPaymentsTotalAmount_eq_wrap64, wrap64_add_wrap64]
    apply wrap64_le_self
    unfold IsInt64 at hReward
    omega
  have h2 : txNew.GetValueOut > wrap64 (blockReward + sb.GetPaymentsTotalAmount) := by omega
  unfold CSuperblock.IsValidSuperblock
  simp only [hRegular, h2, decide_True, Bool.and_self, if_true]
  split_ifs <;> rfl

/-- An instance of C4: every scheduled payment is present in order, and the
candidate pays out 1150 against a reward of 849 and a schedule of 150. -/
theorem IsValidSuperblock_rejects_overpayment_witness :
    (exampleSuperblock.vecPayments.map paymentKey).Sublist (overpaidCandidate.vout.map outputKey) ∧
    overpaidCandidate.GetValueOut > 849 + exampleSuperblock.scheduledTotal ∧
    exampleSuperblock.IsValidSuperblock exampleCtx overpaidCandidate 20 849 0 = false :=
  ⟨by decide, by decide,
    IsValidSuperblock_rejects_overpayment exampleCtx exampleSuperblock overpaidCandidate 20 849 0
      (by decide) (by decide) (by unfold IsInt64; decide) (by decide)⟩

/-- C5: a candidate with fewer outputs than the superblock has scheduled
payments is rejected. -/
theorem IsValidSuperblock_rejects_too_few_outputs (ctx : ChainContext) (sb : CSuperblock)
    (txNew : CTransaction) (nBlockHeight blockReward nBlockTime : Int)
    (hFew : txNew.vout.length < sb.vecPayments.length) :
    sb.IsValidSuperblock ctx txNew nBlockHeight blockReward nBlockTime = false := by
  have h : (txNew.vout.length : Int) - sb.CountPayments < 0 := by
    unfold CSuperblock.CountPayments
    omega
  unfold CSuperblock.IsValidSuperblock
  simp only [h, if_true]
  split_ifs <;> rfl

/-- The example of C5: schedule `[(A,100),(B,50)]` and outputs `[(A,100)]`. -/
theorem IsValidSuperblock_rejects_too_few_outputs_witness :
    shortCandidate.vout.length < exampleSuperblock.vecPayments.length ∧
    exampleSuperblock.IsValidSuperblock exampleCtx shortCandidate 20 1000 0 = false :=
  ⟨by decide,
    IsValidSuperblock_rejects_too_few_outputs exampleCtx exampleSuperblock shortCandidate 20 1000 0
      (by decide)⟩

/-- C6 at the schedule `[(A,100),(A,100),(B,50)]`: the payments at positions 1
and 2 differ, and the candidate whose outputs are the schedule with these two
exchanged, `[(A,100),(B,50),(A,100)]`, is accepted. -/
theorem IsValidSuperblock_accepts_exchanged_payments :
    repeatSuperblock.vecPayments[1]? ≠ repeatSuperblock.vecPayments[2]? ∧
    exchangedCandidate.vout.map outputKey = [(scriptA, 100), (scriptB, 50), (scriptA, 100)] ∧
    CSuperblock.GetPaymentsLimit exampleCtx 20 = 1000 ∧
    repeatSuperblock.IsValidSuperblock exampleCtx exchangedCandidate 20 1000 0 = true := by
  decide

/-- C7 as stated fails: for the schedule `[(A,100),(B,50)]`, limit 1000 and
reward 1000 at the superblock height 20, the candidate `[(B,50),(A,100)]` is
rejected. -/
theorem IsValidSuperblock_swapped_example_rejected :
    scriptA ≠ scriptB ∧ CSuperblock.IsValidBlockHeight exampleCtx 20 = true ∧
    CSuperblock.GetPaymentsLimit exampleCtx 20 = 1000 ∧
    ¬ (exampleSuperblock.IsValidSuperblock exampleCtx swappedCandidate 20 1000 0 = true) := by
  decide

/-- C7 amended: for the schedule `[(A,100),(B,50)]` with A and B different, the
candidate whose outputs are exactly `[(B,50),(A,100)]` is rejected, at every
height and for every limit and reward. -/
theorem IsValidSuperblock_rejects_swapped_pair (ctx : ChainContext) (sb : CSuperblock)
    (A B : CScript) (m₁ m₂ : String) (nBlockHeight blockReward nBlockTime : Int)
    (hAB : A ≠ B)
    (hSchedule : sb.vecPayments = [{ script := A, nAmount := 100 }, { script := B, nAmount := 50 }]) :
    sb.IsValidSuperblock ctx
      { vout := [{ nValue := 50, scriptPubKey := B, sTxOutMessage := m₁ },
        { nValue := 100, scriptPubKey := A, sTxOutMessage := m₂ }] }
      nBlockHeight blockReward nBlockTime = false := by
  apply IsValidSuperblock_false_of_matchSchedule
  have hBA : B ≠ A := fun e => hAB e.symm
  simp [hSchedule, matchSchedule, scanOutputs, paymentMatches, hAB, hBA]

/-- An instance of the amended C7 at height 20 with limit 1000 and reward 1000. -/
theorem IsValidSuperblock_rejects_swapped_pair_witness :
    scriptA ≠ scriptB ∧
    exampleSuperblock.IsValidSuperblock exampleCtx
      { vout := [{ nValue := 50, scriptPubKey := scriptB, sTxOutMessage := "" },
        { nValue := 100, scriptPubKey := scriptA, sTxOutMessage := "" }] } 20 1000 0 = false :=
  ⟨by decide,
    IsValidSuperblock_rejects_swapped_pair exampleCtx exampleSuperblock scriptA scriptB "" "" 20
      1000 0 (by decide) rfl⟩

/-! ## Selection of the best superblock: the statements -/

/-- C8: `CSuperblockManager::IsValidSuperblock` returns false when
`GetBestSuperblock` finds no superblock for the height; when it finds one, the
returned pointer is not null and the result is the verdict of
`CSuperblock::IsValidSuperblock` of that superblock on the same arguments. -/
theorem Manager_IsValidSuperblock_delegates (ctx : ChainContext) (gov : CGovernanceManager)
    (triggerman : CGovernanceTriggerManager) (txNew : CTransaction)
    (nBlockHeight blockReward nBlockTime : Int) :
    ((CSuperblockManager.GetBestSuperblock ctx gov triggerman none nBlockHeight).1 = false →
      CSuperblockManager.IsValidSuperblock ctx gov triggerman txNew nBlockHeight blockReward
        nBlockTime = false) ∧
    ((CSuperblockManager.GetBestSuperblock ctx gov triggerman none nBlockHeight).1 = true →
      ∃ pSuperblock,
        (CSuperblockManager.GetBestSuperblock ctx gov triggerman none nBlockHeight).2
          = some pSuperblock ∧
        CSuperblockManager.IsValidSuperblock ctx gov triggerman txNew nBlockHeight blockReward
          nBlockTime
          = pSuperblock.IsValidSuperblock ctx txNew nBlockHeight blockReward nBlockTime) := by
  unfold CSuperblockManager.IsValidSuperblock
  constructor
  · intro h
    cases hb : CSuperblockManager.GetBestSuperblock ctx gov triggerman none nBlockHeight with
    | mk b r =>
      rw [hb] at h
      simp only at h
      subst h
      rfl
  · intro h
    cases hb : CSuperblockManager.GetBestSuperblock ctx gov triggerman none nBlockHeight with
    | mk b r =>
      rw [hb] at h
      simp only at h
      subst h
      obtain ⟨pre, post, c, _, hc, _⟩ :=
        GetBestSuperblock_true ctx gov triggerman none r nBlockHeight hb
      obtain ⟨sb, pObj, hr, _⟩ := candidateYesCount_some gov nBlockHeight r c hc
      subst hr
      exact ⟨sb, rfl, rfl⟩

/-- An instance of C8: at height 20 the best superblock of the example registry
is the one registered under hash 2, and the manager returns its verdict. -/
theorem Manager_IsValidSuperblock_delegates_witness :
    CSuperblockManager.GetBestSuperblock exampleCtx exampleGov exampleTriggerman none 20
      = (true, some secondSuperblock) ∧
    secondSuperblock.IsValidSuperblock exampleCtx orderedCandidate 20 1000 0 = true ∧
    ∃ pSuperblock,
      (CSuperblockManager.GetBestSuperblock exampleCtx exampleGov exampleTriggerman none 20).2
        = some pSuperblock ∧
      CSuperblockManager.IsValidSuperblock exampleCtx exampleGov exampleTriggerman
        orderedCandidate 20 1000 0
        = pSuperblock.IsValidSuperblock exampleCtx orderedCandidate 20 1000 0 :=
  ⟨by decide, by decide,
    (Manager_IsValidSuperblock_delegates exampleCtx exampleGov exampleTriggerman orderedCandidate
      20 1000 0).2 (by decide)⟩

/-- C9: when `GetBestSuperblock` succeeds for a height, the superblock it
returns is among the active triggers, its backing object resolves, its block
start is the height, and its funding yes-count is positive and at least the
yes-count of every active trigger with that block start whose object
resolves. -/
theorem GetBestSuperblock_highest_yes_count (ctx : ChainContext) (gov : CGovernanceManager)
    (triggerman : CGovernanceTriggerManager) (p0 r : Option CSuperblock) (nBlockHeight : Int)
    (h : CSuperblockManager.GetBestSuperblock ctx gov triggerman p0 nBlockHeight = (true, r)) :
    ∃ sb pObj, r = some sb ∧ some sb ∈ triggerman.GetActiveTriggers gov ∧
      sb.GetGovernanceObject gov = some pObj ∧ sb.GetBlockStart = nBlockHeight ∧
      0 < pObj.nAbsoluteYesCountFunding ∧
      ∀ sb' pObj', some sb' ∈ triggerman.GetActiveTriggers gov →
        sb'.GetGovernanceObject gov = some pObj' → sb'.GetBlockStart = nBlockHeight →
        pObj'.nAbsoluteYesCountFunding ≤ pObj.nAbsoluteYesCountFunding := by
  obtain ⟨pre, post, c, hl, hc, hpos, hpre, hpost⟩ :=
    GetBestSuperblock_true ctx gov triggerman p0 r nBlockHeight h
  obtain ⟨sb, pObj, hr, hg, hs, hy⟩ := candidateYesCount_some gov nBlockHeight r c hc
  subst hr
  refine ⟨sb, pObj, rfl, by simp [hl], hg, hs, by omega, ?_⟩
  intro sb' pObj' hmem hg' hs'
  have hc' : candidateYesCount gov nBlockHeight (some sb')
      = some pObj'.nAbsoluteYesCountFunding := by
    rw [← hs']
    exact candidateYesCount_of gov sb' pObj' hg'
  rw [hl] at hmem
  rcases List.mem_append.mp hmem with hm | hm
  · have := hpre _ hm _ hc'
    omega
  · rcases List.mem_cons.mp hm with hm | hm
    · rw [hm, hc] at hc'
      cases hc'
      omega
    · have := hpost _ hm _ hc'
      omega

/-- An instance of C9: in the example registry the best superblock for height
20 has yes-count 7; the trigger with yes-count 9 is scheduled for height 30. -/
theorem GetBestSuperblock_highest_yes_count_witness :
    ∃ sb pObj, some secondSuperblock = some sb ∧
      some sb ∈ exampleTriggerman.GetActiveTriggers exampleGov ∧
      sb.GetGovernanceObject exampleGov = some pObj ∧ sb.GetBlockStart = 20 ∧
      0 < pObj.nAbsoluteYesCountFunding ∧
      ∀ sb' pObj', some sb' ∈ exampleTriggerman.GetActiveTriggers exampleGov →
        sb'.GetGovernanceObject exampleGov = some pObj' → sb'.GetBlockStart = 20 →
        pObj'.nAbsoluteYesCountFunding ≤ pObj.nAbsoluteYesCountFunding :=
  GetBestSuperblock_highest_yes_count exampleCtx exampleGov exampleTriggerman none
    (some secondSuperblock) 20 (by decide)

/-- C10: `GetBestSuperblock` returns a superblock exactly when the height is
a superblock height and that superblock is the first, in the scan order of
`GetActiveTriggers`, of the candidates of highest funding yes-count for the
height, the count being positive: every candidate scanned before it has a
strictly smaller count and every candidate scanned after it a count that is
at most its own.  A later candidate with an equal count does not displace
it. -/
theorem GetBestSuperblock_first_of_equal_counts (ctx : ChainContext) (gov : CGovernanceManager)
    (triggerman : CGovernanceTriggerManager) (p0 : Option CSuperblock) (w : CSuperblock)
    (nBlockHeight : Int) :
    CSuperblockManager.GetBestSuperblock ctx gov triggerman p0 nBlockHeight = (true, some w) ↔
    ((CSuperblock.IsValidBlockHeight ctx nBlockHeight = true
        ∨ CSuperblock.IsDCCSuperblock ctx nBlockHeight = true) ∧
      ∃ pre post pObj, triggerman.GetActiveTriggers gov = pre ++ some w :: post ∧
        w.GetGovernanceObject gov = some pObj ∧ w.GetBlockStart = nBlockHeight ∧
        0 < pObj.nAbsoluteYesCountFunding ∧
        (∀ sb' pObj', some sb' ∈ pre → sb'.GetGovernanceObject gov = some pObj' →
          sb'.GetBlockStart = nBlockHeight →
          pObj'.nAbsoluteYesCountFunding < pObj.nAbsoluteYesCountFunding) ∧
        (∀ sb' pObj', some sb' ∈ post → sb'.GetGovernanceObject gov = some pObj' →
          sb'.GetBlockStart = nBlockHeight →
          pObj'.nAbsoluteYesCountFunding ≤ pObj.nAbsoluteYesCountFunding)) := by
  constructor
  · intro h
    have hHeight : CSuperblock.IsValidBlockHeight ctx nBlockHeight = true
        ∨ CSuperblock.IsDCCSuperblock ctx nBlockHeight = true := by
      unfold CSuperblockManager.GetBestSuperblock at h
      split_ifs at h with hh
      · cases h
      · cases h1 : CSuperblock.IsValidBlockHeight ctx nBlockHeight
        · cases h2 : CSuperblock.IsDCCSuperblock ctx nBlockHeight
          · simp [h1, h2] at hh
          · exact Or.inr rfl
        · exact Or.inl rfl
    obtain ⟨pre, post, c, hl, hc, hpos, hpre, hpost⟩ :=
      GetBestSuperblock_true ctx gov triggerman p0 (some w) nBlockHeight h
    obtain ⟨sb, pObj, hr, hg, hs, hy⟩ := candidateYesCount_some gov nBlockHeight (some w) c hc
    cases hr
    refine ⟨hHeight, pre, post, pObj, hl, hg, hs, by omega, ?_, ?_⟩
    · intro sb' pObj' hmem hg' hs'
      have hc' : candidateYesCount gov nBlockHeight (some sb')
          = some pObj'.nAbsoluteYesCountFunding := by
        rw [← hs']
        exact candidateYesCount_of gov sb' pObj' hg'
      have := hpre _ hmem _ hc'
      omega
    · intro sb' pObj' hmem hg' hs'
      have hc' : candidateYesCount gov nBlockHeight (some sb')
          = some pObj'.nAbsoluteYesCountFunding := by
        rw [← hs']
        exact candidateYesCount_of gov sb' pObj' hg'
      have := hpost _ hmem _ hc'
      omega
  · rintro ⟨hHeight, pre, post, pObj, hl, hg, hs, hpos, hpre, hpost⟩
    have hc : candidateYesCount gov nBlockHeight (some w)
        = some pObj.nAbsoluteYesCountFunding := by
      rw [← hs]
      exact candidateYesCount_of gov w pObj hg
    have hfold := foldl_bestSuperblockStep_first gov nBlockHeight pre post (some w) p0
      pObj.nAbsoluteYesCountFunding hc hpos
      (by
        intro x hx d hd
        obtain ⟨sb', pObj', rfl, hg', hs', hy'⟩ := candidateYesCount_some gov nBlockHeight x d hd
        have := hpre sb' pObj' hx hg' hs'
        omega)
      (by
        intro x hx d hd
        obtain ⟨sb', pObj', rfl, hg', hs', hy'⟩ := candidateYesCount_some gov nBlockHeight x d hd
        have := hpost sb' pObj' hx hg' hs'
        omega)
    have h1 : (!CSuperblock.IsValidBlockHeight ctx nBlockHeight
        && !CSuperblock.IsDCCSuperblock ctx nBlockHeight) = false := by
      rcases hHeight with h | h <;> simp [h]
    unfold CSuperblockManager.GetBestSuperblock
    simp only [h1, Bool.false_eq_true, if_false, hl, hfold, hpos, decide_True]

/-- An instance of C10: the superblocks under hashes 2 and 3 both have
yes-count 7 for height 20, the highest, and the one under hash 2, scanned
first, is returned. -/
theorem GetBestSuperblock_first_of_equal_counts_witness :
    exampleTriggerman.GetActiveTriggers exampleGov
      = [some firstSuperblock] ++ some secondSuperblock
        :: [some thirdSuperblock, some laterSuperblock] ∧
    (secondSuperblock.GetGovernanceObject exampleGov).map (fun o => o.nAbsoluteYesCountFunding)
      = some 7 ∧
    (thirdSuperblock.GetGovernanceObject exampleGov).map (fun o => o.nAbsoluteYesCountFunding)
      = some 7 ∧
    CSuperblockManager.GetBestSuperblock exampleCtx exampleGov exampleTriggerman none 20
      = (true, some secondSuperblock) :=
  ⟨by decide, by decide, by decide,
    (GetBestSuperblock_first_of_equal_counts exampleCtx exampleGov exampleTriggerman none
      secondSuperblock 20).mpr
      ⟨by decide, [some firstSuperblock], [some thirdSuperblock, some laterSuperblock],
        { nObjectType := 2, nAbsoluteYesCountFunding := 7 }, by decide, by decide, by decide,
        by decide, by
          intro sb' pObj' hmem hg hs
          have e : sb' = firstSuperblock := by simpa using hmem
          subst e
          have e2 : some pObj' = some { nObjectType := 2, nAbsoluteYesCountFunding := 5 } := by
            rw [← hg]; decide
          cases e2
          decide, by
          intro sb' pObj' hmem hg hs
          simp only [List.mem_cons, Option.some.injEq, List.mem_singleton, List.not_mem_nil,
            or_false] at hmem
          rcases hmem with e | e
          · subst e
            have e2 : some pObj' = some { nObjectType := 2, nAbsoluteYesCountFunding := 7 } := by
              rw [← hg]; decide
            cases e2
            decide
          · subst e
            exact absurd hs (by decide)⟩⟩

/-! ## More on the selection of the best superblock -/

/-- The scan started at count 0 ends on a positive count exactly when some
scanned pointer competes with a positive count. -/
theorem foldl_bestSuperblockStep_pos (gov : CGovernanceManager) (nBlockHeight : Int)
    (l : List (Option CSuperblock)) (p0 : Option CSuperblock) :
    (l.foldl (bestSuperblockStep gov nBlockHeight) (0, p0)).1 > 0 ↔
      ∃ x ∈ l, ∃ c, candidateYesCount gov nBlockHeight x = some c ∧ 0 < c := by
  rcases foldl_bestSuperblockStep gov nBlockHeight l (0, p0)
    with ⟨h1, h2⟩ | ⟨pre, w, post, c, h1, h2, h3, h4, _, _⟩
  · constructor
    · intro h
      rw [h1] at h
      simp at h
    · rintro ⟨x, hx, c, hc, hpos⟩
      have := h2 x hx c hc
      simp only at this
      omega
  · constructor
    · intro _
      exact ⟨w, by simp [h1], c, h2, h4⟩
    · intro _
      rw [h3]
      exact h4

/-- C11: `GetBestSuperblock` returns true exactly when the height is a regular
or DC superblock height and some active trigger for the height, whose object
resolves, has a positive funding yes-count; and the pointer it leaves is
either the pointer on entry or a superblock of positive yes-count, so a
candidate of zero or negative count is never selected. -/
theorem GetBestSuperblock_true_iff (ctx : ChainContext) (gov : CGovernanceManager)
    (triggerman : CGovernanceTriggerManager) (p0 : Option CSuperblock) (nBlockHeight : Int) :
    ((CSuperblockManager.GetBestSuperblock ctx gov triggerman p0 nBlockHeight).1 = true ↔
      ((CSuperblock.IsValidBlockHeight ctx nBlockHeight = true
          ∨ CSuperblock.IsDCCSuperblock ctx nBlockHeight = true) ∧
        ∃ sb pObj, some sb ∈ triggerman.GetActiveTriggers gov ∧
          sb.GetGovernanceObject gov = some pObj ∧ sb.GetBlockStart = nBlockHeight ∧
          0 < pObj.nAbsoluteYesCountFunding)) ∧
    ((CSuperblockManager.GetBestSuperblock ctx gov triggerman p0 nBlockHeight).2 = p0 ∨
      ∃ sb pObj, (CSuperblockManager.GetBestSuperblock ctx gov triggerman p0 nBlockHeight).2
          = some sb ∧
        sb.GetGovernanceObject gov = some pObj ∧ 0 < pObj.nAbsoluteYesCountFunding) := by
  unfold CSuperblockManager.GetBestSuperblock
  cases h1 : CSuperblock.IsValidBlockHeight ctx nBlockHeight <;>
    cases h2 : CSuperblock.IsDCCSuperblock ctx nBlockHeight
  · simp
  all_goals
    simp only [Bool.not_true, Bool.not_false, Bool.and_false, Bool.false_and,
      Bool.false_eq_true, if_false, decide_eq_true_eq, or_true, true_or, true_and]
    constructor
    · rw [foldl_bestSuperblockStep_pos]
      constructor
      · rintro ⟨x, hx, c, hc, hpos⟩
        obtain ⟨sb, pObj, rfl, hg, hs, hy⟩ := candidateYesCount_some gov nBlockHeight x c hc
        exact ⟨sb, pObj, hx, hg, hs, by omega⟩
      · rintro ⟨sb, pObj, hx, hg, hs, hpos⟩
        refine ⟨some sb, hx, pObj.nAbsoluteYesCountFunding, ?_, hpos⟩
        rw [← hs]
        exact candidateYesCount_of gov sb pObj hg
    · rcases foldl_bestSuperblockStep gov nBlockHeight (triggerman.GetActiveTriggers gov) (0, p0)
        with ⟨h3, _⟩ | ⟨pre, w, post, c, _, h4, h5, h6, _, _⟩
      · left
        rw [h3]
      · right
        obtain ⟨sb, pObj, rfl, hg, _, hy⟩ := candidateYesCount_some gov nBlockHeight w c h4
        have h6 : 0 < c := h6
        exact ⟨sb, pObj, by rw [h5], hg, by omega⟩

/-! ## The trigger registry: `AddNewTrigger` -/

theorem mapCount_eq_zero_iff (m : List (Nat × Option CSuperblock)) (nHash : Nat) :
    mapCount m nHash = 0 ↔ ∀ p, (nHash, p) ∉ m := by
  unfold mapCount
  rw [List.length_eq_zero, List.filter_eq_nil_iff]
  constructor
  · intro h p hp
    exact h (nHash, p) hp (by simp)
  · intro h e he heq
    have : e.1 = nHash := by simpa using heq
    exact h e.2 (by rw [← this]; exact he)

theorem mapInsert_sublist (m : List (Nat × Option CSuperblock)) (nHash : Nat)
    (p : Option CSuperblock) : m.Sublist (mapInsert m nHash p) := by
  induction m with
  | nil => simp [mapInsert]
  | cons e rest ih =>
    simp only [mapInsert]
    split_ifs
    · exact List.sublist_cons_self _ _
    · exact List.Sublist.refl _
    · exact List.Sublist.cons₂ _ ih

theorem mapInsert_perm (m : List (Nat × Option CSuperblock)) (nHash : Nat)
    (p : Option CSuperblock) (h : ∀ q, (nHash, q) ∉ m) :
    (mapInsert m nHash p).Perm ((nHash, p) :: m) := by
  induction m with
  | nil => simp [mapInsert]
  | cons e rest ih =>
    simp only [mapInsert]
    split_ifs with h1 h2
    · exact List.Perm.refl _
    · exact absurd (List.mem_cons_self _ _) (by
        have := h e.2
        rwa [h2] at this)
    · have ih2 := ih (fun q hq => h q (List.mem_cons_of_mem _ hq))
      exact (List.Perm.cons e ih2).trans (List.Perm.swap _ _ _)

/-- C12: for a hash already registered `AddNewTrigger` returns false and the
registry on exit is the registry on entry, so no entry is added, replaced or
modified. -/
theorem AddNewTrigger_registered_hash (pc : ParseContext) (gov : CGovernanceManager)
    (triggerman : CGovernanceTriggerManager) (nHash : Nat)
    (h : ∃ p, (nHash, p) ∈ triggerman.mapTrigger) :
    triggerman.AddNewTrigger pc gov nHash = (false, triggerman) := by
  unfold CGovernanceTriggerManager.AddNewTrigger
  have hc : mapCount triggerman.mapTrigger nHash ≠ 0 := by
    rw [Ne, mapCount_eq_zero_iff]
    obtain ⟨p, hp⟩ := h
    exact fun hall => hall p hp
  rw [if_pos hc]

/-- An instance of C12: hash 2 is registered in the example registry, its
object resolves and is a trigger, and a second registration is refused. -/
theorem AddNewTrigger_registered_hash_witness :
    (2, some secondSuperblock) ∈ exampleTriggerman.mapTrigger ∧
    exampleTriggerman.AddNewTrigger exampleParseContext parseGov 2 = (false, exampleTriggerman) :=
  ⟨by decide,
    AddNewTrigger_registered_hash exampleParseContext parseGov exampleTriggerman 2
      ⟨some secondSuperblock, by decide⟩⟩

/-- The constructor fails in each of the cases of C13. -/
theorem construct_error (pc : ParseContext) (gov : CGovernanceManager) (nHash : Nat)
    (h : gov.FindGovernanceObject nHash = none ∨
      ∃ pGovObj, gov.FindGovernanceObject nHash = some pGovObj ∧
        (pGovObj.nObjectType ≠ GOVERNANCE_OBJECT_TRIGGER ∨
          (∀ n, (jsonField pGovObj.jsonObject "event_block_height").get_int ≠ .ok n) ∨
          (∀ a, (jsonField pGovObj.jsonObject "payment_addresses").get_str ≠ .ok a) ∨
          (∀ a, (jsonField pGovObj.jsonObject "payment_amounts").get_str ≠ .ok a) ∨
          ∃ strAddresses strAmounts e,
            (jsonField pGovObj.jsonObject "payment_addresses").get_str = .ok strAddresses ∧
            (jsonField pGovObj.jsonObject "payment_amounts").get_str = .ok strAmounts ∧
            (CSuperblock.ParsePaymentSchedule pc strAddresses strAmounts []).1 = some e)) :
    ∃ e, CSuperblock.construct pc gov nHash = .error e := by
  unfold CSuperblock.construct
  rcases h with h | ⟨pGovObj, hg, h⟩
  · rw [h]
    exact ⟨_, rfl⟩
  · rw [hg]
    simp only []
    by_cases ht : pGovObj.nObjectType ≠ GOVERNANCE_OBJECT_TRIGGER
    · rw [if_pos ht]
      exact ⟨_, rfl⟩
    · rw [if_neg ht]
      cases h1 : (jsonField pGovObj.jsonObject "event_block_height").get_int with
      | error e => exact ⟨_, rfl⟩
      | ok n =>
        cases h2 : (jsonField pGovObj.jsonObject "payment_addresses").get_str with
        | error e => exact ⟨_, rfl⟩
        | ok a =>
          cases h3 : (jsonField pGovObj.jsonObject "payment_amounts").get_str with
          | error e => exact ⟨_, rfl⟩
          | ok m =>
            simp only []
            rcases h with h | h | h | h | ⟨a', m', e, ha, hm, hp⟩
            · exact absurd h ht
            · exact absurd h1 (h n)
            · exact absurd h2 (h a)
            · exact absurd h3 (h m)
            · rw [h2] at ha
              rw [h3] at hm
              cases ha
              cases hm
              cases hr : CSuperblock.ParsePaymentSchedule pc a m [] with
              | mk eo v =>
                rw [hr] at hp
                simp only at hp
                subst hp
                exact ⟨_, rfl⟩

/-- C13: for a hash that is not registered and whose superblock construction
fails (the object does not resolve, is not of type trigger, a payload field
is missing or of the wrong type, or the payment schedule does not parse),
`AddNewTrigger` returns false and the registry on exit is the registry on
entry; the exception does not leave `AddNewTrigger`, whose result is always
a boolean and a registry. -/
theorem AddNewTrigger_construction_failure (pc : ParseContext) (gov : CGovernanceManager)
    (triggerman : CGovernanceTriggerManager) (nHash : Nat)
    (hNew : ∀ p, (nHash, p) ∉ triggerman.mapTrigger)
    (h : gov.FindGovernanceObject nHash = none ∨
      ∃ pGovObj, gov.FindGovernanceObject nHash = some pGovObj ∧
        (pGovObj.nObjectType ≠ GOVERNANCE_OBJECT_TRIGGER ∨
          (∀ n, (jsonField pGovObj.jsonObject "event_block_height").get_int ≠ .ok n) ∨
          (∀ a, (jsonField pGovObj.jsonObject "payment_addresses").get_str ≠ .ok a) ∨
          (∀ a, (jsonField pGovObj.jsonObject "payment_amounts").get_str ≠ .ok a) ∨
          ∃ strAddresses strAmounts e,
            (jsonField pGovObj.jsonObject "payment_addresses").get_str = .ok strAddresses ∧
            (jsonField pGovObj.jsonObject "payment_amounts").get_str = .ok strAmounts ∧
            (CSuperblock.ParsePaymentSchedule pc strAddresses strAmounts []).1 = some e)) :
    triggerman.AddNewTrigger pc gov nHash = (false, triggerman) := by
  obtain ⟨e, he⟩ := construct_error pc gov nHash h
  unfold CGovernanceTriggerManager.AddNewTrigger
  have hc : ¬ (mapCount triggerman.mapTrigger nHash ≠ 0) := by
    rw [Ne, not_not, mapCount_eq_zero_iff]
    exact hNew
  rw [if_neg hc, he]

/-- An instance of C13: the object under hash 7 is not a trigger. -/
theorem AddNewTrigger_construction_failure_witness :
    (∃ pGovObj, parseGov.FindGovernanceObject 7 = some pGovObj ∧
      pGovObj.nObjectType ≠ GOVERNANCE_OBJECT_TRIGGER) ∧
    exampleTriggerman.AddNewTrigger exampleParseContext parseGov 7 = (false, exampleTriggerman) :=
  ⟨⟨{ nObjectType := 1, nAbsoluteYesCountFunding := 0 }, by decide, by decide⟩,
    AddNewTrigger_construction_failure exampleParseContext parseGov exampleTriggerman 7
      ((mapCount_eq_zero_iff _ _).mp (by decide))
      (Or.inr ⟨{ nObjectType := 1, nAbsoluteYesCountFunding := 0 }, by decide,
        Or.inl (by decide)⟩)⟩

/-- C14: for a hash that is not registered, whose object resolves, is of type
trigger and carries a payload that parses, `AddNewTrigger` returns true and
the registry on exit is the registry on entry with one more entry, under the
hash: a superblock of status valid, whose block start is the
`event_block_height` of the payload and whose payments are the parsed
schedule.  The entries of the registry on entry are all kept, unchanged and
in their order. -/
theorem AddNewTrigger_success (pc : ParseContext) (gov : CGovernanceManager)
    (triggerman : CGovernanceTriggerManager) (nHash : Nat) (pGovObj : CGovernanceObject)
    (nEpochStart : Int) (strAddresses strAmounts : List Char)
    (vecPayments : List CGovernancePayment)
    (hNew : ∀ p, (nHash, p) ∉ triggerman.mapTrigger)
    (hObj : gov.FindGovernanceObject nHash = some pGovObj)
    (hType : pGovObj.nObjectType = GOVERNANCE_OBJECT_TRIGGER)
    (hHeight : (jsonField pGovObj.jsonObject "event_block_height").get_int = .ok nEpochStart)
    (hAddresses : (jsonField pGovObj.jsonObject "payment_addresses").get_str = .ok strAddresses)
    (hAmounts : (jsonField pGovObj.jsonObject "payment_amounts").get_str = .ok strAmounts)
    (hParse : CSuperblock.ParsePaymentSchedule pc strAddresses strAmounts []
      = (none, vecPayments)) :
    ∃ registry pSuperblock,
      triggerman.AddNewTrigger pc gov nHash = (true, { mapTrigger := registry }) ∧
      registry.Perm ((nHash, some pSuperblock) :: triggerman.mapTrigger) ∧
      triggerman.mapTrigger.Sublist registry ∧
      pSuperblock.nGovObjHash = nHash ∧
      pSuperblock.nStatus = SEEN_OBJECT_IS_VALID ∧
      pSuperblock.GetBlockStart = nEpochStart ∧
      pSuperblock.vecPayments = vecPayments := by
  have hc : ¬ (mapCount triggerman.mapTrigger nHash ≠ 0) := by
    rw [Ne, not_not, mapCount_eq_zero_iff]
    exact hNew
  have hcons : CSuperblock.construct pc gov nHash
      = .ok { nGovObjHash := nHash, nEpochStart := nEpochStart,
              nStatus := SEEN_OBJECT_UNKNOWN, vecPayments := vecPayments } := by
    unfold CSuperblock.construct
    rw [hObj]
    simp only [hType, ne_eq, not_true_eq_false, if_false, hHeight, hAddresses, hAmounts, hParse]
  refine ⟨mapInsert triggerman.mapTrigger nHash
      (some { nGovObjHash := nHash, nEpochStart := nEpochStart,
              nStatus := SEEN_OBJECT_IS_VALID, vecPayments := vecPayments }),
    { nGovObjHash := nHash, nEpochStart := nEpochStart,
      nStatus := SEEN_OBJECT_IS_VALID, vecPayments := vecPayments }, ?_,
    mapInsert_perm _ _ _ hNew, mapInsert_sublist _ _ _, rfl, rfl, rfl, rfl⟩
  unfold CGovernanceTriggerManager.AddNewTrigger
  rw [if_neg hc, hcons]

/-- An instance of C14: the trigger object under hash 6 schedules 1 coin to A
and 0.5 coin to B at height 30. -/
theorem AddNewTrigger_success_witness :
    CSuperblock.ParsePaymentSchedule exampleParseContext "A|B".toList "1|0.5".toList []
      = (none, addedSuperblock.vecPayments) ∧
    exampleTriggerman.AddNewTrigger exampleParseContext parseGov 6
      = (true, { mapTrigger := exampleTriggerman.mapTrigger ++ [(6, some addedSuperblock)] }) ∧
    ∃ registry pSuperblock,
      exampleTriggerman.AddNewTrigger exampleParseContext parseGov 6
        = (true, { mapTrigger := registry }) ∧
      registry.Perm ((6, some pSuperblock) :: exampleTriggerman.mapTrigger) ∧
      exampleTriggerman.mapTrigger.Sublist registry ∧
      pSuperblock.nGovObjHash = 6 ∧
      pSuperblock.nStatus = SEEN_OBJECT_IS_VALID ∧
      pSuperblock.GetBlockStart = 30 ∧
      pSuperblock.vecPayments = addedSuperblock.vecPayments :=
  ⟨by decide, by decide,
    AddNewTrigger_success exampleParseContext parseGov exampleTriggerman 6 exampleTriggerObject
      30 "A|B".toList "1|0.5".toList addedSuperblock.vecPayments
      ((mapCount_eq_zero_iff _ _).mp (by decide)) (by decide) (by decide) rfl rfl rfl
      (by decide)⟩

/-! ## The trigger registry: `CleanAndRemove` and `GetActiveTriggers` -/

theorem removeStep_fst (nExpirationBlocks nCachedBlockHeight nAdjustedTime : Int)
    (p : Option CSuperblock) (gov : CGovernanceManager) :
    (removeStep nExpirationBlocks nCachedBlockHeight nAdjustedTime p gov).1
      = shouldRemove nExpirationBlocks nCachedBlockHeight p := by
  cases p with
  | none => rfl
  | some sb =>
    simp only [removeStep, shouldRemove]
    split_ifs <;> simp_all

/-- The entries that the second loop keeps are those for which `remove` is
false, in their order. -/
theorem removeLoop_fst (nExpirationBlocks nCachedBlockHeight nAdjustedTime : Int)
    (l : List (Nat × Option CSuperblock)) (gov : CGovernanceManager) :
    (removeLoop nExpirationBlocks nCachedBlockHeight nAdjustedTime l gov).1
      = l.filter (fun e => !shouldRemove nExpirationBlocks nCachedBlockHeight e.2) := by
  induction l generalizing gov with
  | nil => rfl
  | cons e rest ih =>
    simp only [removeLoop, removeStep_fst, ih, List.filter_cons]
    cases shouldRemove nExpirationBlocks nCachedBlockHeight e.2 <;> simp

theorem markEntry_fst (gov : CGovernanceManager) (e : Nat × Option CSuperblock) :
    (markEntry gov e).1 = e.1 := by
  unfold markEntry
  cases gov.FindGovernanceObject e.1 with
  | none => rfl
  | some pObj =>
    cases h : e.2 with
    | none => simp
    | some sb =>
      simp only []
      split_ifs <;> rfl

theorem markEntry_of_unresolved (gov : CGovernanceManager) (e : Nat × Option CSuperblock)
    (h : gov.FindGovernanceObject e.1 = none) : markEntry gov e = e := by
  unfold markEntry
  rw [h]

theorem markEntry_of_trigger (gov : CGovernanceManager) (e : Nat × Option CSuperblock)
    (pObj : CGovernanceObject) (h : gov.FindGovernanceObject e.1 = some pObj)
    (ht : pObj.nObjectType = GOVERNANCE_OBJECT_TRIGGER) : markEntry gov e = e := by
  unfold markEntry
  rw [h]
  cases e.2 with
  | none => rfl
  | some sb => simp [ht]

theorem markEntry_of_other_type (gov : CGovernanceManager) (e : Nat × Option CSuperblock)
    (pObj : CGovernanceObject) (h : gov.FindGovernanceObject e.1 = some pObj)
    (ht : pObj.nObjectType ≠ GOVERNANCE_OBJECT_TRIGGER) :
    (markEntry gov e).2 = none ∨
      ∃ sb, (markEntry gov e).2 = some sb ∧ sb.nStatus = SEEN_OBJECT_ERROR_INVALID := by
  unfold markEntry
  rw [h]
  cases h2 : e.2 with
  | none => left; simp [h2]
  | some sb => right; simp [ht]

/-- The registry after `CleanAndRemove`: the marked entries for which `remove`
is false. -/
theorem mem_CleanAndRemove (nExpirationBlocks : Int) (gov : CGovernanceManager)
    (triggerman : CGovernanceTriggerManager) (nCachedBlockHeight nAdjustedTime : Int)
    (x : Nat × Option CSuperblock) :
    x ∈ (triggerman.CleanAndRemove nExpirationBlocks gov nCachedBlockHeight
        nAdjustedTime).1.mapTrigger ↔
      (∃ e ∈ triggerman.mapTrigger, markEntry gov e = x) ∧
        shouldRemove nExpirationBlocks nCachedBlockHeight x.2 = false := by
  unfold CGovernanceTriggerManager.CleanAndRemove
  simp only [removeLoop_fst, List.mem_filter, List.mem_map, Bool.not_eq_true']

theorem shouldRemove_false_iff (nExpirationBlocks nCachedBlockHeight : Int) (sb : CSuperblock) :
    shouldRemove nExpirationBlocks nCachedBlockHeight (some sb) = false ↔
      sb.nStatus ≠ SEEN_OBJECT_ERROR_INVALID ∧ sb.nStatus ≠ SEEN_OBJECT_UNKNOWN ∧
      (sb.nStatus = SEEN_OBJECT_IS_VALID ∨ sb.nStatus = SEEN_OBJECT_EXECUTED →
        ¬ nCachedBlockHeight > wrap32 (sb.GetBlockStart + nExpirationBlocks)) := by
  simp only [shouldRemove]
  split_ifs with h1 h2
  · simp only [Bool.true_eq_false, false_iff]
    rintro ⟨h3, h4, _⟩
    rcases h1 with h1 | h1
    · exact h3 h1
    · exact h4 h1
  · simp only [decide_eq_false_iff_not]
    constructor
    · intro h
      exact ⟨fun e => h1 (Or.inl e), fun e => h1 (Or.inr e), fun _ => h⟩
    · rintro ⟨_, _, h⟩
      exact h h2
  · simp only [true_iff]
    exact ⟨fun e => h1 (Or.inl e), fun e => h1 (Or.inr e), fun e => absurd e h2⟩

/-- C15: after `CleanAndRemove` every registry entry holds a superblock whose
status is neither unknown nor invalid, and no entry is left under a key whose
object resolves to another type than trigger. -/
theorem CleanAndRemove_no_unknown_or_invalid (nExpirationBlocks : Int)
    (gov : CGovernanceManager) (triggerman : CGovernanceTriggerManager)
    (nCachedBlockHeight nAdjustedTime : Int) :
    (∀ k p, (k, p) ∈ (triggerman.CleanAndRemove nExpirationBlocks gov nCachedBlockHeight
        nAdjustedTime).1.mapTrigger →
      ∃ sb, p = some sb ∧ sb.nStatus ≠ SEEN_OBJECT_UNKNOWN
        ∧ sb.nStatus ≠ SEEN_OBJECT_ERROR_INVALID) ∧
    (∀ k pObj, gov.FindGovernanceObject k = some pObj →
      pObj.nObjectType ≠ GOVERNANCE_OBJECT_TRIGGER →
      ∀ q, (k, q) ∉ (triggerman.CleanAndRemove nExpirationBlocks gov nCachedBlockHeight
        nAdjustedTime).1.mapTrigger) := by
  constructor
  · intro k p hmem
    obtain ⟨_, hkeep⟩ := (mem_CleanAndRemove _ _ _ _ _ _).mp hmem
    cases p with
    | none => simp [shouldRemove] at hkeep
    | some sb =>
      obtain ⟨h1, h2, _⟩ := (shouldRemove_false_iff _ _ _).mp hkeep
      exact ⟨sb, rfl, h2, h1⟩
  · intro k pObj hg ht q hmem
    obtain ⟨⟨e, _, he⟩, hkeep⟩ := (mem_CleanAndRemove _ _ _ _ _ _).mp hmem
    have hk : e.1 = k := by
      have := markEntry_fst gov e
      rw [he] at this
      exact this.symm
    rw [← hk] at hg
    rcases markEntry_of_other_type gov e pObj hg ht with h | ⟨sb, h, hs⟩
    · rw [he] at h
      simp only at h
      subst h
      simp [shouldRemove] at hkeep
    · rw [he] at h
      simp only at h
      subst h
      exact ((shouldRemove_false_iff _ _ _).mp hkeep).1 hs

theorem wrap32_of_IsInt32 (x : Int) (h : IsInt32 x) : wrap32 x = x := by
  unfold IsInt32 at h
  unfold wrap32
  omega

/-- C16 as stated fails: the object of the entry under hash 5 does not
resolve, the superblock of the entry has status valid and block start 20, and
at chain height 1000, with 576 expiration blocks, `CleanAndRemove` leaves no
entry under hash 5. -/
theorem CleanAndRemove_removes_unresolved_entry :
    (5, some orphanSuperblock) ∈ exampleTriggerman.mapTrigger ∧
    exampleGov.FindGovernanceObject 5 = none ∧
    orphanSuperblock.nStatus = SEEN_OBJECT_IS_VALID ∧
    mapCount (exampleTriggerman.CleanAndRemove 576 exampleGov 1000 0).1.mapTrigger 5 = 0 := by
  decide

/-- C16 amended: an entry whose backing object does not resolve is not marked
by the first loop of `CleanAndRemove`, and the removal loop treats it as any
other entry: it is still registered afterwards, with its superblock
unchanged, exactly when the status of the superblock is neither invalid nor
unknown and, for a status valid or executed, the chain height is not greater
than the expiration height that the code computes, block start plus
expiration blocks in `int`. -/
theorem CleanAndRemove_unresolved_entry (nExpirationBlocks : Int) (gov : CGovernanceManager)
    (triggerman : CGovernanceTriggerManager) (nCachedBlockHeight nAdjustedTime : Int)
    (k : Nat) (sb : CSuperblock)
    (hMem : (k, some sb) ∈ triggerman.mapTrigger)
    (hNone : gov.FindGovernanceObject k = none) :
    (k, some sb) ∈ (triggerman.CleanAndRemove nExpirationBlocks gov nCachedBlockHeight
        nAdjustedTime).1.mapTrigger ↔
      (sb.nStatus ≠ SEEN_OBJECT_ERROR_INVALID ∧ sb.nStatus ≠ SEEN_OBJECT_UNKNOWN ∧
        (sb.nStatus = SEEN_OBJECT_IS_VALID ∨ sb.nStatus = SEEN_OBJECT_EXECUTED →
          ¬ nCachedBlockHeight > wrap32 (sb.GetBlockStart + nExpirationBlocks))) := by
  rw [mem_CleanAndRemove, shouldRemove_false_iff]
  constructor
  · exact fun h => h.2
  · intro h
    exact ⟨⟨(k, some sb), hMem, markEntry_of_unresolved gov (k, some sb) hNone⟩, h⟩

/-- An instance of the amended C16: at chain height 100 the entry under hash 5
is still registered. -/
theorem CleanAndRemove_unresolved_entry_witness :
    exampleGov.FindGovernanceObject 5 = none ∧
    (5, some orphanSuperblock) ∈ (exampleTriggerman.CleanAndRemove 576 exampleGov 100
      0).1.mapTrigger :=
  ⟨by decide,
    (CleanAndRemove_unresolved_entry 576 exampleGov exampleTriggerman 100 0 5 orphanSuperblock
      (by decide) (by decide)).mpr (by decide)⟩

/-- C17: an entry of status valid or executed whose backing object is of type
trigger is removed by `CleanAndRemove` exactly when the chain height is
strictly greater than the expiration height, block start plus expiration
blocks; at a chain height equal to the expiration height it is kept.  The
expiration height is the `int` that the code computes; it is the exact sum
whenever the sum is representable in `int`. -/
theorem CleanAndRemove_expiry (nExpirationBlocks : Int) (gov : CGovernanceManager)
    (triggerman : CGovernanceTriggerManager) (nCachedBlockHeight nAdjustedTime : Int)
    (k : Nat) (sb : CSuperblock) (pObj : CGovernanceObject)
    (hMem : (k, some sb) ∈ triggerman.mapTrigger)
    (hObj : gov.FindGovernanceObject k = some pObj)
    (hType : pObj.nObjectType = GOVERNANCE_OBJECT_TRIGGER)
    (hStatus : sb.nStatus = SEEN_OBJECT_IS_VALID ∨ sb.nStatus = SEEN_OBJECT_EXECUTED) :
    ((k, some sb) ∉ (triggerman.CleanAndRemove nExpirationBlocks gov nCachedBlockHeight
        nAdjustedTime).1.mapTrigger ↔
      nCachedBlockHeight > wrap32 (sb.GetBlockStart + nExpirationBlocks)) ∧
    (IsInt32 (sb.GetBlockStart + nExpirationBlocks) →
      ((k, some sb) ∉ (triggerman.CleanAndRemove nExpirationBlocks gov nCachedBlockHeight
          nAdjustedTime).1.mapTrigger ↔
        nCachedBlockHeight > sb.GetBlockStart + nExpirationBlocks)) := by
  have hne1 : sb.nStatus ≠ SEEN_OBJECT_ERROR_INVALID := by
    rcases hStatus with h | h <;> rw [h] <;> decide
  have hne2 : sb.nStatus ≠ SEEN_OBJECT_UNKNOWN := by
    rcases hStatus with h | h <;> rw [h] <;> decide
  have key : (k, some sb) ∉ (triggerman.CleanAndRemove nExpirationBlocks gov nCachedBlockHeight
        nAdjustedTime).1.mapTrigger ↔
      nCachedBlockHeight > wrap32 (sb.GetBlockStart + nExpirationBlocks) := by
    rw [mem_CleanAndRemove, shouldRemove_false_iff]
    constructor
    · intro h
      by_contra hgt
      exact h ⟨⟨(k, some sb), hMem, markEntry_of_trigger gov (k, some sb) pObj hObj hType⟩,
        hne1, hne2, fun _ => hgt⟩
    · rintro hgt ⟨_, _, _, h⟩
      exact h hStatus hgt
  refine ⟨key, fun hInt => ?_⟩
  rw [key, wrap32_of_IsInt32 _ hInt]

/-- An instance of C17: the superblock under hash 2 has block start 20; with
576 expiration blocks it is kept at chain height 596 and removed at chain
height 597. -/
theorem CleanAndRemove_expiry_witness :
    (2, some secondSuperblock) ∈ (exampleTriggerman.CleanAndRemove 576 exampleGov 596
      0).1.mapTrigger ∧
    (2, some secondSuperblock) ∉ (exampleTriggerman.CleanAndRemove 576 exampleGov 597
      0).1.mapTrigger :=
  ⟨by decide,
    ((CleanAndRemove_expiry 576 exampleGov exampleTriggerman 597 0 2 secondSuperblock
      { nObjectType := 2, nAbsoluteYesCountFunding := 7 } (by decide) (by decide) (by decide)
      (Or.inl (by decide))).2 (by unfold IsInt32; decide)).mpr (by decide)⟩

/-- The loop of `GetActiveTriggers` appends to the vector the pointers of the
entries whose key resolves, in their order. -/
theorem activeTriggersLoop_eq (gov : CGovernanceManager) (l : List (Nat × Option CSuperblock))
    (vecResults : List (Option CSuperblock)) :
    activeTriggersLoop gov l vecResults
      = vecResults ++ (l.filter (fun e => (gov.FindGovernanceObject e.1).isSome)).map
          (fun e => e.2) := by
  induction l generalizing vecResults with
  | nil => simp [activeTriggersLoop]
  | cons e rest ih =>
    simp only [activeTriggersLoop]
    cases h : gov.FindGovernanceObject e.1 with
    | none => simp [ih, h]
    | some pObj => simp [ih, h]

/-- C18: `GetActiveTriggers` returns the pointers of the registry entries whose
key resolves in the object store, each entry once and in the iteration order
of the registry, so the result is a subsequence of the registered pointers
with one element for each resolving entry, and the registry on exit is the
registry on entry. -/
theorem GetActiveTriggers_exact (gov : CGovernanceManager)
    (triggerman : CGovernanceTriggerManager) :
    (triggerman.GetActiveTriggersRun gov).1
      = (triggerman.mapTrigger.filter (fun e => (gov.FindGovernanceObject e.1).isSome)).map
          (fun e => e.2) ∧
    (triggerman.GetActiveTriggersRun gov).1 = triggerman.GetActiveTriggers gov ∧
    ((triggerman.GetActiveTriggersRun gov).1).Sublist (triggerman.mapTrigger.map (fun e => e.2)) ∧
    ((triggerman.GetActiveTriggersRun gov).1).length
      = triggerman.mapTrigger.countP (fun e => (gov.FindGovernanceObject e.1).isSome) ∧
    (triggerman.GetActiveTriggersRun gov).2 = triggerman := by
  have h : (triggerman.GetActiveTriggersRun gov).1
      = (triggerman.mapTrigger.filter (fun e => (gov.FindGovernanceObject e.1).isSome)).map
          (fun e => e.2) := by
    simp [CGovernanceTriggerManager.GetActiveTriggersRun, activeTriggersLoop_eq]
  refine ⟨h, h, ?_, ?_, rfl⟩
  · rw [h]
    exact (List.filter_sublist _).map _
  · rw [h, List.length_map, List.countP_eq_length_filter]

/-! ## The payment schedule parser -/

/-- On tokens that are all valid the loop appends one payment for each pair
of tokens, in order. -/
theorem parsePaymentLoop_valid (pc : ParseContext) (addresses amounts : List (List Char))
    (scripts : List CScript) (values : List Int) (vecPayments : List CGovernancePayment)
    (hAddresses : List.Forall₂
      (fun tok script => pc.IsValidAddress tok = true ∧ pc.paymentScript tok = some script)
      addresses scripts)
    (hAmounts : List.Forall₂ (fun tok v => ParsePaymentAmount pc tok = .ok v) amounts values)
    (hLength : addresses.length = amounts.length) :
    parsePaymentLoop pc addresses amounts vecPayments
      = (none, vecPayments ++ List.zipWith
          (fun script v => ({ script := script, nAmount := v } : CGovernancePayment))
          scripts values) := by
  induction hAddresses generalizing amounts values vecPayments with
  | nil =>
    cases amounts with
    | nil => cases hAmounts; simp [parsePaymentLoop]
    | cons m ms => simp at hLength
  | @cons a script as ss ha _ ih =>
    cases hAmounts with
    | nil => simp at hLength
    | @cons m v ms vs hm hms =>
      simp only [parsePaymentLoop, ha.1, ha.2, hm, Bool.not_true, Bool.false_eq_true, if_false]
      rw [ih ms vs _ hms (by simpa using hLength)]
      simp

/-- The part of C19 that holds: on address and amount strings whose tokens
are valid and of the same non-zero number, `ParsePaymentSchedule` returns
normally with one payment for each pair of tokens, in input order, so
`CountPayments` is the number of tokens, and the total computed by
`GetPaymentsTotalAmount` is the sum of the parsed amounts reduced to 64
bits. -/
theorem ParsePaymentSchedule_valid (pc : ParseContext) (sb : CSuperblock)
    (strPaymentAddresses strPaymentAmounts : List Char)
    (scripts : List CScript) (values : List Int)
    (hAddresses : List.Forall₂
      (fun tok script => pc.IsValidAddress tok = true ∧ pc.paymentScript tok = some script)
      (SplitBy strPaymentAddresses "|".toList) scripts)
    (hAmounts : List.Forall₂ (fun tok v => ParsePaymentAmount pc tok = .ok v)
      (SplitBy strPaymentAmounts "|".toList) values)
    (hLength : (SplitBy strPaymentAddresses "|".toList).length
      = (SplitBy strPaymentAmounts "|".toList).length)
    (hNonzero : (SplitBy strPaymentAddresses "|".toList).length ≠ 0)
    (hParsed : sb.vecPayments
      = (CSuperblock.ParsePaymentSchedule pc strPaymentAddresses strPaymentAmounts []).2) :
    CSuperblock.ParsePaymentSchedule pc strPaymentAddresses strPaymentAmounts []
      = (none, List.zipWith
          (fun script v => ({ script := script, nAmount := v } : CGovernancePayment))
          scripts values) ∧
    sb.CountPayments = (SplitBy strPaymentAddresses "|".toList).length ∧
    sb.GetPaymentsTotalAmount = wrap64 values.sum := by
  have hp : CSuperblock.ParsePaymentSchedule pc strPaymentAddresses strPaymentAmounts []
      = (none, List.zipWith
          (fun script v => ({ script := script, nAmount := v } : CGovernancePayment))
          scripts values) := by
    unfold CSuperblock.ParsePaymentSchedule
    simp only [hLength, ne_eq, not_true_eq_false, if_false]
    rw [if_neg (by rw [← hLength]; exact hNonzero)]
    rw [parsePaymentLoop_valid pc _ _ scripts values [] hAddresses hAmounts hLength]
    simp
  rw [hp] at hParsed
  have hl1 := hAddresses.length_eq
  have hl2 := hAmounts.length_eq
  refine ⟨hp, ?_, ?_⟩
  · unfold CSuperblock.CountPayments
    rw [hParsed, List.length_zipWith]
    omega
  · rw [GetPaymentsTotalAmount_eq_wrap64]
    unfold CSuperblock.scheduledTotal
    rw [hParsed]
    congr 1
    have hlen : scripts.length = values.length := by omega
    clear hp hParsed hAddresses hAmounts hl1 hl2
    induction scripts generalizing values with
    | nil => cases values with
      | nil => rfl
      | cons v vs => simp at hlen
    | cons s ss ih =>
      cases values with
      | nil => simp at hlen
      | cons v vs =>
        simp only [List.zipWith_cons_cons, List.map_cons, List.sum_cons]
        rw [ih vs (by simpa using hlen)]

set_option maxRecDepth 100000 in
/-- C19 at eighteen valid address tokens and eighteen amount tokens of 5.2
billion coins: `ParsePaymentSchedule` produces the eighteen payments in
order and `CountPayments` is 18, the sum of the parsed amounts is
9360000000000000000, and the total computed by `GetPaymentsTotalAmount` is
-9086744073709551616. -/
theorem GetPaymentsTotalAmount_differs_from_sum :
    CSuperblock.ParsePaymentSchedule exampleParseContext manyAddresses manyAmounts []
      = (none, manySuperblock.vecPayments) ∧
    (∀ p ∈ manySuperblock.vecPayments, MoneyRange exampleParseContext p.nAmount = true) ∧
    manySuperblock.CountPayments = 18 ∧
    manySuperblock.scheduledTotal = 9360000000000000000 ∧
    manySuperblock.GetPaymentsTotalAmount = -9086744073709551616 := by
  refine ⟨by decide, ?_, by decide, by decide, by decide⟩
  intro p hp
  have hp2 : p = { script := scriptA, nAmount := 5200000000 * COIN } := by
    simpa [manySuperblock] using hp
  subst hp2
  decide

/-- C20: when the numbers of address tokens and of amount tokens differ, or
when there are no tokens at all, `ParsePaymentSchedule` throws and leaves
`vecPayments` as it was on entry, so no payment is produced; it returns
normally only when the two numbers are equal and not zero. -/
theorem ParsePaymentSchedule_mismatch_or_empty (pc : ParseContext)
    (strPaymentAddresses strPaymentAmounts : List Char) (vecPayments : List CGovernancePayment) :
    ((SplitBy strPaymentAddresses "|".toList).length
        ≠ (SplitBy strPaymentAmounts "|".toList).length →
      CSuperblock.ParsePaymentSchedule pc strPaymentAddresses strPaymentAmounts vecPayments
        = (some .mismatchedPayments, vecPayments)) ∧
    ((SplitBy strPaymentAddresses "|".toList).length = 0 →
      (SplitBy strPaymentAmounts "|".toList).length = 0 →
      CSuperblock.ParsePaymentSchedule pc strPaymentAddresses strPaymentAmounts vecPayments
        = (some .noPayments, vecPayments)) ∧
    ((CSuperblock.ParsePaymentSchedule pc strPaymentAddresses strPaymentAmounts vecPayments).1
        = none →
      (SplitBy strPaymentAddresses "|".toList).length
        = (SplitBy strPaymentAmounts "|".toList).length ∧
      (SplitBy strPaymentAddresses "|".toList).length ≠ 0) := by
  unfold CSuperblock.ParsePaymentSchedule
  refine ⟨?_, ?_, ?_⟩
  · intro h
    simp only [h, ne_eq, not_false_eq_true, if_true]
  · intro h1 h2
    simp only [h1, h2, ne_eq, not_true_eq_false, if_false, if_true]
  · intro h
    by_cases h1 : (SplitBy strPaymentAddresses "|".toList).length
        ≠ (SplitBy strPaymentAmounts "|".toList).length
    · simp only [if_pos h1] at h
      cases h
    · by_cases h2 : (SplitBy strPaymentAddresses "|".toList).length = 0
      · simp only [if_neg h1, if_pos h2] at h
        cases h
      · exact ⟨not_not.mp h1, h2⟩

/-- Instances of C20: two address tokens against one amount token, and two
strings without tokens. -/
theorem ParsePaymentSchedule_mismatch_or_empty_witness :
    CSuperblock.ParsePaymentSchedule exampleParseContext "A|B".toList "1".toList []
      = (some .mismatchedPayments, []) ∧
    CSuperblock.ParsePaymentSchedule exampleParseContext "||".toList "".toList []
      = (some .noPayments, []) :=
  ⟨(ParsePaymentSchedule_mismatch_or_empty exampleParseContext "A|B".toList "1".toList []).1
      (by decide),
    (ParsePaymentSchedule_mismatch_or_empty exampleParseContext "||".toList "".toList []).2.1
      (by decide) (by decide)⟩

/-! ## The amount parser -/

theorem findPoint_isSome_of_mem (l : List Char) (k : Nat) (h : '.' ∈ l) :
    (findPoint l k).isSome = true := by
  induction l generalizing k with
  | nil => simp at h
  | cons c cs ih =>
    simp only [findPoint]
    by_cases hc : c = '.'
    · simp [hc]
    · rw [if_neg hc]
      rcases List.mem_cons.mp h with h | h
      · exact absurd h.symm hc
      · exact ih (k + 1) h

theorem findPoint_none (l : List Char) (k : Nat) (h : findPoint l k = none) : '.' ∉ l := by
  intro hm
  have := findPoint_isSome_of_mem l k hm
  rw [h] at this
  simp at this

/-- The position found is at or after the start, and the string has one point
more than its part after the position. -/
theorem findPoint_some (l : List Char) (k p : Nat) (h : findPoint l k = some p) :
    k ≤ p ∧ l[p - k]? = some '.' ∧ l.count '.' = 1 + (l.drop (p - k + 1)).count '.' := by
  induction l generalizing k with
  | nil => simp [findPoint] at h
  | cons c cs ih =>
    simp only [findPoint] at h
    by_cases hc : c = '.'
    · rw [if_pos hc] at h
      cases h
      subst hc
      simp
      omega
    · rw [if_neg hc] at h
      obtain ⟨h1, h2, h3⟩ := ih (k + 1) h
      have e : p - k = (p - (k + 1)) + 1 := by omega
      refine ⟨by omega, ?_, ?_⟩
      · rw [e]
        simpa using h2
      · rw [e, List.drop_succ_cons, List.count_cons, h3]
        have : (c == '.') = false := by simpa using hc
        simp [this]

/-- What a successful `ParsePaymentAmount` says of its argument and of its
result. -/
theorem ParsePaymentAmount_ok (pc : ParseContext) (s : List Char) (v : Int)
    (h : ParsePaymentAmount pc s = .ok v) :
    s ≠ [] ∧ s.length ≤ 20 ∧ (∀ c ∈ s, IsDigit c ∨ c = '.') ∧ s.head? ≠ some '.' ∧
      s.count '.' ≤ 1 ∧ pc.ParseFixedPoint s 8 = some v ∧ MoneyRange pc v = true := by
  unfold ParsePaymentAmount at h
  split_ifs at h with h1 h2 h3
  have hne : s ≠ [] := by
    intro e
    exact h1 (by simp [e])
  have hchars : ∀ c ∈ s, IsDigit c ∨ c = '.' := by
    intro c hc
    have h4 : ("0123456789.".toList.contains c) = true := by
      by_contra hcon
      exact h3 (List.any_eq_true.mpr ⟨c, hc, by simpa using hcon⟩)
    have h5 : c ∈ "0123456789.".toList := by simpa using h4
    unfold IsDigit
    simp only [String.toList, List.mem_cons, List.mem_singleton, List.not_mem_nil, or_false]
      at h5 ⊢
    tauto
  have hfixed : ∀ (r : Except SuperblockError Int),
      (match pc.ParseFixedPoint s 8 with
        | none => Except.error SuperblockError.amountParseFixedPoint
        | some nAmount =>
          if (!MoneyRange pc nAmount) = true then Except.error SuperblockError.amountOutOfRange
          else Except.ok nAmount) = r → r = .ok v →
      pc.ParseFixedPoint s 8 = some v ∧ MoneyRange pc v = true := by
    intro r hr hv
    subst hv
    cases hp : pc.ParseFixedPoint s 8 with
    | none => rw [hp] at hr; cases hr
    | some a =>
      rw [hp] at hr
      simp only at hr
      split_ifs at hr with hm
      cases hr
      exact ⟨rfl, by simpa using hm⟩
  cases hf : findPoint s 0 with
  | none =>
    rw [hf] at h
    simp only at h
    have hno := findPoint_none s 0 hf
    refine ⟨hne, by omega, hchars, ?_, ?_, hfixed _ h rfl⟩
    · intro hh
      cases s with
      | nil => simp at hh
      | cons c cs =>
        simp only [List.head?_cons, Option.some.injEq] at hh
        exact hno (by simp [hh])
    · rw [List.count_eq_zero_of_not_mem hno]
      omega
  | some p =>
    rw [hf] at h
    cases p with
    | zero => simp only at h; cases h
    | succ pos =>
      simp only at h
      split_ifs at h with h5
      obtain ⟨_, hat, hcount⟩ := findPoint_some s 0 (pos + 1) hf
      have hnone : findPoint (s.drop (pos + 2)) (pos + 2) = none := by
        cases hq : findPoint (s.drop (pos + 2)) (pos + 2) with
        | none => rfl
        | some q => rw [hq] at h5; simp at h5
      have hno := findPoint_none _ _ hnone
      refine ⟨hne, by omega, hchars, ?_, ?_, hfixed _ h rfl⟩
      · intro hh
        cases s with
        | nil => simp at hh
        | cons c cs =>
          simp only [List.head?_cons, Option.some.injEq] at hh
          subst hh
          simp [findPoint] at hf
      · rw [hcount]
        simp only [Nat.sub_zero]
        rw [List.count_eq_zero_of_not_mem hno]

/-- C21: an amount string that is empty, is longer than 20 characters, holds a
character that is neither a decimal digit nor a point, starts with a point, or
holds two or more points makes `ParsePaymentAmount` throw, so no amount is
returned. -/
theorem ParsePaymentAmount_rejects (pc : ParseContext) (strAmount : List Char)
    (h : strAmount = [] ∨ 20 < strAmount.length ∨
      (∃ c ∈ strAmount, ¬ IsDigit c ∧ c ≠ '.') ∨ strAmount.head? = some '.' ∨
      2 ≤ strAmount.count '.') :
    ∃ e, ParsePaymentAmount pc strAmount = .error e := by
  cases hr : ParsePaymentAmount pc strAmount with
  | error e => exact ⟨e, rfl⟩
  | ok v =>
    obtain ⟨h1, h2, h3, h4, h5, _, _⟩ := ParsePaymentAmount_ok pc strAmount v hr
    rcases h with h | h | ⟨c, hc, hd, hp⟩ | h | h
    · exact absurd h h1
    · omega
    · rcases h3 c hc with h6 | h6
      · exact absurd h6 hd
      · exact absurd h6 hp
    · exact absurd h h4
    · omega

/-- Instances of C21: two points, a leading point, a letter and 21 characters. -/
theorem ParsePaymentAmount_rejects_witness :
    (∃ e, ParsePaymentAmount exampleParseContext "1.5.2".toList = .error e) ∧
    (∃ e, ParsePaymentAmount exampleParseContext ".5".toList = .error e) ∧
    (∃ e, ParsePaymentAmount exampleParseContext "1a".toList = .error e) ∧
    (∃ e, ParsePaymentAmount exampleParseContext "000000000000000000001".toList = .error e) :=
  ⟨ParsePaymentAmount_rejects exampleParseContext "1.5.2".toList
      (Or.inr (Or.inr (Or.inr (Or.inr (by decide))))),
    ParsePaymentAmount_rejects exampleParseContext ".5".toList
      (Or.inr (Or.inr (Or.inr (Or.inl (by decide))))),
    ParsePaymentAmount_rejects exampleParseContext "1a".toList
      (Or.inr (Or.inr (Or.inl ⟨'a', by decide, by unfold IsDigit; decide, by decide⟩))),
    ParsePaymentAmount_rejects exampleParseContext "000000000000000000001".toList
      (Or.inr (Or.inl (by decide)))⟩

theorem digitValue_some (c : Char) (d : Nat) (h : digitValue c = some d) :
    d = c.toNat - '0'.toNat := by
  unfold digitValue at h
  split_ifs at h
  cases h
  rfl

theorem parseDigits_some (ds : List Char) (acc n : Nat) (h : parseDigits ds acc = some n) :
    n = ds.foldl (fun a c => a * 10 + (c.toNat - '0'.toNat)) acc := by
  induction ds generalizing acc with
  | nil => simp only [parseDigits] at h; cases h; rfl
  | cons c cs ih =>
    simp only [parseDigits] at h
    cases hd : digitValue c with
    | none => rw [hd] at h; cases h
    | some d =>
      rw [hd] at h
      simp only at h
      rw [List.foldl_cons, ← digitValue_some c d hd]
      exact ih _ h

/-- The result of the model of `ParseFixedPoint` is the decimal value written
in the string times the power of ten of the decimals. -/
theorem ParseFixedPoint_value (val : List Char) (decimals : Nat) (v : Int)
    (h : ParseFixedPoint val decimals = some v) :
    (v : ℚ) = decimalValue val * 10 ^ decimals ∧ 0 ≤ v ∧ v < 10 ^ 18 := by
  unfold ParseFixedPoint at h
  simp only at h
  split_ifs at h with h1 h2
  cases hn : parseDigits (val.takeWhile (fun c => c ≠ '.')) 0 with
  | none => rw [hn] at h; cases h
  | some n =>
    rw [hn] at h
    simp only at h
    have hnv : n = digitsValue (val.takeWhile (fun c => c ≠ '.')) := parseDigits_some _ _ _ hn
    cases hrest : val.dropWhile (fun c => c ≠ '.') with
    | nil =>
      rw [hrest] at h
      simp only at h
      split_ifs at h with hb
      cases h
      refine ⟨?_, by positivity, by exact_mod_cast hb⟩
      unfold decimalValue
      simp only [hrest, List.drop_nil, List.length_nil, pow_zero, div_one]
      rw [← hnv]
      simp [digitsValue]
    | cons c frac =>
      rw [hrest] at h
      simp only at h
      split_ifs at h
      cases hf : parseDigits frac 0 with
      | none => rw [hf] at h; cases h
      | some f =>
        rw [hf] at h
        simp only at h
        split_ifs at h with h4 h5
        cases h
        have hfv : f = digitsValue frac := parseDigits_some _ _ _ hf
        have hdvd : 10 ^ frac.length ∣ (n * 10 ^ frac.length + f) * 10 ^ decimals :=
          Nat.dvd_of_mod_eq_zero (by simpa using h4)
        refine ⟨?_, by positivity, by exact_mod_cast h5⟩
        unfold decimalValue
        simp only [hrest, List.drop_succ_cons, List.drop_zero]
        rw [← hnv, ← hfv]
        have hne : ((10 ^ frac.length : Nat) : ℚ) ≠ 0 := by positivity
        rw [Int.cast_natCast, Nat.cast_div hdvd hne]
        push_cast
        field_simp

/-- C22: when `ParsePaymentAmount` succeeds on a string, with the model of
`ParseFixedPoint` in the place of the function of utilstrencodings.cpp, the
amount returned is the decimal value written in the string times `10 ^ 8`,
and it is in the money range: not negative and at most `MAX_MONEY`. -/
theorem ParsePaymentAmount_value (pc : ParseContext) (strAmount : List Char) (nAmount : Int)
    (hModel : pc.ParseFixedPoint = ParseFixedPoint)
    (h : ParsePaymentAmount pc strAmount = .ok nAmount) :
    (nAmount : ℚ) = decimalValue strAmount * 10 ^ 8 ∧ 0 ≤ nAmount ∧ nAmount ≤ pc.MAX_MONEY := by
  obtain ⟨_, _, _, _, _, hp, hm⟩ := ParsePaymentAmount_ok pc strAmount nAmount h
  rw [hModel] at hp
  obtain ⟨hv, _, _⟩ := ParseFixedPoint_value strAmount 8 nAmount hp
  unfold MoneyRange at hm
  simp only [Bool.and_eq_true, decide_eq_true_eq] at hm
  exact ⟨hv, hm.1, hm.2⟩

/-- An instance of C22: the string `0.5` gives 50000000 base units, half a
coin. -/
theorem ParsePaymentAmount_value_witness :
    ((50000000 : Int) : ℚ) = decimalValue "0.5".toList * 10 ^ 8 ∧ (0 : Int) ≤ 50000000 ∧
      (50000000 : Int) ≤ exampleParseContext.MAX_MONEY :=
  ParsePaymentAmount_value exampleParseContext "0.5".toList 50000000 rfl rfl

/-! ## Height rules and payments limit: the statements -/

theorem IsValidBlockHeight_true (ctx : ChainContext) (h : Int)
    (hv : CSuperblock.IsValidBlockHeight ctx h = true) :
    h ≥ ctx.consensus.nSuperblockStartBlock ∧ Int.tmod h ctx.consensus.nSuperblockCycle = 0 := by
  unfold CSuperblock.IsValidBlockHeight at hv
  simpa using hv

/-- What a true `IsDCCSuperblock` says: the feature is enabled, and the residue
of the height modulo the DC cycle is 10 above the cutover of the network and 0
otherwise. -/
theorem IsDCCSuperblock_true (ctx : ChainContext) (h : Int)
    (hd : CSuperblock.IsDCCSuperblock ctx h = true) :
    ctx.PODCEnabled h = true ∧ h ≥ ctx.consensus.nDCCSuperblockStartBlock ∧
      (((h > ctx.F13000_CUTOVER_HEIGHT_PROD ∧ ctx.fProd = true)
          ∨ (h > ctx.F13000_CUTOVER_HEIGHT_TESTNET ∧ ctx.fProd = false)) →
        Int.tmod h ctx.consensus.nDCCSuperblockCycle = 10) ∧
      (¬ ((h > ctx.F13000_CUTOVER_HEIGHT_PROD ∧ ctx.fProd = true)
          ∨ (h > ctx.F13000_CUTOVER_HEIGHT_TESTNET ∧ ctx.fProd = false)) →
        Int.tmod h ctx.consensus.nDCCSuperblockCycle = 0) := by
  unfold CSuperblock.IsDCCSuperblock at hd
  cases hp : ctx.PODCEnabled h with
  | false => simp [hp] at hd
  | true =>
    simp only [hp, Bool.not_true, Bool.false_eq_true, if_false] at hd
    split_ifs at hd with hc
    · have hc2 : (h > ctx.F13000_CUTOVER_HEIGHT_PROD ∧ ctx.fProd = true)
          ∨ (h > ctx.F13000_CUTOVER_HEIGHT_TESTNET ∧ ctx.fProd = false) := by
        simpa using hc
      have hd2 : h ≥ ctx.consensus.nDCCSuperblockStartBlock
          ∧ Int.tmod h ctx.consensus.nDCCSuperblockCycle = 10 := by simpa using hd
      exact ⟨rfl, hd2.1, fun _ => hd2.2, fun hn => absurd hc2 hn⟩
    · have hc2 : ¬ ((h > ctx.F13000_CUTOVER_HEIGHT_PROD ∧ ctx.fProd = true)
          ∨ (h > ctx.F13000_CUTOVER_HEIGHT_TESTNET ∧ ctx.fProd = false)) := by
        simpa using hc
      have hd2 : h ≥ ctx.consensus.nDCCSuperblockStartBlock
          ∧ Int.tmod h ctx.consensus.nDCCSuperblockCycle = 0 := by simpa using hd
      exact ⟨rfl, hd2.1, fun hy => absurd hy hc2, fun _ => hd2.2⟩

/-- C23 as stated fails.  On a network whose DC cycle 205 divides the regular
cycle 6150, the height 36900, at which the regular track is active and the DC
feature enabled, is below the cutover and is both a regular and a DC
superblock height.  On a network whose DC cycle 20 does not divide the regular
cycle 10, the height 30, past the cutover, is both as well. -/
theorem IsValidBlockHeight_and_IsDCCSuperblock_overlap :
    ((36900 : Int) ≥ dailyCtx.consensus.nSuperblockStartBlock ∧
      dailyCtx.PODCEnabled 36900 = true ∧
      CSuperblock.IsValidBlockHeight dailyCtx 36900 = true ∧
      CSuperblock.IsDCCSuperblock dailyCtx 36900 = true) ∧
    ((30 : Int) ≥ skewCtx.consensus.nSuperblockStartBlock ∧
      skewCtx.PODCEnabled 30 = true ∧
      CSuperblock.IsValidBlockHeight skewCtx 30 = true ∧
      CSuperblock.IsDCCSuperblock skewCtx 30 = true) := by
  decide

/-- C23 amended: above the cutover height of the network, where the DC track
tests the residue 10, and on a network whose DC superblock cycle divides the
regular superblock cycle, no height is both a regular and a DC superblock
height. -/
theorem IsValidBlockHeight_IsDCCSuperblock_exclusive (ctx : ChainContext) (h : Int)
    (hCutover : (h > ctx.F13000_CUTOVER_HEIGHT_PROD ∧ ctx.fProd = true)
      ∨ (h > ctx.F13000_CUTOVER_HEIGHT_TESTNET ∧ ctx.fProd = false))
    (hDivides : ctx.consensus.nDCCSuperblockCycle ∣ ctx.consensus.nSuperblockCycle) :
    ¬ (CSuperblock.IsValidBlockHeight ctx h = true ∧ CSuperblock.IsDCCSuperblock ctx h = true) := by
  rintro ⟨hv, hd⟩
  obtain ⟨_, hv2⟩ := IsValidBlockHeight_true ctx h hv
  obtain ⟨_, _, hd2, _⟩ := IsDCCSuperblock_true ctx h hd
  have h10 := hd2 hCutover
  have hdvd : ctx.consensus.nDCCSuperblockCycle ∣ h :=
    dvd_trans hDivides (Int.dvd_of_tmod_eq_zero hv2)
  rw [Int.tmod_eq_zero_of_dvd hdvd] at h10
  exact absurd h10 (by decide)

/-- An instance of the amended C23: height 61500 of the network with cycles
6150 and 205 is a regular superblock height and not a DC superblock height. -/
theorem IsValidBlockHeight_IsDCCSuperblock_exclusive_witness :
    CSuperblock.IsValidBlockHeight dailyCtx 61500 = true ∧
    ¬ (CSuperblock.IsValidBlockHeight dailyCtx 61500 = true
      ∧ CSuperblock.IsDCCSuperblock dailyCtx 61500 = true) :=
  ⟨by decide,
    IsValidBlockHeight_IsDCCSuperblock_exclusive dailyCtx 61500 (Or.inl ⟨by decide, rfl⟩)
      ⟨30, by decide⟩⟩

/-- C24: for every height and all network parameters `IsDCCSuperblock` and
`IsPOGSuperblock` are not both true: the first asks for the residue 0 or 10 of
the height modulo the DC cycle, the second for the residue 20 modulo the same
cycle. -/
theorem IsDCCSuperblock_IsPOGSuperblock_exclusive (ctx : ChainContext) (h : Int) :
    ¬ (CSuperblock.IsDCCSuperblock ctx h = true ∧ CSuperblock.IsPOGSuperblock ctx h = true) := by
  rintro ⟨hd, hp⟩
  obtain ⟨_, _, hd1, hd2⟩ := IsDCCSuperblock_true ctx h hd
  have h20 : Int.tmod h ctx.consensus.nDCCSuperblockCycle = 20 := by
    unfold CSuperblock.IsPOGSuperblock at hp
    split_ifs at hp
    have : h ≥ ctx.consensus.nDCCSuperblockStartBlock
        ∧ Int.tmod h ctx.consensus.nDCCSuperblockCycle = 20 := by simpa using hp
    exact this.2
  by_cases hc : (h > ctx.F13000_CUTOVER_HEIGHT_PROD ∧ ctx.fProd = true)
      ∨ (h > ctx.F13000_CUTOVER_HEIGHT_TESTNET ∧ ctx.fProd = false)
  · have := hd1 hc
    omega
  · have := hd2 hc
    omega

/-- C25: `GetPaymentsLimit` returns 0 for every height below 10 and for every
height that is neither a regular nor a DC superblock height. -/
theorem GetPaymentsLimit_zero (ctx : ChainContext) (nBlockHeight : Int)
    (h : nBlockHeight < 10 ∨
      (CSuperblock.IsValidBlockHeight ctx nBlockHeight = false
        ∧ CSuperblock.IsDCCSuperblock ctx nBlockHeight = false)) :
    CSuperblock.GetPaymentsLimit ctx nBlockHeight = 0 := by
  unfold CSuperblock.GetPaymentsLimit
  rcases h with h | ⟨h1, h2⟩
  · rw [if_pos h]
  · by_cases h0 : nBlockHeight < 10
    · rw [if_pos h0]
    · rw [if_neg h0, if_pos (by simp [h1, h2])]

/-- Instances of C25: height 0, a regular superblock height below 10, and
height 23, which is on no superblock schedule. -/
theorem GetPaymentsLimit_zero_witness :
    CSuperblock.IsValidBlockHeight exampleCtx 0 = true ∧
    CSuperblock.GetPaymentsLimit exampleCtx 0 = 0 ∧
    CSuperblock.GetPaymentsLimit exampleCtx 23 = 0 :=
  ⟨by decide, GetPaymentsLimit_zero exampleCtx 0 (Or.inl (by decide)),
    GetPaymentsLimit_zero exampleCtx 23 (Or.inr ⟨by decide, by decide⟩)⟩

theorem excessBits_of_lt (fuel n : Nat) (h : n < 2 ^ 53) : excessBits fuel n = 0 := by
  cases fuel with
  | zero => rfl
  | succ f => simp only [excessBits, if_pos h]

/-- With enough halvings the number is below `2 ^ (53 + s)` for the digits `s`
found, and not below `2 ^ (52 + s)` when `s` is not zero. -/
theorem excessBits_spec (fuel n : Nat) (h : n < 2 ^ (53 + fuel)) :
    n < 2 ^ (53 + excessBits fuel n) ∧
      (excessBits fuel n ≠ 0 → 2 ^ (52 + excessBits fuel n) ≤ n) := by
  induction fuel generalizing n with
  | zero => exact ⟨by simpa [excessBits] using h, fun h0 => absurd rfl h0⟩
  | succ f ih =>
    simp only [excessBits]
    by_cases hn : n < 2 ^ 53
    · rw [if_pos hn]
      exact ⟨by simpa using hn, fun h0 => absurd rfl h0⟩
    · rw [if_neg hn]
      have h2 : n / 2 < 2 ^ (53 + f) := by
        have e : 2 ^ (53 + (f + 1)) = 2 * 2 ^ (53 + f) := by
          rw [← Nat.add_assoc, pow_succ]; ring
        omega
      obtain ⟨i1, i2⟩ := ih (n / 2) h2
      constructor
      · have e : 2 ^ (53 + (excessBits f (n / 2) + 1))
            = 2 * 2 ^ (53 + excessBits f (n / 2)) := by
          rw [← Nat.add_assoc, pow_succ]; ring
        omega
      · intro _
        have e : 2 ^ (52 + (excessBits f (n / 2) + 1))
            = 2 * 2 ^ (52 + excessBits f (n / 2)) := by
          rw [← Nat.add_assoc, pow_succ]; ring
        by_cases h0 : excessBits f (n / 2) = 0
        · rw [h0]
          simp only [Nat.add_zero, Nat.zero_add]
          have : (2:Nat) ^ (52 + 1) = 2 ^ 53 := rfl
          omega
        · have := i2 h0
          omega

/-- A natural number up to `2 ^ 53` is held exactly. -/
theorem roundNat53_of_le (n : Nat) (h : n ≤ 2 ^ 53) : roundNat53 n = n := by
  rcases Nat.lt_or_eq_of_le h with h | h
  · simp [roundNat53, excessBits_of_lt 64 n h, Nat.mod_one]
  · subst h
    decide

/-- A natural number from `2 ^ 53` on and below `2 ^ 63 - 512` is rounded to a
number in the same range, below `2 ^ 63`. -/
theorem roundNat53_large (n : Nat) (h1 : 2 ^ 53 ≤ n) (h2 : n < 2 ^ 63 - 512) :
    2 ^ 53 ≤ roundNat53 n ∧ roundNat53 n < 2 ^ 63 := by
  obtain ⟨hs1, hs2⟩ := excessBits_spec 64 n (by
    have : (2:Nat) ^ 63 ≤ 2 ^ (53 + 64) := Nat.pow_le_pow_right (by norm_num) (by norm_num)
    omega)
  obtain ⟨s, hs⟩ : ∃ s, excessBits 64 n = s := ⟨_, rfl⟩
  rw [hs] at hs1 hs2
  have hs0 : s ≠ 0 := by
    intro h0
    rw [h0] at hs1
    simp only [Nat.add_zero] at hs1
    omega
  have hs10 : s ≤ 10 := by
    by_contra hcon
    have : (2:Nat) ^ 63 ≤ 2 ^ (52 + s) := Nat.pow_le_pow_right (by norm_num) (by omega)
    have := hs2 hs0
    omega
  have hs2' := hs2 hs0
  unfold roundNat53
  rw [hs]
  simp only []
  have hpos : 1 ≤ s := Nat.pos_of_ne_zero hs0
  interval_cases s <;> norm_num at hs1 hs2' ⊢ <;> split_ifs <;> omega

theorem roundDouble_exact (x : Int) (h1 : -(2 ^ 53) ≤ x) (h2 : x ≤ 2 ^ 53) :
    roundDouble x = x := by
  unfold roundDouble
  by_cases h0 : 0 ≤ x
  · rw [if_pos h0, roundNat53_of_le _ (by omega)]
    omega
  · rw [if_neg h0, roundNat53_of_le _ (by omega)]
    omega

theorem roundDouble_large (x : Int) (h1 : 2 ^ 53 ≤ x) (h2 : x < 2 ^ 63 - 512) :
    2 ^ 53 ≤ roundDouble x ∧ roundDouble x < 2 ^ 63 := by
  unfold roundDouble
  rw [if_pos (by omega)]
  obtain ⟨h3, h4⟩ := roundNat53_large x.toNat (by omega) (by omega)
  constructor <;> omega

/-- The passage through `double` on amounts that a `double` does not hold
exactly, which go to the nearest multiple of 4, the tie to the even
significand, and on an amount in the window of the factor 1.75, whose product
is truncated. -/
theorem mulBudgetFactor_rounds :
    mulBudgetFactor 20000000000000010 false = 20000000000000008 ∧
    mulBudgetFactor (-20000000000000010) false = -20000000000000008 ∧
    mulBudgetFactor 20000000000000014 false = 20000000000000016 ∧
    mulBudgetFactor 1001 true = 1751 := by
  refine ⟨by decide, by decide, by decide, by decide⟩

/-- C26: at a superblock height above 107000 `GetPaymentsLimit` is the
smaller of 13,500,000 coins and the value that the code computes from the
subsidy part of the height and the cycle, the regular cycle at a regular
superblock height and the DC cycle otherwise: the `int64_t` product, taken
through `double`.  It never exceeds 13,500,000 coins.  When the exact product
is not below `-(2 ^ 53)` and is below `2 ^ 63 - 512`, the limit is the smaller
of 13,500,000 coins and the exact product: a product up to `2 ^ 53` in
magnitude passes through `double` unchanged, and a greater one stays above the
ceiling. -/
theorem GetPaymentsLimit_above_107000 (ctx : ChainContext) (nBlockHeight : Int)
    (hHigh : nBlockHeight > 107000)
    (hSuper : CSuperblock.IsValidBlockHeight ctx nBlockHeight = true
      ∨ CSuperblock.IsDCCSuperblock ctx nBlockHeight = true) :
    CSuperblock.GetPaymentsLimit ctx nBlockHeight
      = min (13500000 * COIN)
          (doubleToCAmount (roundDouble
            (wrap64 (ctx.GetBlockSubsidy ctx.pindexBestHeaderPrev 486585255 nBlockHeight
              * (if CSuperblock.IsValidBlockHeight ctx nBlockHeight = true
                  then ctx.consensus.nSuperblockCycle
                  else ctx.consensus.nDCCSuperblockCycle))))) ∧
    CSuperblock.GetPaymentsLimit ctx nBlockHeight ≤ 13500000 * COIN ∧
    (-(2 ^ 53) ≤ ctx.GetBlockSubsidy ctx.pindexBestHeaderPrev 486585255 nBlockHeight
        * (if CSuperblock.IsValidBlockHeight ctx nBlockHeight = true
            then ctx.consensus.nSuperblockCycle else ctx.consensus.nDCCSuperblockCycle) →
      ctx.GetBlockSubsidy ctx.pindexBestHeaderPrev 486585255 nBlockHeight
        * (if CSuperblock.IsValidBlockHeight ctx nBlockHeight = true
            then ctx.consensus.nSuperblockCycle else ctx.consensus.nDCCSuperblockCycle)
        < 2 ^ 63 - 512 →
      CSuperblock.GetPaymentsLimit ctx nBlockHeight
        = min (13500000 * COIN)
            (ctx.GetBlockSubsidy ctx.pindexBestHeaderPrev 486585255 nBlockHeight
              * (if CSuperblock.IsValidBlockHeight ctx nBlockHeight = true
                  then ctx.consensus.nSuperblockCycle
                  else ctx.consensus.nDCCSuperblockCycle))) := by
  have h1 : ¬ nBlockHeight < 10 := by omega
  have h2 : (!CSuperblock.IsValidBlockHeight ctx nBlockHeight
      && !CSuperblock.IsDCCSuperblock ctx nBlockHeight) = false := by
    rcases hSuper with h | h <;> simp [h]
  have h3 : (decide (nBlockHeight > 106150) && decide (nBlockHeight < 107001)
      && CSuperblock.IsDCCSuperblock ctx nBlockHeight) = false := by
    have : ¬ nBlockHeight < 107001 := by omega
    simp [this]
  have key : CSuperblock.GetPaymentsLimit ctx nBlockHeight
      = min (13500000 * COIN)
          (doubleToCAmount (roundDouble
            (wrap64 (ctx.GetBlockSubsidy ctx.pindexBestHeaderPrev 486585255 nBlockHeight
              * (if CSuperblock.IsValidBlockHeight ctx nBlockHeight = true
                  then ctx.consensus.nSuperblockCycle
                  else ctx.consensus.nDCCSuperblockCycle))))) := by
    unfold CSuperblock.GetPaymentsLimit
    simp only [h1, h2, h3, if_false, Bool.false_eq_true, mulBudgetFactor, hHigh, decide_True,
      Bool.true_and, decide_eq_true_eq]
    split_ifs with h4 h5 h5
    · rw [min_eq_left (le_of_lt h5)]
    · rw [min_eq_right (not_lt.mp h5)]
    · rw [min_eq_left (le_of_lt h5)]
    · rw [min_eq_right (not_lt.mp h5)]
  refine ⟨key, ?_, ?_⟩
  · rw [key]
    exact min_le_left _ _
  · intro hLow hUpp
    rw [key, wrap64_of_IsInt64 _ ⟨by omega, by omega⟩]
    by_cases hc : ctx.GetBlockSubsidy ctx.pindexBestHeaderPrev 486585255 nBlockHeight
        * (if CSuperblock.IsValidBlockHeight ctx nBlockHeight = true
            then ctx.consensus.nSuperblockCycle else ctx.consensus.nDCCSuperblockCycle)
        ≤ 2 ^ 53
    · rw [roundDouble_exact _ hLow hc]
      unfold doubleToCAmount
      rw [if_pos ⟨by omega, by omega⟩]
    · obtain ⟨h6, h7⟩ := roundDouble_large _ (by omega) hUpp
      unfold doubleToCAmount
      rw [if_pos ⟨by omega, h7⟩]
      unfold COIN
      rw [min_eq_left (by omega), min_eq_left (by omega)]

/-- Instances of C26 at the regular superblock height 107010: a product of
1000 base units below the ceiling, and a product of `10 ^ 16` base units,
which a `double` does not hold exactly, cut to the ceiling. -/
theorem GetPaymentsLimit_above_107000_witness :
    CSuperblock.GetPaymentsLimit exampleCtx 107010 = 1000 ∧
    CSuperblock.GetPaymentsLimit richCtx 107010 = 13500000 * COIN ∧
    CSuperblock.GetPaymentsLimit richCtx 107010 ≤ 13500000 * COIN :=
  ⟨((GetPaymentsLimit_above_107000 exampleCtx 107010 (by decide) (Or.inl (by decide))).2.2
      (by decide) (by decide)).trans (by decide),
    ((GetPaymentsLimit_above_107000 richCtx 107010 (by decide) (Or.inl (by decide))).2.2
      (by decide) (by decide)).trans (by decide),
    (GetPaymentsLimit_above_107000 richCtx 107010 (by decide) (Or.inl (by decide))).2.1⟩

/-! ## Triggering of a superblock: the statements -/

/-- C28: at a DC superblock height `IsSuperblockTriggered` returns what
`IsDistributedComputingSuperblockTriggered` returns, whatever the registry and
the object store hold, and leaves the object store as it was; when the pending
votes are below the required quorum the result is false. -/
theorem IsSuperblockTriggered_at_DC_height (ctx : ChainContext) (qc : QuorumContext)
    (gov : CGovernanceManager) (triggerman : CGovernanceTriggerManager) (nBlockHeight : Int)
    (hDC : CSuperblock.IsDCCSuperblock ctx nBlockHeight = true) :
    CSuperblockManager.IsSuperblockTriggered ctx qc gov triggerman nBlockHeight
      = (CSuperblockManager.IsDistributedComputingSuperblockTriggered ctx qc nBlockHeight, gov) ∧
    ((qc.GetDistributedComputingGovObjByHeight nBlockHeight).1
        < qc.GetRequiredQuorumLevel nBlockHeight →
      (CSuperblockManager.IsSuperblockTriggered ctx qc gov triggerman nBlockHeight).1 = false) := by
  obtain ⟨hp, _⟩ := IsDCCSuperblock_true ctx nBlockHeight hDC
  have key : CSuperblockManager.IsSuperblockTriggered ctx qc gov triggerman nBlockHeight
      = (CSuperblockManager.IsDistributedComputingSuperblockTriggered ctx qc nBlockHeight,
          gov) := by
    unfold CSuperblockManager.IsSuperblockTriggered
    simp [hDC, hp]
  refine ⟨key, fun hlt => ?_⟩
  rw [key]
  unfold CSuperblockManager.IsDistributedComputingSuperblockTriggered
  have hnot : ¬ ((qc.GetDistributedComputingGovObjByHeight nBlockHeight).1
      ≥ qc.GetRequiredQuorumLevel nBlockHeight) := by omega
  simp [hp, hDC, hnot]

/-- An instance of C28: height 70 is a regular and a DC superblock height, a
trigger for height 70 is registered whose funding flag is set by the refresh,
the DC contract has no pending vote against a quorum of 1, and the height is
not triggered. -/
theorem IsSuperblockTriggered_at_DC_height_witness :
    CSuperblock.IsValidBlockHeight exampleCtx 70 = true ∧
    (seventySuperblock.GetGovernanceObject exampleGov).map
      (fun o => (exampleQuorum.UpdateSentinelVariables o).fCachedFunding) = some true ∧
    (CSuperblockManager.IsSuperblockTriggered exampleCtx exampleQuorum exampleGov
      seventyTriggerman 70).1 = false :=
  ⟨by decide, by decide,
    (IsSuperblockTriggered_at_DC_height exampleCtx exampleQuorum exampleGov seventyTriggerman 70
      (by decide)).2 (by decide)⟩

theorem lookup_updateObject_ne (f : CGovernanceObject → CGovernanceObject) (a b : Nat)
    (m : List (Nat × CGovernanceObject)) (h : b ≠ a) :
    (updateObject f a m).lookup b = m.lookup b := by
  induction m with
  | nil => rfl
  | cons e rest ih =>
    obtain ⟨k, o⟩ := e
    simp only [updateObject]
    by_cases hk : k = a
    · subst hk
      have hb : (b == k) = false := by simpa using h
      simp [List.lookup_cons, hb]
    · have hk2 : (k == a) = false := by simpa using hk
      simp only [hk2, Bool.false_eq_true, if_false, List.lookup_cons, ih]

theorem DistinctHashes_cons_none (rest : List (Option CSuperblock))
    (h : DistinctHashes (none :: rest)) : DistinctHashes rest := by
  simpa [DistinctHashes] using h

theorem DistinctHashes_cons_some (sb : CSuperblock) (rest : List (Option CSuperblock))
    (h : DistinctHashes (some sb :: rest)) :
    DistinctHashes rest ∧ ∀ sb', some sb' ∈ rest → sb'.nGovObjHash ≠ sb.nGovObjHash := by
  unfold DistinctHashes at h ⊢
  simp only [List.filterMap_cons, id_eq, List.map_cons, List.nodup_cons] at h
  refine ⟨h.2, fun sb' hm he => h.1 ?_⟩
  rw [← he]
  exact List.mem_map.mpr ⟨sb', List.mem_filterMap.mpr ⟨some sb', hm, rfl⟩, rfl⟩

/-- The scan returns true exactly when a scanned superblock of the height
resolves to an object whose funding flag is set by the refresh. -/
theorem triggeredLoop_true_iff (qc : QuorumContext) (nBlockHeight : Int)
    (l : List (Option CSuperblock)) (gov : CGovernanceManager) (hd : DistinctHashes l) :
    (triggeredLoop qc nBlockHeight l gov).1 = true ↔
      ∃ sb pObj, some sb ∈ l ∧ sb.GetGovernanceObject gov = some pObj ∧
        sb.GetBlockStart = nBlockHeight ∧
        (qc.UpdateSentinelVariables pObj).fCachedFunding = true := by
  induction l generalizing gov with
  | nil => simp [triggeredLoop]
  | cons p rest ih =>
    cases p with
    | none =>
      simp only [triggeredLoop]
      rw [ih gov (DistinctHashes_cons_none rest hd)]
      simp
    | some sb =>
      obtain ⟨hd1, hd2⟩ := DistinctHashes_cons_some sb rest hd
      simp only [triggeredLoop]
      cases hg : sb.GetGovernanceObject gov with
      | none =>
        simp only []
        rw [ih gov hd1]
        constructor
        · rintro ⟨sb', o, hm, h1, h2, h3⟩
          exact ⟨sb', o, List.mem_cons_of_mem _ hm, h1, h2, h3⟩
        · rintro ⟨sb', o, hm, h1, h2, h3⟩
          rcases List.mem_cons.mp hm with he | hm
          · cases he
            rw [hg] at h1
            cases h1
          · exact ⟨sb', o, hm, h1, h2, h3⟩
      | some pObj =>
        simp only []
        by_cases hh : nBlockHeight ≠ sb.GetBlockStart
        · rw [if_pos hh, ih gov hd1]
          constructor
          · rintro ⟨sb', o, hm, h1, h2, h3⟩
            exact ⟨sb', o, List.mem_cons_of_mem _ hm, h1, h2, h3⟩
          · rintro ⟨sb', o, hm, h1, h2, h3⟩
            rcases List.mem_cons.mp hm with he | hm
            · cases he
              exact absurd h2.symm hh
            · exact ⟨sb', o, hm, h1, h2, h3⟩
        · rw [if_neg hh]
          by_cases hf : (qc.UpdateSentinelVariables pObj).fCachedFunding = true
          · rw [if_pos hf]
            simp only [true_iff]
            exact ⟨sb, pObj, List.mem_cons_self _ _, hg, (not_not.mp hh).symm, hf⟩
          · rw [if_neg hf, ih _ hd1]
            have hsame : ∀ sb', some sb' ∈ rest →
                sb'.GetGovernanceObject
                    { mapObjects := updateObject qc.UpdateSentinelVariables sb.nGovObjHash
                        gov.mapObjects }
                  = sb'.GetGovernanceObject gov := by
              intro sb' hm
              unfold CSuperblock.GetGovernanceObject CGovernanceManager.FindGovernanceObject
              exact lookup_updateObject_ne _ _ _ _ (hd2 sb' hm)
            constructor
            · rintro ⟨sb', o, hm, h1, h2, h3⟩
              rw [hsame sb' hm] at h1
              exact ⟨sb', o, List.mem_cons_of_mem _ hm, h1, h2, h3⟩
            · rintro ⟨sb', o, hm, h1, h2, h3⟩
              rcases List.mem_cons.mp hm with he | hm
              · cases he
                rw [hg] at h1
                cases h1
                exact absurd h3 hf
              · exact ⟨sb', o, hm, by rw [hsame sb' hm]; exact h1, h2, h3⟩

/-- C29: at a height that is not a DC superblock height `IsSuperblockTriggered`
returns true exactly when the height is a regular superblock height and some
active trigger whose block start is the height resolves to an object whose
funding flag is set once `UpdateSentinelVariables` has refreshed it; a trigger
of another block start does not count.  The superblocks of the active
triggers have distinct source object hashes. -/
theorem IsSuperblockTriggered_regular_iff (ctx : ChainContext) (qc : QuorumContext)
    (gov : CGovernanceManager) (triggerman : CGovernanceTriggerManager) (nBlockHeight : Int)
    (hNotDC : CSuperblock.IsDCCSuperblock ctx nBlockHeight = false)
    (hDistinct : DistinctHashes (triggerman.GetActiveTriggers gov)) :
    (CSuperblockManager.IsSuperblockTriggered ctx qc gov triggerman nBlockHeight).1 = true ↔
      (CSuperblock.IsValidBlockHeight ctx nBlockHeight = true ∧
        ∃ sb pObj, some sb ∈ triggerman.GetActiveTriggers gov ∧
          sb.GetGovernanceObject gov = some pObj ∧ sb.GetBlockStart = nBlockHeight ∧
          (qc.UpdateSentinelVariables pObj).fCachedFunding = true) := by
  unfold CSuperblockManager.IsSuperblockTriggered
  simp only [hNotDC, Bool.false_and, Bool.false_eq_true, if_false]
  cases hv : CSuperblock.IsValidBlockHeight ctx nBlockHeight with
  | false => simp
  | true =>
    simp only [Bool.not_true, Bool.false_eq_true, if_false, true_and]
    exact triggeredLoop_true_iff qc nBlockHeight _ gov hDistinct

/-- An instance of C29 in the example registry, whose triggers for height 20
have 5, 7 and 7 yes-votes and whose trigger for height 30 has 9, the funding
flag being set from 6 yes-votes on: height 20 is not a DC superblock height,
the active triggers have distinct hashes, and height 20 is triggered by the
trigger of 7 yes-votes. -/
theorem IsSuperblockTriggered_regular_iff_witness :
    CSuperblock.IsDCCSuperblock exampleCtx 20 = false ∧
    DistinctHashes (exampleTriggerman.GetActiveTriggers exampleGov) ∧
    (CSuperblockManager.IsSuperblockTriggered exampleCtx exampleQuorum exampleGov
      exampleTriggerman 20).1 = true :=
  ⟨by decide, by unfold DistinctHashes; decide,
    (IsSuperblockTriggered_regular_iff exampleCtx exampleQuorum exampleGov exampleTriggerman 20
      (by decide) (by unfold DistinctHashes; decide)).mpr
      ⟨by decide, secondSuperblock, { nObjectType := 2, nAbsoluteYesCountFunding := 7 },
        by decide, by decide, by decide, by decide⟩⟩

/-! ## Creation of the superblock payments: the statements -/

/-- When `GetBestSuperblock` finds no superblock, `CreateSuperblock` returns
at once: the transaction and the output vector are those of the call. -/
theorem CreateSuperblock_of_no_superblock (ctx : ChainContext) (gov : CGovernanceManager)
    (triggerman : CGovernanceTriggerManager) (txNewRet : CTransaction) (nBlockHeight : Int)
    (voutSuperblockRet : List CTxOut)
    (h : (CSuperblockManager.GetBestSuperblock ctx gov triggerman none nBlockHeight).1 = false) :
    CSuperblockManager.CreateSuperblock ctx gov triggerman txNewRet nBlockHeight
      voutSuperblockRet = (txNewRet, voutSuperblockRet) := by
  unfold CSuperblockManager.CreateSuperblock
  cases hb : CSuperblockManager.GetBestSuperblock ctx gov triggerman none nBlockHeight with
  | mk b o =>
    rw [hb] at h
    cases h
    rfl

/-- C30: at height 23 of the example chain `GetBestSuperblock` finds no
superblock, and `CreateSuperblock` called with an output vector that holds one
output returns with that output still in the vector: the vector is not empty
on return. -/
theorem CreateSuperblock_keeps_outputs_without_superblock :
    (CSuperblockManager.GetBestSuperblock exampleCtx exampleGov exampleTriggerman none 23).1
      = false ∧
    (CSuperblockManager.CreateSuperblock exampleCtx exampleGov exampleTriggerman
      { vout := [] } 23 [strayOutput]).2 = [strayOutput] ∧
    (CSuperblockManager.CreateSuperblock exampleCtx exampleGov exampleTriggerman
      { vout := [] } 23 [strayOutput]).2 ≠ [] := by
  refine ⟨by decide, by decide, by decide⟩

/-! ## Creation of the superblock payments: the outputs -/

theorem createLoop_eq (gov : CGovernanceManager) (sb : CSuperblock) (n i : Nat)
    (bQTPhaseEmitted : Bool) (vout voutSuperblockRet : List CTxOut)
    (h : i + n = sb.vecPayments.length) :
    createLoop gov sb n i bQTPhaseEmitted vout voutSuperblockRet
      = (vout ++ superblockOutputs (GetQTPhaseXML gov sb) bQTPhaseEmitted (sb.vecPayments.drop i),
          voutSuperblockRet
            ++ superblockOutputs (GetQTPhaseXML gov sb) bQTPhaseEmitted (sb.vecPayments.drop i)) := by
  induction n generalizing i bQTPhaseEmitted vout voutSuperblockRet with
  | zero =>
    have hi : sb.vecPayments.length ≤ i := by omega
    simp [createLoop, List.drop_eq_nil_of_le hi, superblockOutputs]
  | succ n ih =>
    have hi : i < sb.vecPayments.length := by omega
    simp only [createLoop]
    rw [GetPayment_of_lt sb i hi]
    simp only []
    rw [ih (i + 1) true _ _ (by omega), List.drop_eq_getElem_cons hi]
    simp [superblockOutputs, List.append_assoc]

theorem superblockOutputs_keys (sMessage : String) (b : Bool) (ps : List CGovernancePayment) :
    (superblockOutputs sMessage b ps).map outputKey = ps.map paymentKey := by
  induction ps generalizing b with
  | nil => rfl
  | cons p rest ih =>
    simp only [superblockOutputs, List.map_cons, ih]
    cases b <;> rfl

theorem superblockOutputs_emitted (sMessage : String) (ps : List CGovernancePayment) :
    ∀ o ∈ superblockOutputs sMessage true ps, o.sTxOutMessage = "" := by
  induction ps with
  | nil => simp [superblockOutputs]
  | cons p rest ih =>
    intro o ho
    simp only [superblockOutputs, List.mem_cons] at ho
    rcases ho with ho | ho
    · subst ho
      rfl
    · exact ih o ho

theorem CreateSuperblock_of_best (ctx : ChainContext) (gov : CGovernanceManager)
    (triggerman : CGovernanceTriggerManager) (txNewRet : CTransaction) (nBlockHeight : Int)
    (voutSuperblockRet : List CTxOut) (pSuperblock : CSuperblock)
    (hBest : CSuperblockManager.GetBestSuperblock ctx gov triggerman none nBlockHeight
      = (true, some pSuperblock)) :
    CSuperblockManager.CreateSuperblock ctx gov triggerman txNewRet nBlockHeight voutSuperblockRet
      = ({ vout := txNewRet.vout
            ++ superblockOutputs (GetQTPhaseXML gov pSuperblock) false pSuperblock.vecPayments },
          superblockOutputs (GetQTPhaseXML gov pSuperblock) false pSuperblock.vecPayments) := by
  unfold CSuperblockManager.CreateSuperblock
  rw [hBest]
  simp only []
  rw [createLoop_eq gov pSuperblock _ 0 false _ _ (by simp [CSuperblock.CountPayments])]
  simp

/-- C31: when `GetBestSuperblock` finds the superblock S for the height,
`CreateSuperblock` returns in `voutSuperblockRet` exactly `CountPayments(S)`
outputs, whatever the vector held on entry, the outputs carry the scripts and
the amounts of the scheduled payments in scheduled order, and the outputs of
the transaction on exit are its outputs on entry followed by these outputs. -/
theorem CreateSuperblock_outputs (ctx : ChainContext) (gov : CGovernanceManager)
    (triggerman : CGovernanceTriggerManager) (txNewRet : CTransaction) (nBlockHeight : Int)
    (voutSuperblockRet : List CTxOut) (pSuperblock : CSuperblock)
    (hBest : CSuperblockManager.GetBestSuperblock ctx gov triggerman none nBlockHeight
      = (true, some pSuperblock)) :
    (((CSuperblockManager.CreateSuperblock ctx gov triggerman txNewRet nBlockHeight
        voutSuperblockRet).2.length : Int) = pSuperblock.CountPayments) ∧
    (CSuperblockManager.CreateSuperblock ctx gov triggerman txNewRet nBlockHeight
        voutSuperblockRet).2.map outputKey = pSuperblock.vecPayments.map paymentKey ∧
    (∀ i payment, pSuperblock.GetPayment i = some payment →
      ((CSuperblockManager.CreateSuperblock ctx gov triggerman txNewRet nBlockHeight
        voutSuperblockRet).2[i.toNat]?).map outputKey = some (paymentKey payment)) ∧
    (CSuperblockManager.CreateSuperblock ctx gov triggerman txNewRet nBlockHeight
        voutSuperblockRet).1.vout
      = txNewRet.vout ++ (CSuperblockManager.CreateSuperblock ctx gov triggerman txNewRet
          nBlockHeight voutSuperblockRet).2 := by
  rw [CreateSuperblock_of_best ctx gov triggerman txNewRet nBlockHeight voutSuperblockRet
    pSuperblock hBest]
  have hk := superblockOutputs_keys (GetQTPhaseXML gov pSuperblock) false pSuperblock.vecPayments
  have hl := congrArg List.length hk
  simp only [List.length_map] at hl
  refine ⟨by simp [CSuperblock.CountPayments, hl], hk, ?_, rfl⟩
  intro i payment hp
  unfold CSuperblock.GetPayment at hp
  split_ifs at hp
  have := congrArg (fun l => l[i.toNat]?) hk
  simp only [List.getElem?_map] at this
  simp only []
  rw [this, hp]
  rfl

/-- An instance of C31: at height 20 of the example chain the best superblock
schedules `[(A,100),(B,50)]`; called with a miner transaction and a vector
holding a stray output, `CreateSuperblock` returns the two outputs and the
transaction `[(miner,850),(A,100),(B,50)]`. -/
theorem CreateSuperblock_outputs_witness :
    CSuperblockManager.GetBestSuperblock exampleCtx exampleGov exampleTriggerman none 20
      = (true, some secondSuperblock) ∧
    (CSuperblockManager.CreateSuperblock exampleCtx exampleGov exampleTriggerman
        minerTransaction 20 [strayOutput]).2.map outputKey = [(scriptA, 100), (scriptB, 50)] ∧
    (CSuperblockManager.CreateSuperblock exampleCtx exampleGov exampleTriggerman
        minerTransaction 20 [strayOutput]).1.vout.map outputKey
      = [(scriptMiner, 850), (scriptA, 100), (scriptB, 50)] :=
  ⟨by decide,
    (CreateSuperblock_outputs exampleCtx exampleGov exampleTriggerman minerTransaction 20
      [strayOutput] secondSuperblock (by decide)).2.1,
    by decide⟩

/-- The superblock that `GetBestSuperblock` returns with the result true is
not null and its backing object resolves, and the height is a regular or a DC
superblock height. -/
theorem GetBestSuperblock_some (ctx : ChainContext) (gov : CGovernanceManager)
    (triggerman : CGovernanceTriggerManager) (p0 r : Option CSuperblock) (nBlockHeight : Int)
    (h : CSuperblockManager.GetBestSuperblock ctx gov triggerman p0 nBlockHeight = (true, r)) :
    (CSuperblock.IsValidBlockHeight ctx nBlockHeight = true
      ∨ CSuperblock.IsDCCSuperblock ctx nBlockHeight = true) ∧
    ∃ sb pObj, r = some sb ∧ sb.GetGovernanceObject gov = some pObj := by
  constructor
  · unfold CSuperblockManager.GetBestSuperblock at h
    split_ifs at h with hh
    · cases h
    · cases hv : CSuperblock.IsValidBlockHeight ctx nBlockHeight with
      | true => exact Or.inl rfl
      | false =>
        cases hd : CSuperblock.IsDCCSuperblock ctx nBlockHeight with
        | true => exact Or.inr rfl
        | false => simp [hv, hd] at hh
  · obtain ⟨_, _, c, _, hc, _⟩ := GetBestSuperblock_true ctx gov triggerman p0 r nBlockHeight h
    obtain ⟨sb, pObj, hsb, hObj, _⟩ := candidateYesCount_some gov nBlockHeight r c hc
    exact ⟨sb, pObj, hsb, hObj⟩

theorem GetQTPhaseXML_ne_empty (gov : CGovernanceManager) (pSuperblock : CSuperblock) :
    GetQTPhaseXML gov pSuperblock ≠ "" := by
  unfold GetQTPhaseXML
  cases pSuperblock.GetGovernanceObject gov with
  | none => decide
  | some pObj =>
    simp only []
    split_ifs
    · intro h
      have h2 := congrArg String.data h
      simp at h2
    · decide

/-- C32: when `GetBestSuperblock` finds for the height a superblock S that has
at least one payment, the first output that `CreateSuperblock` emits carries
the string of `GetQTPhaseXML` for S, which is not empty, and every later
output carries the empty message.  The backing object of S resolves, and when
its payload is not empty the string is built from the payload fields `price`,
`qtphase` and `sig`. -/
theorem CreateSuperblock_message_on_first_output (ctx : ChainContext) (gov : CGovernanceManager)
    (triggerman : CGovernanceTriggerManager) (txNewRet : CTransaction) (nBlockHeight : Int)
    (voutSuperblockRet : List CTxOut) (pSuperblock : CSuperblock)
    (hBest : CSuperblockManager.GetBestSuperblock ctx gov triggerman none nBlockHeight
      = (true, some pSuperblock))
    (hPayments : 0 < pSuperblock.CountPayments) :
    ((CSuperblockManager.CreateSuperblock ctx gov triggerman txNewRet nBlockHeight
        voutSuperblockRet).2.head?).map (fun o => o.sTxOutMessage)
      = some (GetQTPhaseXML gov pSuperblock) ∧
    GetQTPhaseXML gov pSuperblock ≠ "" ∧
    (∀ o ∈ (CSuperblockManager.CreateSuperblock ctx gov triggerman txNewRet nBlockHeight
        voutSuperblockRet).2.tail, o.sTxOutMessage = "") ∧
    (∃ pObj, pSuperblock.GetGovernanceObject gov = some pObj ∧
      (pObj.jsonObject.length > 0 →
        GetQTPhaseXML gov pSuperblock
          = String.mk ("<price>".toList ++ (jsonField pObj.jsonObject "price").getValStr
              ++ "</price><qtphase>".toList ++ (jsonField pObj.jsonObject "qtphase").getValStr
              ++ "</qtphase>".toList ++ (jsonField pObj.jsonObject "sig").getValStr))) := by
  rw [CreateSuperblock_of_best ctx gov triggerman txNewRet nBlockHeight voutSuperblockRet
    pSuperblock hBest]
  obtain ⟨_, sb, pObj, hsb, hObj⟩ :=
    GetBestSuperblock_some ctx gov triggerman none (some pSuperblock) nBlockHeight hBest
  cases hsb
  refine ⟨?_, GetQTPhaseXML_ne_empty gov pSuperblock, ?_, pObj, hObj, ?_⟩
  · cases hv : pSuperblock.vecPayments with
    | nil => simp [CSuperblock.CountPayments, hv] at hPayments
    | cons p rest => simp [superblockOutputs]
  · cases hv : pSuperblock.vecPayments with
    | nil => simp [superblockOutputs]
    | cons p rest =>
      simp only [superblockOutputs, List.tail_cons]
      exact superblockOutputs_emitted _ rest
  · intro hlen
    unfold GetQTPhaseXML
    rw [hObj]
    simp only [if_pos hlen]

/-- An instance of C32: the best superblock of height 20 in the registry of the
examples schedules two payments and its object carries the price `0.01`, the
phase 3 and the signature `S`; the outputs emitted carry the messages
`<price>0.01</price><qtphase>3</qtphase>S` and the empty message. -/
theorem CreateSuperblock_message_on_first_output_witness :
    CSuperblockManager.GetBestSuperblock exampleCtx pricedGov exampleTriggerman none 20
      = (true, some secondSuperblock) ∧
    (CSuperblockManager.CreateSuperblock exampleCtx pricedGov exampleTriggerman
        minerTransaction 20 []).2.map (fun o => o.sTxOutMessage)
      = ["<price>0.01</price><qtphase>3</qtphase>S", ""] ∧
    ((CSuperblockManager.CreateSuperblock exampleCtx pricedGov exampleTriggerman
        minerTransaction 20 []).2.head?).map (fun o => o.sTxOutMessage)
      = some (GetQTPhaseXML pricedGov secondSuperblock) :=
  ⟨by decide, by decide,
    (CreateSuperblock_message_on_first_output exampleCtx pricedGov exampleTriggerman
      minerTransaction 20 [] secondSuperblock (by decide) (by decide)).1⟩

/-! ## Faults of the validation predicates -/

theorem GetPaymentRun_eq (sb : CSuperblock) (nPaymentIndex : Int) :
    sb.GetPaymentRun nPaymentIndex = some (sb.GetPayment nPaymentIndex) := by
  unfold CSuperblock.GetPaymentRun CSuperblock.GetPayment
  split_ifs with h
  · rfl
  · cases hg : sb.vecPayments[nPaymentIndex.toNat]? with
    | none =>
      have := List.getElem?_eq_none_iff.mp hg
      omega
    | some payment => rfl

/-- The scan up to `nOutputs` reads no output out of range. -/
theorem scanOutputsRun_eq (payment : CGovernancePayment) (vout : List CTxOut) (n j : Nat)
    (h : j + n = vout.length) :
    scanOutputsRun payment vout n j = some (scanOutputs payment (vout.drop j) j) := by
  induction n generalizing j with
  | zero =>
    have hj : vout.length ≤ j := by omega
    simp [scanOutputsRun, List.drop_eq_nil_of_le hj, scanOutputs]
  | succ n ih =>
    have hj : j < vout.length := by omega
    simp only [scanOutputsRun, List.getElem?_eq_getElem hj, List.drop_eq_getElem_cons hj,
      scanOutputs]
    split_ifs
    · rfl
    · exact ih (j + 1) (by omega)

/-- The matching loop reads no payment and no output out of range. -/
theorem paymentLoopRun_eq (sb : CSuperblock) (vout : List CTxOut) (n i nVoutIndex : Nat)
    (h : nVoutIndex ≤ vout.length) :
    paymentLoopRun sb vout vout.length n i nVoutIndex
      = some (paymentLoop sb vout n i nVoutIndex) := by
  induction n generalizing i nVoutIndex with
  | zero => rfl
  | succ n ih =>
    simp only [paymentLoopRun, paymentLoop, GetPaymentRun_eq]
    cases sb.GetPayment (i : Int) with
    | none => exact ih (i + 1) nVoutIndex h
    | some payment =>
      simp only []
      rw [scanOutputsRun_eq payment vout _ nVoutIndex (by omega)]
      cases hs : scanOutputs payment (vout.drop nVoutIndex) nVoutIndex with
      | none => rfl
      | some k =>
        simp only []
        obtain ⟨hle, txout, hget, _⟩ := scanOutputs_some payment _ nVoutIndex k hs
        have hk : k - nVoutIndex < (vout.drop nVoutIndex).length := by
          by_contra hcon
          rw [List.getElem?_eq_none_iff.mpr (not_lt.mp hcon)] at hget
          cases hget
        rw [List.length_drop] at hk
        exact ih (i + 1) k (by omega)

/-- Called on a superblock whose backing object resolves when the height is a
regular superblock height, `CSuperblock::IsValidSuperblock` dereferences no
null pointer, reads no element out of range and returns its verdict. -/
theorem IsValidSuperblockRun_eq (ctx : ChainContext) (gov : CGovernanceManager)
    (sb : CSuperblock) (txNew : CTransaction) (nBlockHeight blockReward nBlockTime : Int)
    (hObj : CSuperblock.IsValidBlockHeight ctx nBlockHeight = true →
      (sb.GetGovernanceObject gov).isSome = true) :
    sb.IsValidSuperblockRun ctx gov txNew nBlockHeight blockReward nBlockTime
      = some (sb.IsValidSuperblock ctx txNew nBlockHeight blockReward nBlockTime) := by
  unfold CSuperblock.IsValidSuperblockRun CSuperblock.IsValidSuperblock
  have hderef : (CSuperblock.IsValidBlockHeight ctx nBlockHeight
      && (sb.GetGovernanceObject gov).isNone) = false := by
    cases hv : CSuperblock.IsValidBlockHeight ctx nBlockHeight with
    | false => rfl
    | true =>
      have := hObj hv
      cases hg : sb.GetGovernanceObject gov with
      | none => simp [hg] at this
      | some o => rfl
  simp only [hderef, Bool.false_eq_true, if_false, Int.toNat_ofNat]
  split_ifs
  · rfl
  · rfl
  · rfl
  · rfl
  · exact paymentLoopRun_eq sb txNew.vout _ 0 0 (Nat.zero_le _)

/-- Reached through `CSuperblockManager::IsValidSuperblock`, the validation
dereferences no null pointer: the superblock that `GetBestSuperblock` returns
is not null and its backing object resolves, and the run returns the verdict. -/
theorem Manager_IsValidSuperblockRun_eq (ctx : ChainContext) (gov : CGovernanceManager)
    (triggerman : CGovernanceTriggerManager) (txNew : CTransaction)
    (nBlockHeight blockReward nBlockTime : Int) :
    CSuperblockManager.IsValidSuperblockRun ctx gov triggerman txNew nBlockHeight blockReward
        nBlockTime
      = some (CSuperblockManager.IsValidSuperblock ctx gov triggerman txNew nBlockHeight
          blockReward nBlockTime) := by
  unfold CSuperblockManager.IsValidSuperblockRun CSuperblockManager.IsValidSuperblock
  cases hb : CSuperblockManager.GetBestSuperblock ctx gov triggerman none nBlockHeight with
  | mk b r =>
    cases b with
    | false => rfl
    | true =>
      obtain ⟨_, sb, pObj, hsb, hObj⟩ :=
        GetBestSuperblock_some ctx gov triggerman none r nBlockHeight hb
      subst hsb
      simp only []
      exact IsValidSuperblockRun_eq ctx gov sb txNew nBlockHeight blockReward nBlockTime
        (fun _ => by rw [hObj]; rfl)

/-- The loop of `IsSuperblockTriggered` dereferences no null pointer. -/
theorem triggeredLoopRun_eq (qc : QuorumContext) (nBlockHeight : Int)
    (l : List (Option CSuperblock)) (gov : CGovernanceManager) :
    triggeredLoopRun qc nBlockHeight l gov = some (triggeredLoop qc nBlockHeight l gov) := by
  induction l generalizing gov with
  | nil => rfl
  | cons p rest ih =>
    cases p with
    | none => simpa [triggeredLoopRun, triggeredLoop] using ih gov
    | some sb =>
      simp only [triggeredLoopRun, triggeredLoop, Option.isNone_some, Bool.false_eq_true,
        if_false]
      cases hg : sb.GetGovernanceObject gov with
      | none => simpa using ih gov
      | some obj =>
        simp only [Option.isNone_some, Bool.false_eq_true, if_false]
        split_ifs
        · exact ih gov
        · rfl
        · exact ih _

/-- C33: the validation predicates end in a boolean for every candidate
transaction, height, block reward, registry and object store, without a
dereference of a null pointer and without an element access out of range:
`CSuperblockManager::IsValidSuperblock` returns its verdict,
`CSuperblockManager::IsSuperblockTriggered` returns its verdict, and
`CSuperblock::IsValidSuperblock` returns its verdict on every superblock whose
backing object resolves when the height is a regular superblock height, as the
superblock of its call at line 567 does. -/
theorem validation_never_faults (ctx : ChainContext) (qc : QuorumContext)
    (gov : CGovernanceManager) (triggerman : CGovernanceTriggerManager) (txNew : CTransaction)
    (nBlockHeight blockReward nBlockTime : Int) :
    CSuperblockManager.IsValidSuperblockRun ctx gov triggerman txNew nBlockHeight blockReward
        nBlockTime
      = some (CSuperblockManager.IsValidSuperblock ctx gov triggerman txNew nBlockHeight
          blockReward nBlockTime) ∧
    CSuperblockManager.IsSuperblockTriggeredRun ctx qc gov triggerman nBlockHeight
      = some (CSuperblockManager.IsSuperblockTriggered ctx qc gov triggerman nBlockHeight) ∧
    (∀ sb : CSuperblock,
      (CSuperblock.IsValidBlockHeight ctx nBlockHeight = true →
        (sb.GetGovernanceObject gov).isSome = true) →
      sb.IsValidSuperblockRun ctx gov txNew nBlockHeight blockReward nBlockTime
        = some (sb.IsValidSuperblock ctx txNew nBlockHeight blockReward nBlockTime)) := by
  refine ⟨Manager_IsValidSuperblockRun_eq ctx gov triggerman txNew nBlockHeight blockReward
    nBlockTime, ?_, fun sb hObj =>
      IsValidSuperblockRun_eq ctx gov sb txNew nBlockHeight blockReward nBlockTime hObj⟩
  unfold CSuperblockManager.IsSuperblockTriggeredRun CSuperblockManager.IsSuperblockTriggered
  split_ifs
  · rfl
  · rfl
  · exact triggeredLoopRun_eq qc nBlockHeight _ gov

/-- Instances of C33 at height 20 of the example chain: the candidate
`[(B,50),(A,100)]` is rejected with the boolean false by the manager and by the
best superblock, whose object resolves, and the height is reported triggered. -/
theorem validation_never_faults_witness :
    CSuperblockManager.IsValidSuperblockRun exampleCtx exampleGov exampleTriggerman
      swappedCandidate 20 1000 0 = some false ∧
    (CSuperblockManager.IsSuperblockTriggeredRun exampleCtx exampleQuorum exampleGov
      exampleTriggerman 20).map (fun r => r.1) = some true ∧
    secondSuperblock.IsValidSuperblockRun exampleCtx exampleGov swappedCandidate 20 1000 0
      = some false :=
  ⟨((validation_never_faults exampleCtx exampleQuorum exampleGov exampleTriggerman
      swappedCandidate 20 1000 0).1).trans (by decide),
    by decide,
    ((validation_never_faults exampleCtx exampleQuorum exampleGov exampleTriggerman
      swappedCandidate 20 1000 0).2.2 secondSuperblock (fun _ => by decide)).trans
      (by decide)⟩

/-! ## The overpayment check and the block reward -/

/-- Counterexample to C34: height 70 of the example chain is a DC superblock
height and a regular superblock height; the superblock for height 70 and the
candidate `[(miner,850),(A,100),(B,50)]` are accepted with the block reward
1000 and rejected with the block reward 0. -/
theorem IsValidSuperblock_reward_matters_at_DC_height :
    CSuperblock.IsDCCSuperblock exampleCtx 70 = true ∧
    CSuperblock.IsValidBlockHeight exampleCtx 70 = true ∧
    seventySuperblock.IsValidSuperblock exampleCtx orderedCandidate 70 1000 0 = true ∧
    seventySuperblock.IsValidSuperblock exampleCtx orderedCandidate 70 0 0 = false := by
  refine ⟨by decide, by decide, by decide, by decide⟩

/-- C34, amended: at a height that is not a regular superblock height, so at a
DC superblock height that `IsValidBlockHeight` rejects, the verdict of
`CSuperblock::IsValidSuperblock` is the same for every two values of
`blockReward`. -/
theorem IsValidSuperblock_reward_independent (ctx : ChainContext) (sb : CSuperblock)
    (txNew : CTransaction) (nBlockHeight nBlockTime blockReward₁ blockReward₂ : Int)
    (hDC : CSuperblock.IsDCCSuperblock ctx nBlockHeight = true)
    (hNotRegular : CSuperblock.IsValidBlockHeight ctx nBlockHeight = false) :
    sb.IsValidSuperblock ctx txNew nBlockHeight blockReward₁ nBlockTime
      = sb.IsValidSuperblock ctx txNew nBlockHeight blockReward₂ nBlockTime := by
  unfold CSuperblock.IsValidSuperblock
  simp [hDC, hNotRegular]

/-- An instance of the amended C34: height 14 of the example chain is a DC
superblock height and not a regular one, and the candidate that pays the miner
850 is judged alike with the block rewards 0 and 1000. -/
theorem IsValidSuperblock_reward_independent_witness :
    CSuperblock.IsDCCSuperblock exampleCtx 14 = true ∧
    CSuperblock.IsValidBlockHeight exampleCtx 14 = false ∧
    exampleSuperblock.IsValidSuperblock exampleCtx orderedCandidate 14 0 0
      = exampleSuperblock.IsValidSuperblock exampleCtx orderedCandidate 14 1000 0 :=
  ⟨by decide, by decide,
    IsValidSuperblock_reward_independent exampleCtx exampleSuperblock orderedCandidate 14 0 0 1000
      (by decide) (by decide)⟩

/-! ## Effects of the clean-up on the object store -/

theorem lookup_expireObject (nAdjustedTime : Int) (a b : Nat)
    (m : List (Nat × CGovernanceObject)) :
    (expireObject nAdjustedTime a m).lookup b
      = if b = a then (m.lookup b).map (expiredObject nAdjustedTime) else m.lookup b := by
  induction m with
  | nil => simp [expireObject]
  | cons e rest ih =>
    obtain ⟨k, o⟩ := e
    simp only [expireObject]
    by_cases hk : k = a
    · subst hk
      by_cases hb : b = k
      · subst hb
        simp [List.lookup_cons, expiredObject]
      · have hb2 : (b == k) = false := by simpa using hb
        simp [List.lookup_cons, hb2, hb]
    · have hk2 : (k == a) = false := by simpa using hk
      simp only [hk2, Bool.false_eq_true, if_false, List.lookup_cons, ih]
      by_cases hb : b = k
      · subst hb
        simp [hk]
      · have hb2 : (b == k) = false := by simpa using hb
        simp [hb2]

theorem expiredObject_idem (nAdjustedTime : Int) (o : Option CGovernanceObject) :
    (o.map (expiredObject nAdjustedTime)).map (expiredObject nAdjustedTime)
      = o.map (expiredObject nAdjustedTime) := by
  cases o <;> rfl

theorem removeStep_snd (nExpirationBlocks nCachedBlockHeight nAdjustedTime : Int)
    (p : Option CSuperblock) (gov : CGovernanceManager) (k : Nat) :
    (removeStep nExpirationBlocks nCachedBlockHeight nAdjustedTime p gov).2.FindGovernanceObject k
      = if expiresObject nExpirationBlocks nCachedBlockHeight k p then
          (gov.FindGovernanceObject k).map (expiredObject nAdjustedTime)
        else gov.FindGovernanceObject k := by
  cases p with
  | none => rfl
  | some sb =>
    simp only [removeStep, expiresObject]
    by_cases h1 : sb.nStatus = SEEN_OBJECT_ERROR_INVALID ∨ sb.nStatus = SEEN_OBJECT_UNKNOWN
    · have h2 : ¬ (sb.nStatus = SEEN_OBJECT_IS_VALID ∨ sb.nStatus = SEEN_OBJECT_EXECUTED) := by
        unfold SEEN_OBJECT_ERROR_INVALID SEEN_OBJECT_UNKNOWN at h1
        unfold SEEN_OBJECT_IS_VALID SEEN_OBJECT_EXECUTED
        omega
      rw [if_pos h1]
      simp [h2]
    · rw [if_neg h1]
      by_cases h2 : sb.nStatus = SEEN_OBJECT_IS_VALID ∨ sb.nStatus = SEEN_OBJECT_EXECUTED
      · rw [if_pos h2]
        by_cases h3 : nCachedBlockHeight > wrap32 (sb.GetBlockStart + nExpirationBlocks)
        · simp only [if_pos h3]
          unfold CGovernanceManager.FindGovernanceObject
          simp only [lookup_expireObject]
          by_cases hk : k = sb.nGovObjHash
          · simp [hk, h2, h3]
          · have hk2 : ¬ sb.nGovObjHash = k := fun h => hk h.symm
            simp [hk, hk2]
        · simp [h3]
      · simp [h2]

/-- The object store after the second loop: the object under a hash carries
the assignments of lines 221-222 exactly when an entry of the loop is evicted
because of expiry and its superblock has that hash. -/
theorem removeLoop_snd (nExpirationBlocks nCachedBlockHeight nAdjustedTime : Int)
    (l : List (Nat × Option CSuperblock)) (gov : CGovernanceManager) (k : Nat) :
    (removeLoop nExpirationBlocks nCachedBlockHeight nAdjustedTime l gov).2.FindGovernanceObject k
      = if l.any (fun e => expiresObject nExpirationBlocks nCachedBlockHeight k e.2) then
          (gov.FindGovernanceObject k).map (expiredObject nAdjustedTime)
        else gov.FindGovernanceObject k := by
  induction l generalizing gov with
  | nil => rfl
  | cons e rest ih =>
    simp only [removeLoop, List.any_cons]
    rw [ih, removeStep_snd]
    by_cases h1 : expiresObject nExpirationBlocks nCachedBlockHeight k e.2 = true <;>
      by_cases h2 : (rest.any
        (fun e => expiresObject nExpirationBlocks nCachedBlockHeight k e.2)) = true <;>
      simp only [h1, h2, if_true, if_false, Bool.false_eq_true, Bool.or_true, Bool.or_false,
        Bool.true_or, expiredObject_idem]

/-- C35: `CleanAndRemove` writes `fExpired = true` and the adjusted time into
the backing object of every entry that it evicts because of expiry (status
valid or executed after the marking loop, chain height above the `int` of
line 213) and whose object resolves; the object under a hash is as before
when every entry whose superblock has that hash is kept or is evicted because
its status is unknown or invalid. -/
theorem CleanAndRemove_expires_objects (nExpirationBlocks : Int) (gov : CGovernanceManager)
    (triggerman : CGovernanceTriggerManager) (nCachedBlockHeight nAdjustedTime : Int) :
    (∀ e ∈ triggerman.mapTrigger, ∀ sb pObj, (markEntry gov e).2 = some sb →
      (sb.nStatus = SEEN_OBJECT_IS_VALID ∨ sb.nStatus = SEEN_OBJECT_EXECUTED) →
      nCachedBlockHeight > wrap32 (sb.GetBlockStart + nExpirationBlocks) →
      sb.GetGovernanceObject gov = some pObj →
      sb.GetGovernanceObject (triggerman.CleanAndRemove nExpirationBlocks gov nCachedBlockHeight
          nAdjustedTime).2
        = some { pObj with fExpired := true, nDeletionTime := nAdjustedTime }) ∧
    (∀ k, (∀ e ∈ triggerman.mapTrigger, ∀ sb, (markEntry gov e).2 = some sb →
        sb.nGovObjHash = k →
        shouldRemove nExpirationBlocks nCachedBlockHeight (some sb) = false
          ∨ sb.nStatus = SEEN_OBJECT_UNKNOWN ∨ sb.nStatus = SEEN_OBJECT_ERROR_INVALID) →
      (triggerman.CleanAndRemove nExpirationBlocks gov nCachedBlockHeight
          nAdjustedTime).2.FindGovernanceObject k = gov.FindGovernanceObject k) := by
  unfold CGovernanceTriggerManager.CleanAndRemove
  constructor
  · intro e he sb pObj hsb hStatus hHeight hObj
    unfold CSuperblock.GetGovernanceObject at hObj ⊢
    simp only [removeLoop_snd]
    have hany : (triggerman.mapTrigger.map (markEntry gov)).any
        (fun e => expiresObject nExpirationBlocks nCachedBlockHeight sb.nGovObjHash e.2)
        = true := by
      rw [List.any_eq_true]
      refine ⟨markEntry gov e, List.mem_map_of_mem _ he, ?_⟩
      rw [hsb]
      simp [expiresObject, hStatus, hHeight]
    rw [if_pos hany, hObj]
    rfl
  · intro k hk
    simp only [removeLoop_snd]
    have hany : (triggerman.mapTrigger.map (markEntry gov)).any
        (fun e => expiresObject nExpirationBlocks nCachedBlockHeight k e.2) = false := by
      rw [List.any_eq_false]
      intro x hx
      obtain ⟨e, he, rfl⟩ := List.mem_map.mp hx
      cases hsb : (markEntry gov e).2 with
      | none => simp [expiresObject]
      | some sb =>
        by_cases hh : sb.nGovObjHash = k
        · rcases hk e he sb hsb hh with h | h | h
          · obtain ⟨_, _, h3⟩ := (shouldRemove_false_iff _ _ sb).mp h
            by_cases hs : sb.nStatus = SEEN_OBJECT_IS_VALID ∨ sb.nStatus = SEEN_OBJECT_EXECUTED
            · simp [expiresObject, h3 hs]
            · simp [expiresObject, hs]
          · have hs : ¬ (sb.nStatus = SEEN_OBJECT_IS_VALID
                ∨ sb.nStatus = SEEN_OBJECT_EXECUTED) := by
              rw [h]
              decide
            simp [expiresObject, hs]
          · have hs : ¬ (sb.nStatus = SEEN_OBJECT_IS_VALID
                ∨ sb.nStatus = SEEN_OBJECT_EXECUTED) := by
              rw [h]
              decide
            simp [expiresObject, hs]
        · simp [expiresObject, hh]
    rw [hany]
    simp

/-- An instance of C35 in the registry of the examples, cleaned at chain height
597 with 576 expiration blocks and the adjusted time 777: the entry of hash 2
for height 20 is evicted because of expiry and its object is marked expired
with the deletion time 777, and the object of hash 4, whose entry for height
30 is kept, is as before. -/
theorem CleanAndRemove_expires_objects_witness :
    (2, some secondSuperblock) ∉ (exampleTriggerman.CleanAndRemove 576 exampleGov 597
      777).1.mapTrigger ∧
    secondSuperblock.GetGovernanceObject (exampleTriggerman.CleanAndRemove 576 exampleGov 597
        777).2
      = some { nObjectType := 2, nAbsoluteYesCountFunding := 7, fExpired := true,
               nDeletionTime := 777 } ∧
    (4, some laterSuperblock) ∈ (exampleTriggerman.CleanAndRemove 576 exampleGov 597
      777).1.mapTrigger ∧
    (exampleTriggerman.CleanAndRemove 576 exampleGov 597 777).2.FindGovernanceObject 4
      = exampleGov.FindGovernanceObject 4 :=
  ⟨by decide,
    (CleanAndRemove_expires_objects 576 exampleGov exampleTriggerman 597 777).1
      (2, some secondSuperblock) (by decide) secondSuperblock
      { nObjectType := 2, nAbsoluteYesCountFunding := 7 } (by decide) (by decide) (by decide)
      (by decide),
    by decide, by decide⟩

/-! ## The tokens of `SplitBy` -/

theorem boostSplit_ne_nil (delims s : List Char) : boostSplit delims s ≠ [] := by
  cases s with
  | nil => simp [boostSplit]
  | cons c cs =>
    simp only [boostSplit]
    split_ifs
    · simp
    · cases boostSplit delims cs <;> simp

theorem boostSplit_no_delimiter (delims s : List Char) :
    ∀ piece ∈ boostSplit delims s, ∀ c ∈ delims, c ∉ piece := by
  induction s with
  | nil => simp [boostSplit]
  | cons c cs ih =>
    intro piece hp d hd
    simp only [boostSplit] at hp
    split_ifs at hp with hc
    · rcases List.mem_cons.mp hp with h | h
      · subst h
        simp
      · exact ih piece h d hd
    · cases hb : boostSplit delims cs with
      | nil => exact absurd hb (boostSplit_ne_nil delims cs)
      | cons q qs =>
        rw [hb] at hp ih
        simp only [List.mem_cons] at hp
        rcases hp with h | h
        · subst h
          intro hmem
          rcases List.mem_cons.mp hmem with h2 | h2
          · subst h2
            exact hc hd
          · exact ih q (List.mem_cons_self _ _) d hd h2
        · exact ih piece (List.mem_cons_of_mem _ h) d hd

theorem intercalate_boostSplit (s : List Char) :
    ['|'].intercalate (boostSplit ['|'] s) = s := by
  induction s with
  | nil => simp [boostSplit, List.intercalate]
  | cons c cs ih =>
    simp only [boostSplit]
    cases hb : boostSplit ['|'] cs with
    | nil => exact absurd hb (boostSplit_ne_nil _ cs)
    | cons q qs =>
      rw [hb] at ih
      split_ifs with hc
      · have hc2 : c = '|' := by simpa using hc
        subst hc2
        simp only [List.intercalate, List.intersperse_cons_cons, List.flatten_cons] at ih ⊢
        simp [ih]
      · cases qs with
        | nil =>
          simp only [List.intercalate, List.intersperse_single, List.flatten_cons, List.flatten_nil,
            List.append_nil] at ih ⊢
          rw [ih]
        | cons r rs =>
          simp only [List.intercalate, List.intersperse_cons_cons, List.flatten_cons] at ih ⊢
          rw [← ih]
          simp

theorem boostSplit_eq_splitOn (s : List Char) : boostSplit ['|'] s = s.splitOn '|' := by
  have h := List.splitOn_intercalate (boostSplit ['|'] s) '|'
    (fun l hl => boostSplit_no_delimiter ['|'] s l hl '|' (by simp)) (boostSplit_ne_nil _ s)
  rw [intercalate_boostSplit] at h
  exact h.symm

theorem containsString_pipe (part : List Char) (h : '|' ∉ part) :
    containsString ['|'] part = decide (part = []) := by
  cases part with
  | nil => simp [containsString, startsWith]
  | cons d ds =>
    have hd : ¬ ('|' = d) := fun e => h (e ▸ List.mem_cons_self _ _)
    simp [containsString, startsWith, hd]

theorem eraseDelimiterParts_pipe (l : List (List Char)) (h : ∀ part ∈ l, '|' ∉ part) :
    eraseDelimiterParts ['|'] l = l.filter (fun t => !t.isEmpty) := by
  induction l with
  | nil => rfl
  | cons part rest ih =>
    have hp := h part (List.mem_cons_self _ _)
    have ih2 := ih (fun q hq => h q (List.mem_cons_of_mem _ hq))
    simp only [eraseDelimiterParts, containsString_pipe part hp, ih2, List.filter_cons]
    cases part <;> simp

/-- C36: for every string, `SplitBy` with the delimiter `|` returns the tokens
of the spec, in order: the string is its pieces joined by single `|`
characters, no piece contains `|`, and the result is the list of the pieces
that are not empty; hence no returned token is empty or contains `|`, and the
empty string has no token. -/
theorem SplitBy_pipe_tokens (s : List Char) :
    SplitBy s "|".toList = pipeTokens s ∧
    (∃ pieces : List (List Char), ['|'].intercalate pieces = s ∧
      (∀ piece ∈ pieces, '|' ∉ piece) ∧
      SplitBy s "|".toList = pieces.filter (fun t => !t.isEmpty)) ∧
    (∀ t ∈ SplitBy s "|".toList, t ≠ [] ∧ '|' ∉ t) ∧
    SplitBy [] "|".toList = [] := by
  have hd : "|".toList = ['|'] := rfl
  have hno : ∀ piece ∈ boostSplit ['|'] s, '|' ∉ piece :=
    fun l hl => boostSplit_no_delimiter ['|'] s l hl '|' (by simp)
  have hs : SplitBy s "|".toList = (boostSplit ['|'] s).filter (fun t => !t.isEmpty) := by
    rw [hd]
    unfold SplitBy
    exact eraseDelimiterParts_pipe _ hno
  refine ⟨?_, ⟨boostSplit ['|'] s, intercalate_boostSplit s, hno, hs⟩, ?_, by decide⟩
  · rw [hs, boostSplit_eq_splitOn]
    rfl
  · intro t ht
    rw [hs] at ht
    obtain ⟨hm, hne⟩ := List.mem_filter.mp ht
    refine ⟨?_, hno t hm⟩
    intro h
    subst h
    simp at hne

/-- The tokens of a string with a leading, a repeated and a trailing
delimiter. -/
theorem SplitBy_example :
    SplitBy "|A||B|".toList "|".toList = ["A".toList, "B".toList] ∧
    SplitBy "||".toList "|".toList = [] := by
  refine ⟨by decide, by decide⟩

/-! ## The matching loop and non-decreasing positions -/

theorem scanOutputs_le_of_match (payment : CGovernancePayment) (rest : List CTxOut) (j m : Nat)
    (txout : CTxOut) (hm : rest[m]? = some txout) (h : paymentMatches payment txout = true) :
    ∃ k, scanOutputs payment rest j = some k ∧ k ≤ j + m := by
  induction rest generalizing j m with
  | nil => simp at hm
  | cons o os ih =>
    simp only [scanOutputs]
    by_cases ho : paymentMatches payment o = true
    · rw [if_pos ho]
      exact ⟨j, rfl, by omega⟩
    · rw [if_neg ho]
      cases m with
      | zero =>
        simp only [List.getElem?_cons_zero, Option.some.injEq] at hm
        subst hm
        exact absurd h ho
      | succ m =>
        simp only [List.getElem?_cons_succ] at hm
        obtain ⟨k, hk, hle⟩ := ih (j + 1) m hm
        exact ⟨k, hk, by omega⟩

theorem chain_of_le (a b : Nat) (js : List Nat) (hab : a ≤ b) (h : List.Chain (· ≤ ·) b js) :
    List.Chain (· ≤ ·) a js := by
  cases h with
  | nil => exact List.Chain.nil
  | cons h1 h2 => exact List.Chain.cons (Nat.le_trans hab h1) h2

/-- The loop in list form accepts the payments from the cursor on exactly when
there are non-decreasing positions, none before the cursor, at which the
outputs equal the payments in script and amount. -/
theorem matchSchedule_iff (vout : List CTxOut) (ps : List CGovernancePayment) (idx : Nat) :
    matchSchedule vout ps idx = true ↔
      ∃ js : List Nat,
        List.Forall₂ (fun j payment => (vout[j]?).map outputKey = some (paymentKey payment))
          js ps ∧
        List.Chain (· ≤ ·) idx js := by
  induction ps generalizing idx with
  | nil =>
    simp only [matchSchedule, true_iff]
    exact ⟨[], List.Forall₂.nil, List.Chain.nil⟩
  | cons p rest ih =>
    simp only [matchSchedule]
    constructor
    · intro h
      cases hs : scanOutputs p (vout.drop idx) idx with
      | none => simp [hs] at h
      | some k =>
        rw [hs] at h
        simp only [] at h
        obtain ⟨hle, txout, hget, hmatch⟩ := scanOutputs_some p _ idx k hs
        obtain ⟨js, hf, hc⟩ := (ih k).mp h
        refine ⟨k :: js, List.Forall₂.cons ?_ hf, List.Chain.cons hle hc⟩
        rw [List.getElem?_drop] at hget
        have hk : idx + (k - idx) = k := by omega
        rw [hk] at hget
        rw [hget]
        simp only [Option.map_some']
        exact congrArg some ((paymentMatches_iff p txout).mp hmatch).symm
    · rintro ⟨js, hf, hc⟩
      cases hf with
      | cons hhead htail =>
        rename_i j js'
        cases hc with
        | cons hle hc' =>
          cases hget : vout[j]? with
          | none => simp [hget] at hhead
          | some txout =>
            rw [hget] at hhead
            simp only [Option.map_some', Option.some.injEq] at hhead
            have hmatch : paymentMatches p txout = true :=
              (paymentMatches_iff p txout).mpr hhead.symm
            have hget2 : (vout.drop idx)[j - idx]? = some txout := by
              rw [List.getElem?_drop]
              have hk : idx + (j - idx) = j := by omega
              rw [hk]
              exact hget
            obtain ⟨k, hk, hkle⟩ := scanOutputs_le_of_match p _ idx (j - idx) txout hget2 hmatch
            rw [hk]
            simp only []
            exact (ih k).mpr ⟨js', htail, chain_of_le k j js' (by omega) hc'⟩

/-- C37: the matching loop of `CSuperblock::IsValidSuperblock` (lines 865-903),
run over all payments from the cursor 0, accepts exactly when there is a list
of output positions, one for each scheduled payment in order, that is
non-decreasing (adjacent positions may be equal) and at which the outputs
equal the payments in script and amount. -/
theorem paymentLoop_iff_nondecreasing_positions (sb : CSuperblock) (vout : List CTxOut) :
    paymentLoop sb vout sb.CountPayments.toNat 0 0 = true ↔
      ∃ js : List Nat,
        List.Forall₂ (fun j payment => (vout[j]?).map outputKey = some (paymentKey payment))
          js sb.vecPayments ∧
        List.Chain' (· ≤ ·) js := by
  rw [paymentLoop_all, matchSchedule_iff]
  constructor
  · rintro ⟨js, hf, hc⟩
    refine ⟨js, hf, ?_⟩
    cases hc with
    | nil => exact List.chain'_nil
    | cons _ h2 => exact h2
  · rintro ⟨js, hf, hc⟩
    refine ⟨js, hf, ?_⟩
    cases js with
    | nil => exact List.Chain.nil
    | cons j js' => exact List.Chain.cons (Nat.zero_le j) hc

/-- An instance of C37: the schedule `[(A,100),(A,100)]` is accepted against
the outputs `[(A,100),(miner,50)]` with the positions 0 and 0. -/
theorem paymentLoop_equal_positions_example :
    paymentLoop twiceSuperblock onceCandidate.vout twiceSuperblock.CountPayments.toNat 0 0
      = true ∧
    List.Forall₂
      (fun j payment => (onceCandidate.vout[j]?).map outputKey = some (paymentKey payment))
      [0, 0] twiceSuperblock.vecPayments := by
  refine ⟨by decide, ?_⟩
  exact List.Forall₂.cons (by decide) (List.Forall₂.cons (by decide) List.Forall₂.nil)

/-! ## Creation and validation -/

theorem superblockOutputs_values (sMessage : String) (b : Bool) (ps : List CGovernancePayment) :
    (superblockOutputs sMessage b ps).map (fun o => o.nValue) = ps.map (fun p => p.nAmount) := by
  induction ps generalizing b with
  | nil => rfl
  | cons p rest ih =>
    simp only [superblockOutputs, List.map_cons, ih]
    cases b <;> rfl

/-- C38: when `GetBestSuperblock` finds the superblock S for the height, the
scheduled total of S is at most `GetPaymentsLimit` of the height, and the
outputs that the transaction holds before the call total at most
`blockReward`, the transaction that `CreateSuperblock` returns is accepted by
`CSuperblockManager::IsValidSuperblock` at the height with that `blockReward`
in the same registry and object store.  The scheduled total and its sum with
`blockReward` are representable in `CAmount`. -/
theorem CreateSuperblock_accepted (ctx : ChainContext) (gov : CGovernanceManager)
    (triggerman : CGovernanceTriggerManager) (txNewRet : CTransaction) (nBlockHeight : Int)
    (voutSuperblockRet : List CTxOut) (pSuperblock : CSuperblock)
    (blockReward nBlockTime : Int)
    (hBest : CSuperblockManager.GetBestSuperblock ctx gov triggerman none nBlockHeight
      = (true, some pSuperblock))
    (hLimit : pSuperblock.scheduledTotal ≤ CSuperblock.GetPaymentsLimit ctx nBlockHeight)
    (hMiner : txNewRet.GetValueOut ≤ blockReward)
    (hTotal : IsInt64 pSuperblock.scheduledTotal)
    (hSum : IsInt64 (blockReward + pSuperblock.scheduledTotal)) :
    CSuperblockManager.IsValidSuperblock ctx gov triggerman
      (CSuperblockManager.CreateSuperblock ctx gov triggerman txNewRet nBlockHeight
        voutSuperblockRet).1 nBlockHeight blockReward nBlockTime = true := by
  rw [CreateSuperblock_of_best ctx gov triggerman txNewRet nBlockHeight voutSuperblockRet
    pSuperblock hBest]
  unfold CSuperblockManager.IsValidSuperblock
  rw [hBest]
  simp only []
  have hHeight :=
    (GetBestSuperblock_some ctx gov triggerman none (some pSuperblock) nBlockHeight hBest).1
  have hAmount : pSuperblock.GetPaymentsTotalAmount = pSuperblock.scheduledTotal := by
    rw [GetPaymentsTotalAmount_eq_wrap64, wrap64_of_IsInt64 _ hTotal]
  rw [IsValidSuperblock_of_checks ctx pSuperblock _ nBlockHeight blockReward nBlockTime hHeight]
  · apply matchSchedule_of_sublist
    simp only [List.drop_zero, List.map_append, superblockOutputs_keys]
    exact List.sublist_append_right _ _
  · have hl := congrArg List.length
      (superblockOutputs_keys (GetQTPhaseXML gov pSuperblock) false pSuperblock.vecPayments)
    simp only [List.length_map] at hl
    simp only [List.length_append, hl]
    omega
  · rw [hAmount]
    exact hLimit
  · intro _
    rw [hAmount, wrap64_of_IsInt64 _ hSum]
    unfold CTransaction.GetValueOut at hMiner ⊢
    simp only [List.map_append, List.sum_append, superblockOutputs_values]
    unfold CSuperblock.scheduledTotal
    omega

/-- An instance of C38: at height 20 of the example chain the best superblock
schedules 150 within the limit 1000; the miner transaction pays out 850 and the
block reward is 1000; the transaction with the created outputs is accepted. -/
theorem CreateSuperblock_accepted_witness :
    CSuperblockManager.GetBestSuperblock exampleCtx exampleGov exampleTriggerman none 20
      = (true, some secondSuperblock) ∧
    (CSuperblockManager.CreateSuperblock exampleCtx exampleGov exampleTriggerman
        minerTransaction 20 []).1.vout.map outputKey
      = [(scriptMiner, 850), (scriptA, 100), (scriptB, 50)] ∧
    CSuperblockManager.IsValidSuperblock exampleCtx exampleGov exampleTriggerman
      (CSuperblockManager.CreateSuperblock exampleCtx exampleGov exampleTriggerman
        minerTransaction 20 []).1 20 1000 0 = true :=
  ⟨by decide, by decide,
    CreateSuperblock_accepted exampleCtx exampleGov exampleTriggerman minerTransaction 20 []
      secondSuperblock 1000 0 (by decide) (by decide) (by decide)
      (by unfold IsInt64; decide) (by unfold IsInt64; decide)⟩

/-! ## The clean-up run twice -/

theorem shouldRemove_of_invalid (nExpirationBlocks nCachedBlockHeight : Int) (sb : CSuperblock)
    (h : sb.nStatus = SEEN_OBJECT_ERROR_INVALID) :
    shouldRemove nExpirationBlocks nCachedBlockHeight (some sb) = true := by
  simp [shouldRemove, h]

/-- An entry that the second loop keeps was not changed by the marking loop. -/
theorem markEntry_eq_of_kept (nExpirationBlocks nCachedBlockHeight : Int)
    (gov : CGovernanceManager) (e : Nat × Option CSuperblock)
    (h : shouldRemove nExpirationBlocks nCachedBlockHeight (markEntry gov e).2 = false) :
    markEntry gov e = e := by
  unfold markEntry at h ⊢
  cases hf : gov.FindGovernanceObject e.1 with
  | none => rfl
  | some pObj =>
    rw [hf] at h
    cases he : e.2 with
    | none => simp
    | some sb =>
      rw [he] at h
      simp only [] at h ⊢
      by_cases ht : pObj.nObjectType ≠ GOVERNANCE_OBJECT_TRIGGER
      · rw [if_pos ht] at h
        simp only [] at h
        rw [shouldRemove_of_invalid _ _ _ rfl] at h
        cases h
      · rw [if_neg ht]

/-- An entry that the second loop keeps is not changed by the marking loop of
a run on an object store with the same object types. -/
theorem markEntry_eq_of_types (nExpirationBlocks nCachedBlockHeight : Int)
    (gov gov₂ : CGovernanceManager) (e : Nat × Option CSuperblock)
    (hTypes : ∀ k, (gov₂.FindGovernanceObject k).map (fun o => o.nObjectType)
      = (gov.FindGovernanceObject k).map (fun o => o.nObjectType))
    (h : shouldRemove nExpirationBlocks nCachedBlockHeight (markEntry gov e).2 = false) :
    markEntry gov₂ (markEntry gov e) = markEntry gov e := by
  have he := markEntry_eq_of_kept nExpirationBlocks nCachedBlockHeight gov e h
  rw [he] at h ⊢
  have hk := hTypes e.1
  unfold markEntry at he ⊢
  cases hf₂ : gov₂.FindGovernanceObject e.1 with
  | none => rfl
  | some pObj₂ =>
    cases hf : gov.FindGovernanceObject e.1 with
    | none => simp [hf₂, hf] at hk
    | some pObj =>
      rw [hf₂, hf] at hk
      simp only [Option.map_some', Option.some.injEq] at hk
      rw [hf] at he
      cases hs : e.2 with
      | none => simp
      | some sb =>
        rw [hs] at he h
        simp only [] at he ⊢
        by_cases ht : pObj.nObjectType ≠ GOVERNANCE_OBJECT_TRIGGER
        · rw [if_pos ht] at he
          have h2 := congrArg Prod.snd he
          rw [hs] at h2
          simp only [Option.some.injEq] at h2
          have h3 : sb.nStatus = SEEN_OBJECT_ERROR_INVALID := by rw [← h2]
          rw [shouldRemove_of_invalid _ _ _ h3] at h
          cases h
        · rw [hk]
          rw [if_neg ht]

theorem CleanAndRemove_eq_filter (nExpirationBlocks : Int) (gov : CGovernanceManager)
    (triggerman : CGovernanceTriggerManager) (nCachedBlockHeight nAdjustedTime : Int) :
    (triggerman.CleanAndRemove nExpirationBlocks gov nCachedBlockHeight nAdjustedTime).1.mapTrigger
      = triggerman.mapTrigger.filter
          (fun e => !shouldRemove nExpirationBlocks nCachedBlockHeight (markEntry gov e).2) := by
  unfold CGovernanceTriggerManager.CleanAndRemove
  simp only [removeLoop_fst, List.filter_map]
  conv_rhs => rw [← List.map_id (List.filter _ triggerman.mapTrigger)]
  apply List.map_congr_left
  intro e he
  have hk := (List.mem_filter.mp he).2
  simp only [Function.comp, Bool.not_eq_true', id] at hk ⊢
  exact markEntry_eq_of_kept _ _ gov e hk

theorem CleanAndRemove_types (nExpirationBlocks : Int) (gov : CGovernanceManager)
    (triggerman : CGovernanceTriggerManager) (nCachedBlockHeight nAdjustedTime : Int) (k : Nat) :
    ((triggerman.CleanAndRemove nExpirationBlocks gov nCachedBlockHeight
        nAdjustedTime).2.FindGovernanceObject k).map (fun o => o.nObjectType)
      = (gov.FindGovernanceObject k).map (fun o => o.nObjectType) := by
  unfold CGovernanceTriggerManager.CleanAndRemove
  simp only [removeLoop_snd]
  split_ifs
  · cases gov.FindGovernanceObject k <;> rfl
  · rfl

/-- C39: a second run of `CleanAndRemove` at the same chain height, on an
object store in which every hash resolves to an object of the same type as in
the first run (or to none, as then), leaves the registry of the first run as
it is; and the registry after a run is a sublist of the registry before, its
entries unchanged. -/
theorem CleanAndRemove_idempotent (nExpirationBlocks : Int) (gov gov₂ : CGovernanceManager)
    (triggerman : CGovernanceTriggerManager)
    (nCachedBlockHeight nAdjustedTime nAdjustedTime₂ : Int)
    (hTypes : ∀ k, (gov₂.FindGovernanceObject k).map (fun o => o.nObjectType)
      = (gov.FindGovernanceObject k).map (fun o => o.nObjectType)) :
    ((triggerman.CleanAndRemove nExpirationBlocks gov nCachedBlockHeight
        nAdjustedTime).1.CleanAndRemove nExpirationBlocks gov₂ nCachedBlockHeight
        nAdjustedTime₂).1
      = (triggerman.CleanAndRemove nExpirationBlocks gov nCachedBlockHeight nAdjustedTime).1 ∧
    (triggerman.CleanAndRemove nExpirationBlocks gov nCachedBlockHeight
        nAdjustedTime).1.mapTrigger.Sublist triggerman.mapTrigger := by
  constructor
  · have h2 := CleanAndRemove_eq_filter nExpirationBlocks gov₂
      (triggerman.CleanAndRemove nExpirationBlocks gov nCachedBlockHeight nAdjustedTime).1
      nCachedBlockHeight nAdjustedTime₂
    have hself : (triggerman.CleanAndRemove nExpirationBlocks gov nCachedBlockHeight
        nAdjustedTime).1.mapTrigger.filter
          (fun e => !shouldRemove nExpirationBlocks nCachedBlockHeight (markEntry gov₂ e).2)
        = (triggerman.CleanAndRemove nExpirationBlocks gov nCachedBlockHeight
            nAdjustedTime).1.mapTrigger := by
      rw [List.filter_eq_self]
      intro x hx
      obtain ⟨⟨e, _, he⟩, hkeep⟩ := (mem_CleanAndRemove _ _ _ _ _ x).mp hx
      subst he
      rw [markEntry_eq_of_types nExpirationBlocks nCachedBlockHeight gov gov₂ e hTypes hkeep,
        hkeep]
      rfl
    rw [hself] at h2
    cases hc : (triggerman.CleanAndRemove nExpirationBlocks gov nCachedBlockHeight
        nAdjustedTime).1.CleanAndRemove nExpirationBlocks gov₂ nCachedBlockHeight
        nAdjustedTime₂ with
    | mk r g =>
      rw [hc] at h2
      cases r
      simp only [] at h2 ⊢
      rw [h2]
  · rw [CleanAndRemove_eq_filter]
    exact List.filter_sublist _

/-- An instance of C39: the registry of the examples cleaned at chain height
597 keeps the entry for height 30 only, the object store that the run leaves
has the object types of the store before, and a second run on it at the same
height leaves the registry as it is. -/
theorem CleanAndRemove_idempotent_witness :
    (exampleTriggerman.CleanAndRemove 576 exampleGov 597 777).1
      = { mapTrigger := [(4, some laterSuperblock)] } ∧
    ((exampleTriggerman.CleanAndRemove 576 exampleGov 597 777).1.CleanAndRemove 576
        (exampleTriggerman.CleanAndRemove 576 exampleGov 597 777).2 597 778).1
      = (exampleTriggerman.CleanAndRemove 576 exampleGov 597 777).1 :=
  ⟨by decide,
    (CleanAndRemove_idempotent 576 exampleGov
      (exampleTriggerman.CleanAndRemove 576 exampleGov 597 777).2 exampleTriggerman 597 777 778
      (CleanAndRemove_types 576 exampleGov exampleTriggerman 597 777)).1⟩

/-! ## The reachable registries -/

theorem parsePaymentLoop_ok (pc : ParseContext) (addresses amounts : List (List Char))
    (vecPayments vecResult : List CGovernancePayment)
    (hLength : addresses.length = amounts.length)
    (h : parsePaymentLoop pc addresses amounts vecPayments = (none, vecResult)) :
    vecResult.length = vecPayments.length + addresses.length ∧
    ((∀ p ∈ vecPayments, MoneyRange pc p.nAmount = true) →
      ∀ p ∈ vecResult, MoneyRange pc p.nAmount = true) := by
  induction addresses generalizing amounts vecPayments with
  | nil =>
    cases amounts with
    | nil =>
      simp only [parsePaymentLoop, Prod.mk.injEq, true_and] at h
      subst h
      exact ⟨by simp, fun hp => hp⟩
    | cons m ms => simp at hLength
  | cons a as ih =>
    cases amounts with
    | nil => simp at hLength
    | cons m ms =>
      simp only [parsePaymentLoop] at h
      split_ifs at h
      · cases h
      · cases hm : ParsePaymentAmount pc m with
        | error e =>
          rw [hm] at h
          cases h
        | ok nAmount =>
          rw [hm] at h
          simp only [] at h
          cases hs : pc.paymentScript a with
          | none =>
            rw [hs] at h
            cases h
          | some script =>
            rw [hs] at h
            simp only [] at h
            obtain ⟨h1, h2⟩ := ih ms _ (by simpa using hLength) h
            refine ⟨by simp at h1 ⊢; omega, fun hp => h2 ?_⟩
            intro p hmem
            rcases List.mem_append.mp hmem with hmem | hmem
            · exact hp p hmem
            · simp only [List.mem_singleton] at hmem
              subst hmem
              exact (ParsePaymentAmount_ok pc m nAmount hm).2.2.2.2.2.2

theorem ParsePaymentSchedule_ok (pc : ParseContext)
    (strPaymentAddresses strPaymentAmounts : List Char)
    (vecResult : List CGovernancePayment)
    (h : CSuperblock.ParsePaymentSchedule pc strPaymentAddresses strPaymentAmounts []
      = (none, vecResult)) :
    vecResult ≠ [] ∧ ∀ p ∈ vecResult, MoneyRange pc p.nAmount = true := by
  unfold CSuperblock.ParsePaymentSchedule at h
  simp only [] at h
  split_ifs at h with h1 h2
  · cases h
  · cases h
  · obtain ⟨hl, hp⟩ := parsePaymentLoop_ok pc _ _ [] vecResult (not_not.mp h1) h
    refine ⟨?_, hp (by simp)⟩
    intro he
    rw [he] at hl
    simp only [List.length_nil, Nat.zero_add] at hl
    exact h2 hl.symm

theorem construct_ok (pc : ParseContext) (gov : CGovernanceManager) (nHash : Nat)
    (sb : CSuperblock) (h : CSuperblock.construct pc gov nHash = .ok sb) :
    sb.nGovObjHash = nHash ∧ sb.vecPayments ≠ [] ∧
      ∀ p ∈ sb.vecPayments, MoneyRange pc p.nAmount = true := by
  unfold CSuperblock.construct at h
  cases hf : gov.FindGovernanceObject nHash with
  | none => simp [hf] at h
  | some pGovObj =>
    rw [hf] at h
    simp only [] at h
    split_ifs at h
    cases h1 : (jsonField pGovObj.jsonObject "event_block_height").get_int with
    | error e => simp [h1] at h
    | ok nEpochStart =>
      cases h2 : (jsonField pGovObj.jsonObject "payment_addresses").get_str with
      | error e => simp [h1, h2] at h
      | ok strAddresses =>
        cases h3 : (jsonField pGovObj.jsonObject "payment_amounts").get_str with
        | error e => simp [h1, h2, h3] at h
        | ok strAmounts =>
          rw [h1, h2, h3] at h
          simp only [] at h
          cases h4 : CSuperblock.ParsePaymentSchedule pc strAddresses strAmounts [] with
          | mk e vecPayments =>
            rw [h4] at h
            cases e with
            | some e => cases h
            | none =>
              simp only [Except.ok.injEq] at h
              subst h
              obtain ⟨h5, h6⟩ := ParsePaymentSchedule_ok pc strAddresses strAmounts vecPayments h4
              exact ⟨rfl, h5, h6⟩

theorem mem_mapInsert (m : List (Nat × Option CSuperblock)) (nHash : Nat)
    (p : Option CSuperblock) (e : Nat × Option CSuperblock) (h : e ∈ mapInsert m nHash p) :
    e ∈ m ∨ e = (nHash, p) := by
  induction m with
  | nil =>
    simp only [mapInsert, List.mem_singleton] at h
    exact Or.inr h
  | cons x rest ih =>
    simp only [mapInsert] at h
    split_ifs at h
    · rcases List.mem_cons.mp h with h | h
      · exact Or.inr h
      · exact Or.inl h
    · exact Or.inl h
    · rcases List.mem_cons.mp h with h | h
      · exact Or.inl (h ▸ List.mem_cons_self _ _)
      · rcases ih h with h | h
        · exact Or.inl (List.mem_cons_of_mem _ h)
        · exact Or.inr h

/-- C40: in every registry reachable from the empty registry by calls of
`AddNewTrigger` and `CleanAndRemove`, every entry holds a superblock that is
not null, is stored under the key equal to the source object hash of the
superblock, has the status valid, holds at least one payment, and has every
payment amount in the money range. -/
theorem Reachable_entries_valid (pc : ParseContext) (nExpirationBlocks : Int)
    (triggerman : CGovernanceTriggerManager) (h : Reachable pc nExpirationBlocks triggerman) :
    ∀ e ∈ triggerman.mapTrigger, ∃ sb, e.2 = some sb ∧ sb.nGovObjHash = e.1 ∧
      sb.nStatus = SEEN_OBJECT_IS_VALID ∧ 0 < sb.CountPayments ∧
      ∀ p ∈ sb.vecPayments, MoneyRange pc p.nAmount = true := by
  induction h with
  | empty => simp
  | addNewTrigger tm gov nHash _ ih =>
    unfold CGovernanceTriggerManager.AddNewTrigger
    split_ifs
    · exact ih
    · cases hc : CSuperblock.construct pc gov nHash with
      | error e => exact ih
      | ok sbTmp =>
        simp only []
        intro e he
        rcases mem_mapInsert _ _ _ e he with he | he
        · exact ih e he
        · subst he
          obtain ⟨h1, h2, h3⟩ := construct_ok pc gov nHash sbTmp hc
          refine ⟨_, rfl, h1, rfl, ?_, h3⟩
          simp only [CSuperblock.CountPayments]
          have := List.length_pos.mpr h2
          omega
  | cleanAndRemove tm gov nCachedBlockHeight nAdjustedTime _ ih =>
    intro e he
    rw [CleanAndRemove_eq_filter] at he
    exact ih e (List.mem_filter.mp he).1

/-- An instance of C40: the registry obtained from the empty registry by
`AddNewTrigger` on the trigger object of hash 6 holds under the key 6 the
superblock of hash 6 with the status valid and the two payments of 1 coin and
of 0.5 coin. -/
theorem Reachable_entries_valid_witness :
    (({ mapTrigger := [] } : CGovernanceTriggerManager).AddNewTrigger exampleParseContext
        parseGov 6).2 = { mapTrigger := [(6, some addedSuperblock)] } ∧
    ∀ e ∈ [((6 : Nat), some addedSuperblock)], ∃ sb, e.2 = some sb ∧ sb.nGovObjHash = e.1 ∧
      sb.nStatus = SEEN_OBJECT_IS_VALID ∧ 0 < sb.CountPayments ∧
      ∀ p ∈ sb.vecPayments, MoneyRange exampleParseContext p.nAmount = true :=
  have hAdd : (({ mapTrigger := [] } : CGovernanceTriggerManager).AddNewTrigger
      exampleParseContext parseGov 6).2 = { mapTrigger := [(6, some addedSuperblock)] } := by
    decide
  ⟨hAdd,
    Reachable_entries_valid exampleParseContext 576 { mapTrigger := [(6, some addedSuperblock)] }
      (hAdd ▸ Reachable.addNewTrigger _ parseGov 6 Reachable.empty)⟩

end Biblepay
